import Mathlib

/-!
Operand clean-up transforms of the x86 instruction set database.

A shallow embedding of `cpu_instructions/x86/cleanup_instruction_set_fix_operands.cc`:
the eight transforms that normalise the operands of the instructions of an
`InstructionSetProto`.  Every transform takes the instruction set and returns the
updated instruction set together with the `Status` the C++ function returns.
-/

namespace cpu_instructions

/-! ## Data model -/

/-- Modelled from the spec: the `usage` of an operand (the protocol buffer declaration of
`InstructionOperand` is not part of the sources); the source names `USAGE_READ` and
`USAGE_WRITE`. -/
inductive Usage where
  | USAGE_READ
  | USAGE_WRITE
  | USAGE_READ_WRITE
  deriving DecidableEq

/-- Modelled from the spec: the `encoding` of an operand; the source names
`IMPLICIT_ENCODING`. -/
inductive Encoding where
  | EXPLICIT_ENCODING
  | IMPLICIT_ENCODING
  deriving DecidableEq

/-- Modelled from the spec: one operand of an instruction (`OperandDescriptor`, in the
source `InstructionOperand`). -/
structure InstructionOperand where
  name : String
  usage : Usage
  encoding : Encoding
  deriving DecidableEq

/-- Modelled from the spec: the vendor syntax of an instruction, in the source
`InstructionFormat`: the mnemonic and the ordered operands. -/
structure InstructionFormat where
  mnemonic : String
  operands : List InstructionOperand
  deriving DecidableEq

/-- Modelled from the spec: one instruction record, in the source `InstructionProto`.
`description` stands for the fields that no transform reads or writes. -/
structure InstructionProto where
  vendor_syntax : InstructionFormat
  binary_encoding : String
  description : String
  deriving DecidableEq

/-- Modelled from the spec: the instruction set document, in the source
`InstructionSetProto`: the ordered instruction records. -/
structure InstructionSetProto where
  instructions : List InstructionProto
  deriving DecidableEq

/-- The value of `util::Status`: `Status::OK`, or the status built by
`InvalidArgumentError` with its message. -/
inductive Status where
  | OK
  | InvalidArgumentError (message : String)
  deriving DecidableEq

/-! ## Helpers of `util/gtl/map_util.h` and of the C++ standard library -/

/-- `ContainsKey` on an `unordered_set<string>`. -/
def ContainsKey (collection : List String) (key : String) : Bool :=
  collection.contains key

/-- `FindOrNull` on an `unordered_map<string, string>` given by its entries. -/
def FindOrNull (collection : List (String × String)) (key : String) : Option String :=
  (collection.find? (fun entry => entry.1 == key)).map (fun entry => entry.2)

/-- `FindCopy`: the value that is copied to the output argument when the key is
present, `none` when the call returns false (and leaves the output untouched). -/
def FindCopy (collection : List (String × String)) (key : String) : Option String :=
  FindOrNull collection key

/-- The elements of the iterator range `[first, last)` over an array, both iterators
given by their offset from `std::begin`. -/
def iteratorRange (array : List String) (first last : Nat) : List String :=
  (array.drop first).take (last - first)

/-- The loop `for (InstructionProto& instruction : *instructions)` of a transform that
keeps a `status` variable: the body updates the instruction in place and may assign
the status. -/
def forEachInstruction (body : InstructionProto → Status → InstructionProto × Status) :
    List InstructionProto → Status → List InstructionProto × Status
  | [], status => ([], status)
  | instruction :: rest, status =>
    let updated := body instruction status
    let tail := forEachInstruction body rest updated.2
    (updated.1 :: tail.1, tail.2)

/-! ## Constants of the anonymous namespace -/

/-- Mapping from memory operands to their sizes as used in the Intel assembly syntax. -/
def kOperandToPointerSize : List (String × String) :=
  [("m8", "BYTE"), ("m16", "WORD"), ("m32", "DWORD"), ("m64", "QWORD")]

/-- List of RSI-indexed source arrays. -/
def kRSIIndexes : List String :=
  ["BYTE PTR [RSI]", "WORD PTR [RSI]", "DWORD PTR [RSI]", "QWORD PTR [RSI]"]

/-- List of RDI-indexed destination arrays. -/
def kRDIIndexes : List String :=
  ["BYTE PTR [RDI]", "WORD PTR [RDI]", "DWORD PTR [RDI]", "QWORD PTR [RDI]"]

/-! ## FixOperandsOfCmpsAndMovs -/

namespace FixOperandsOfCmpsAndMovs

def kMnemonics : List String := ["CMPS", "MOVS"]

/-- Built from the range `(std::begin(kRSIIndexes), std::begin(kRSIIndexes))`. -/
def kSourceOperands : List String := iteratorRange kRSIIndexes 0 0

/-- Built from the range `(std::begin(kRDIIndexes), std::begin(kRDIIndexes))`. -/
def kDestinationOperands : List String := iteratorRange kRDIIndexes 0 0

def kIndexings : List String := ["[RDI]", "[RSI]"]

/-- The body of the loop over the instructions. -/
def body (instruction : InstructionProto) (status : Status) : InstructionProto × Status :=
  let vendor_syntax := instruction.vendor_syntax
  if !ContainsKey kMnemonics vendor_syntax.mnemonic then
    (instruction, status)
  else
    match vendor_syntax.operands with
    | [operand0, operand1] =>
      let found := FindCopy kOperandToPointerSize operand0.name
      if found.isNone && !ContainsKey kSourceOperands operand0.name &&
          !ContainsKey kDestinationOperands operand0.name then
        (instruction, Status.InvalidArgumentError
          ("Unexpected operand of a CMPS/MOVS instruction: " ++ operand0.name))
      else
        -- `string pointer_size;` keeps its initial empty value when `FindCopy` fails.
        let pointer_size := found.getD ""
        let dest := if vendor_syntax.mnemonic == "MOVS" then 0 else 1
        let src := 1 - dest
        let new0 : InstructionOperand :=
          { operand0 with
            name := pointer_size ++ " PTR " ++ kIndexings.getD dest ""
            usage := if dest == 0 then Usage.USAGE_WRITE else Usage.USAGE_READ }
        let new1 : InstructionOperand :=
          { operand1 with
            name := pointer_size ++ " PTR " ++ kIndexings.getD src ""
            usage := Usage.USAGE_READ }
        ({ instruction with
            vendor_syntax := { vendor_syntax with operands := [new0, new1] } }, status)
    | _ =>
      (instruction, Status.InvalidArgumentError
        "Unexpected number of operands of a CMPS/MOVS instruction.")

end FixOperandsOfCmpsAndMovs

/-- The transform `FixOperandsOfCmpsAndMovs`. -/
def FixOperandsOfCmpsAndMovs (instruction_set : InstructionSetProto) :
    InstructionSetProto × Status :=
  let result := forEachInstruction FixOperandsOfCmpsAndMovs.body
    instruction_set.instructions Status.OK
  ({ instruction_set with instructions := result.1 }, result.2)

/-! ## FixOperandsOfInsAndOuts -/

namespace FixOperandsOfInsAndOuts

def kIns : String := "INS"

def kOuts : String := "OUTS"

/-- The body of the loop over the instructions. -/
def body (instruction : InstructionProto) (status : Status) : InstructionProto × Status :=
  let vendor_syntax := instruction.vendor_syntax
  let is_ins := vendor_syntax.mnemonic == kIns
  let is_outs := vendor_syntax.mnemonic == kOuts
  if !is_ins && !is_outs then
    (instruction, status)
  else
    match vendor_syntax.operands with
    | [operand0, operand1] =>
      -- `!FindCopy(.., operands(0).name(), ..) && !FindCopy(.., operands(1).name(), ..)`:
      -- the second lookup runs only when the first one fails.
      match (FindCopy kOperandToPointerSize operand0.name).orElse
          (fun _ => FindCopy kOperandToPointerSize operand1.name) with
      | none =>
        (instruction, Status.InvalidArgumentError
          ("Unexpected operands of an INS/OUTS instruction: " ++ operand0.name ++ ", " ++
            operand1.name))
      | some pointer_size =>
        if is_ins then
          let new0 : InstructionOperand :=
            { operand0 with name := pointer_size ++ " PTR [RDI]", usage := Usage.USAGE_WRITE }
          let new1 : InstructionOperand :=
            { operand1 with name := "DX", usage := Usage.USAGE_READ }
          ({ instruction with
              vendor_syntax := { vendor_syntax with operands := [new0, new1] } }, status)
        else
          let new0 : InstructionOperand :=
            { operand0 with name := "DX", usage := Usage.USAGE_READ }
          let new1 : InstructionOperand :=
            { operand1 with name := pointer_size ++ " PTR [RSI]", usage := Usage.USAGE_READ }
          ({ instruction with
              vendor_syntax := { vendor_syntax with operands := [new0, new1] } }, status)
    | _ =>
      (instruction, Status.InvalidArgumentError
        "Unexpected number of operands of an INS/OUTS instruction.")

end FixOperandsOfInsAndOuts

/-- The transform `FixOperandsOfInsAndOuts`. -/
def FixOperandsOfInsAndOuts (instruction_set : InstructionSetProto) :
    InstructionSetProto × Status :=
  let result := forEachInstruction FixOperandsOfInsAndOuts.body
    instruction_set.instructions Status.OK
  ({ instruction_set with instructions := result.1 }, result.2)

/-! ## FixOperandsOfLodsScasAndStos -/

namespace FixOperandsOfLodsScasAndStos

def kLods : String := "LODS"

def kScas : String := "SCAS"

def kStos : String := "STOS"

def kOperandToRegister : List (String × String) :=
  [("m8", "AL"), ("m16", "AX"), ("m32", "EAX"), ("m64", "RAX")]

/-- The operand made by `add_operands()` followed by `set_encoding(IMPLICIT_ENCODING)`,
`set_name(name)` and `set_usage(USAGE_READ)`. -/
def implicitReadOperand (name : String) : InstructionOperand :=
  { name := name, usage := Usage.USAGE_READ, encoding := Encoding.IMPLICIT_ENCODING }

/-- The body of the loop over the instructions. -/
def body (instruction : InstructionProto) (status : Status) : InstructionProto × Status :=
  let vendor_syntax := instruction.vendor_syntax
  let is_lods := vendor_syntax.mnemonic == kLods
  let is_stos := vendor_syntax.mnemonic == kStos
  let is_scas := vendor_syntax.mnemonic == kScas
  if !is_lods && !is_stos && !is_scas then
    (instruction, status)
  else
    match vendor_syntax.operands with
    | [operand0] =>
      match FindCopy kOperandToRegister operand0.name,
          FindCopy kOperandToPointerSize operand0.name with
      | some register_operand, some pointer_size =>
        -- `clear_operands()`, then the calls of `add_operands()` in their order.
        let operands : List InstructionOperand := []
        let operands :=
          if is_stos then operands ++ [implicitReadOperand (pointer_size ++ " PTR [RDI]")]
          else operands
        let operands := operands ++ [implicitReadOperand register_operand]
        let operands :=
          if is_lods then operands ++ [implicitReadOperand (pointer_size ++ " PTR [RSI]")]
          else operands
        let operands :=
          if is_scas then operands ++ [implicitReadOperand (pointer_size ++ " PTR [RDI]")]
          else operands
        ({ instruction with
            vendor_syntax := { vendor_syntax with operands := operands } }, status)
      | _, _ =>
        (instruction, Status.InvalidArgumentError
          ("Unexpected operand of a LODS/STOS instruction: " ++ operand0.name))
    | _ =>
      (instruction, Status.InvalidArgumentError
        "Unexpected number of operands of a LODS/STOS instruction.")

end FixOperandsOfLodsScasAndStos

/-- The transform `FixOperandsOfLodsScasAndStos`. -/
def FixOperandsOfLodsScasAndStos (instruction_set : InstructionSetProto) :
    InstructionSetProto × Status :=
  let result := forEachInstruction FixOperandsOfLodsScasAndStos.body
    instruction_set.instructions Status.OK
  ({ instruction_set with instructions := result.1 }, result.2)

/-! ## FixOperandsOfVMovq -/

namespace FixOperandsOfVMovq

def kVMovQEncoding : String := "VEX.128.F3.0F.WIG 7E /r"

def kRegisterOrMemoryOperand : String := "xmm2/m64"

/-- The loop over the instructions; it returns from the transform at the first
instruction with the encoding of VMOVQ that does not have two operands.
`DebugString` is the text rendering of a record of the protocol buffer library. -/
def loop (DebugString : InstructionProto → String) :
    List InstructionProto → List InstructionProto × Status
  | [] => ([], Status.OK)
  | instruction :: rest =>
    if instruction.binary_encoding != kVMovQEncoding then
      let tail := loop DebugString rest
      (instruction :: tail.1, tail.2)
    else
      match instruction.vendor_syntax.operands with
      | [operand0, operand1] =>
        let updated : InstructionProto :=
          { instruction with
            vendor_syntax := { instruction.vendor_syntax with
              operands := [operand0, { operand1 with name := kRegisterOrMemoryOperand }] } }
        let tail := loop DebugString rest
        (updated :: tail.1, tail.2)
      | _ =>
        (instruction :: rest, Status.InvalidArgumentError
          ("Unexpected number of operands of a VMOVQ instruction: " ++
            DebugString instruction))

end FixOperandsOfVMovq

/-- The transform `FixOperandsOfVMovq`; `DebugString` is the text rendering of a record
that the protocol buffer library provides (used in the error message only). -/
def FixOperandsOfVMovq (DebugString : InstructionProto → String)
    (instruction_set : InstructionSetProto) : InstructionSetProto × Status :=
  let result := FixOperandsOfVMovq.loop DebugString instruction_set.instructions
  ({ instruction_set with instructions := result.1 }, result.2)

/-! ## FixRegOperands -/

namespace FixRegOperands

def kR8Operand : String := "r8"

def kR16Operand : String := "r16"

def kR32Operand : String := "r32"

def kR64Operand : String := "r64"

def kRegOperand : String := "reg"

/-- The mnemonics for which we add new entries. -/
def kExpandToAllSizes : List String := ["LAR"]

/-- The mnemonics for which we just replace reg with r8. -/
def kRenameToReg8 : List String := ["VPBROADCASTB"]

/-- The mnemonics for which we just replace reg with r16. -/
def kRenameToReg16 : List String := ["VPBROADCASTW"]

/-- The mnemonics for which we just replace reg with r32. -/
def kRenameToReg32 : List String :=
  ["EXTRACTPS", "MOVMSKPD", "MOVMSKPS", "PEXTRB", "PEXTRW", "PMOVMSKB",
   "VMOVMSKPD", "VMOVMSKPS", "VPEXTRB", "VPEXTRW", "VPMOVMSKB"]

/-- The instruction with its operand list replaced. -/
def withOperands (instruction : InstructionProto) (operands : List InstructionOperand) :
    InstructionProto :=
  { instruction with vendor_syntax := { instruction.vendor_syntax with operands := operands } }

/-- The loop over the operands of one instruction.  The operands of the instruction are
`visited ++ pending`: `visited` are the operands before the iterator, as the loop left
them, `pending` the operand under the iterator and those after it; the other fields of
the instruction as mutated so far are those of `instruction`.  The result is the
instruction after the loop, the vector `new_instruction_protos` and the status. -/
def operandLoop (instruction : InstructionProto) (visited : List InstructionOperand) :
    List InstructionOperand → List InstructionProto → Status →
      InstructionProto × List InstructionProto × Status
  | [], new_instruction_protos, status =>
    (withOperands instruction visited, new_instruction_protos, status)
  | operand :: pending, new_instruction_protos, status =>
    let mnemonic := instruction.vendor_syntax.mnemonic
    if operand.name == kRegOperand then
      if ContainsKey kExpandToAllSizes mnemonic then
        -- `operand.set_name(kR32Operand); new_instruction_protos.push_back(instruction);`
        let copy := withOperands instruction
          (visited ++ { operand with name := kR32Operand } :: pending)
        -- `operand.set_name(kR64Operand); instruction.set_binary_encoding(..);`
        operandLoop
          { instruction with binary_encoding := "REX.W + " ++ instruction.binary_encoding }
          (visited ++ [{ operand with name := kR64Operand }]) pending
          (new_instruction_protos ++ [copy]) status
      else if ContainsKey kRenameToReg8 mnemonic then
        operandLoop instruction (visited ++ [{ operand with name := kR8Operand }]) pending
          new_instruction_protos status
      else if ContainsKey kRenameToReg16 mnemonic then
        operandLoop instruction (visited ++ [{ operand with name := kR16Operand }]) pending
          new_instruction_protos status
      else if ContainsKey kRenameToReg32 mnemonic then
        operandLoop instruction (visited ++ [{ operand with name := kR32Operand }]) pending
          new_instruction_protos status
      else
        operandLoop instruction (visited ++ [operand]) pending new_instruction_protos
          (Status.InvalidArgumentError ("Unexpected instruction mnemonic: " ++ mnemonic))
    else
      operandLoop instruction (visited ++ [operand]) pending new_instruction_protos status

/-- The loop over the instructions: the instructions as updated in place, the vector
`new_instruction_protos` and the status. -/
def instructionLoop :
    List InstructionProto → List InstructionProto → Status →
      List InstructionProto × List InstructionProto × Status
  | [], new_instruction_protos, status => ([], new_instruction_protos, status)
  | instruction :: rest, new_instruction_protos, status =>
    let updated := operandLoop instruction [] instruction.vendor_syntax.operands
      new_instruction_protos status
    let tail := instructionLoop rest updated.2.1 updated.2.2
    (updated.1 :: tail.1, tail.2.1, tail.2.2)

end FixRegOperands

/-- The transform `FixRegOperands`: after the loop the collected records are appended
to the instructions (`std::copy` with a back inserter). -/
def FixRegOperands (instruction_set : InstructionSetProto) : InstructionSetProto × Status :=
  let result := FixRegOperands.instructionLoop instruction_set.instructions [] Status.OK
  ({ instruction_set with instructions := result.1 ++ result.2.1 }, result.2.2)

/-! ## RenameOperands -/

namespace RenameOperands

def kOperandRenaming : List (String × String) :=
  [("m80dec", "m80bcd"), ("r8/m8", "r/m8"), ("r16/m16", "r/m16"), ("r32/m32", "r/m32"),
   ("r64/m64", "r/m64"), ("ST", "ST(0)"), ("m14/28byte", "m28byte"),
   ("m94/108byte", "m108byte")]

/-- The body of the loop over the operands. -/
def renameOperand (operand : InstructionOperand) : InstructionOperand :=
  match FindOrNull kOperandRenaming operand.name with
  | some renamed => { operand with name := renamed }
  | none => operand

/-- The body of the loop over the instructions. -/
def body (instruction : InstructionProto) : InstructionProto :=
  { instruction with
    vendor_syntax := { instruction.vendor_syntax with
      operands := instruction.vendor_syntax.operands.map renameOperand } }

end RenameOperands

/-- The transform `RenameOperands`. -/
def RenameOperands (instruction_set : InstructionSetProto) : InstructionSetProto × Status :=
  ({ instruction_set with instructions := instruction_set.instructions.map RenameOperands.body },
    Status.OK)

/-! ## Removal of operands: `operands->erase(std::remove_if(..), operands->end())` -/

/-- The loop of `std::remove_if` over the whole sequence: `first` is the read position,
`result` the write position and `remaining` the distance of `first` to the end; an
element that does not satisfy the predicate is assigned to the write position. -/
def remove_if_loop (pred : InstructionOperand → Bool) :
    Nat → Nat → Nat → List InstructionOperand → List InstructionOperand × Nat
  | 0, _, result, operands => (operands, result)
  | remaining + 1, first, result, operands =>
    match operands[first]? with
    | none => (operands, result)
    | some operand =>
      if pred operand then remove_if_loop pred remaining (first + 1) result operands
      else remove_if_loop pred remaining (first + 1) (result + 1) (operands.set result operand)

/-- `std::remove_if(operands->begin(), operands->end(), pred)`: the sequence after the
call and the position the call returns. -/
def remove_if (pred : InstructionOperand → Bool) (operands : List InstructionOperand) :
    List InstructionOperand × Nat :=
  remove_if_loop pred operands.length 0 0 operands

/-- `operands->erase(position, operands->end())`. -/
def erase_to_end (operands : List InstructionOperand) (position : Nat) :
    List InstructionOperand :=
  operands.take position

/-- The statement `operands->erase(std::remove_if(begin, end, pred), operands->end())`. -/
def erase_remove_if (pred : InstructionOperand → Bool) (operands : List InstructionOperand) :
    List InstructionOperand :=
  let removed := remove_if pred operands
  erase_to_end removed.1 removed.2

/-! ## RemoveImplicitST0Operand -/

namespace RemoveImplicitST0Operand

def kImplicitST0Operand : String := "ST(0)"

def kUpdatedInstructionEncodings : List String :=
  ["D8 C0+i", "D8 C8+i", "D8 E0+i", "D8 E8+i", "D8 F0+i", "D8 F8+i",
   "DB E8+i", "DB F0+i", "DE C0+i", "DE C8+i", "DE E0+i", "DE E8+i",
   "DE F0+i", "DE F8+i", "DF E8+i", "DF F0+i"]

/-- The body of the loop over the instructions. -/
def body (instruction : InstructionProto) : InstructionProto :=
  if !ContainsKey kUpdatedInstructionEncodings instruction.binary_encoding then
    instruction
  else
    { instruction with
      vendor_syntax := { instruction.vendor_syntax with
        operands := erase_remove_if (fun operand => operand.name == kImplicitST0Operand)
          instruction.vendor_syntax.operands } }

end RemoveImplicitST0Operand

/-- The transform `RemoveImplicitST0Operand`. -/
def RemoveImplicitST0Operand (instruction_set : InstructionSetProto) :
    InstructionSetProto × Status :=
  ({ instruction_set with
      instructions := instruction_set.instructions.map RemoveImplicitST0Operand.body },
    Status.OK)

/-! ## RemoveImplicitXmm0Operand -/

namespace RemoveImplicitXmm0Operand

def kImplicitXmm0Operand : String := "<XMM0>"

/-- The body of the loop over the instructions. -/
def body (instruction : InstructionProto) : InstructionProto :=
  { instruction with
    vendor_syntax := { instruction.vendor_syntax with
      operands := erase_remove_if (fun operand => operand.name == kImplicitXmm0Operand)
        instruction.vendor_syntax.operands } }

end RemoveImplicitXmm0Operand

/-- The transform `RemoveImplicitXmm0Operand`. -/
def RemoveImplicitXmm0Operand (instruction_set : InstructionSetProto) :
    InstructionSetProto × Status :=
  ({ instruction_set with
      instructions := instruction_set.instructions.map RemoveImplicitXmm0Operand.body },
    Status.OK)

/-! ## Functions used to state the effect of `FixRegOperands` record by record -/

namespace FixRegOperands

/-- The record that the loop over the operands leaves in the place of `instruction`. -/
def updatedInPlace (instruction : InstructionProto) : InstructionProto :=
  (operandLoop instruction [] instruction.vendor_syntax.operands [] Status.OK).1

/-- The records that the loop over the operands of `instruction` adds to
`new_instruction_protos`. -/
def collected (instruction : InstructionProto) : List InstructionProto :=
  (operandLoop instruction [] instruction.vendor_syntax.operands [] Status.OK).2.1

/-- The status that the loop over the operands of `instruction` ends with when it is
entered with `OK`. -/
def assigned (instruction : InstructionProto) : Status :=
  (operandLoop instruction [] instruction.vendor_syntax.operands [] Status.OK).2.2

/-- The status variable after a stretch of the loop that started with `status` and that,
started with `OK`, ends with `later`: an assignment in the stretch overrides. -/
def combine (status later : Status) : Status :=
  match later with
  | Status.OK => status
  | Status.InvalidArgumentError message => Status.InvalidArgumentError message

/-- The number of operands named reg in a list of operands. -/
def regCount (operands : List InstructionOperand) : Nat :=
  operands.countP (fun operand => operand.name == kRegOperand)

/-- A record on which the pass has nothing left to do: when its mnemonic is on one of the
four lists, none of its operands is named reg. -/
def Settled (instruction : InstructionProto) : Prop :=
  (ContainsKey kExpandToAllSizes instruction.vendor_syntax.mnemonic = true ∨
    ContainsKey kRenameToReg8 instruction.vendor_syntax.mnemonic = true ∨
    ContainsKey kRenameToReg16 instruction.vendor_syntax.mnemonic = true ∨
    ContainsKey kRenameToReg32 instruction.vendor_syntax.mnemonic = true) →
  ∀ operand ∈ instruction.vendor_syntax.operands, operand.name ≠ "reg"

end FixRegOperands

/-! ## Documents used as concrete instances -/

namespace Example

/-- An INS record with a sized memory operand, and an OUTS record without one. -/
def insOuts : InstructionSetProto :=
  ⟨[⟨⟨"INS", [⟨"m8", .USAGE_READ, .EXPLICIT_ENCODING⟩,
      ⟨"DX", .USAGE_READ_WRITE, .EXPLICIT_ENCODING⟩]⟩, "6C", ""⟩,
    ⟨⟨"OUTS", [⟨"DX", .USAGE_READ, .EXPLICIT_ENCODING⟩,
      ⟨"m128", .USAGE_READ, .EXPLICIT_ENCODING⟩]⟩, "6E", ""⟩]⟩

/-- A LAR record with one operand named reg. -/
def lar : InstructionSetProto :=
  ⟨[⟨⟨"LAR", [⟨"reg", .USAGE_WRITE, .EXPLICIT_ENCODING⟩,
      ⟨"r32/m16", .USAGE_READ, .EXPLICIT_ENCODING⟩]⟩, "0F 02 /r", "Load Access Rights"⟩]⟩

/-- A record that is renamed, a record whose mnemonic is on no list and has an operand
named reg, and a record that is renamed after it. -/
def regRecords : InstructionSetProto :=
  ⟨[⟨⟨"VPBROADCASTB", [⟨"xmm1", .USAGE_WRITE, .EXPLICIT_ENCODING⟩,
      ⟨"reg", .USAGE_READ, .EXPLICIT_ENCODING⟩]⟩, "EVEX.128.66.0F38.W0 7A /r", ""⟩,
    ⟨⟨"MOVD", [⟨"reg", .USAGE_WRITE, .EXPLICIT_ENCODING⟩,
      ⟨"xmm1", .USAGE_READ, .EXPLICIT_ENCODING⟩]⟩, "66 0F 7E /r", ""⟩,
    ⟨⟨"PEXTRW", [⟨"reg", .USAGE_WRITE, .EXPLICIT_ENCODING⟩,
      ⟨"xmm1", .USAGE_READ, .EXPLICIT_ENCODING⟩,
      ⟨"imm8", .USAGE_READ, .EXPLICIT_ENCODING⟩]⟩, "66 0F C5 /r ib", ""⟩]⟩

/-- A well-formed VMOVQ record, a record with another encoding, a record with the
encoding of VMOVQ and one operand, and a second well-formed VMOVQ record. -/
def vmovq : InstructionSetProto :=
  ⟨[⟨⟨"VMOVQ", [⟨"xmm1", .USAGE_WRITE, .EXPLICIT_ENCODING⟩,
      ⟨"m64", .USAGE_READ, .EXPLICIT_ENCODING⟩]⟩, "VEX.128.F3.0F.WIG 7E /r", ""⟩,
    ⟨⟨"VMOVQ", [⟨"xmm1", .USAGE_WRITE, .EXPLICIT_ENCODING⟩,
      ⟨"r/m64", .USAGE_READ, .EXPLICIT_ENCODING⟩]⟩, "VEX.128.66.0F.W1 6E /r", ""⟩,
    ⟨⟨"VMOVQ", [⟨"xmm1", .USAGE_WRITE, .EXPLICIT_ENCODING⟩]⟩, "VEX.128.F3.0F.WIG 7E /r", ""⟩,
    ⟨⟨"VMOVQ", [⟨"xmm1", .USAGE_WRITE, .EXPLICIT_ENCODING⟩,
      ⟨"xmm2", .USAGE_READ, .EXPLICIT_ENCODING⟩]⟩, "VEX.128.F3.0F.WIG 7E /r", ""⟩]⟩

/-- A LAR record with two operands named reg. -/
def larTwoRegs : InstructionSetProto :=
  ⟨[⟨⟨"LAR", [⟨"reg", .USAGE_WRITE, .EXPLICIT_ENCODING⟩,
      ⟨"reg", .USAGE_READ, .EXPLICIT_ENCODING⟩]⟩, "0F 02 /r", ""⟩]⟩

/-- A record with an operand named by a key of the renaming table. -/
def fbld : InstructionSetProto :=
  ⟨[⟨⟨"FBLD", [⟨"m80dec", .USAGE_READ, .EXPLICIT_ENCODING⟩]⟩, "DF /4", ""⟩]⟩

end Example

/-! ## The registrations of the transforms -/

/-- The registrations `REGISTER_INSTRUCTION_SET_TRANSFORM(transform, priority)` of the
file, in their order: the name of the transform and its priority. -/
def registeredTransforms : List (String × Int) :=
  [("FixOperandsOfCmpsAndMovs", 2000), ("FixOperandsOfInsAndOuts", 2000),
   ("FixOperandsOfLodsScasAndStos", 2000), ("FixOperandsOfVMovq", 2000),
   ("FixRegOperands", 2000), ("RenameOperands", 2000),
   ("RemoveImplicitST0Operand", 2000), ("RemoveImplicitXmm0Operand", 2000)]

/-- The priority with which a transform is registered. -/
def registeredPriority (transform : String) : Option Int :=
  (registeredTransforms.find? (fun entry => entry.1 == transform)).map (fun entry => entry.2)

/-! ## The mnemonics of a document -/

/-- The mnemonics of the records of a document, in the order of the records. -/
def mnemonics (instruction_set : InstructionSetProto) : List String :=
  instruction_set.instructions.map (fun r => r.vendor_syntax.mnemonic)

/-! ## The renaming of `RenameOperands` as the specification states it -/

/-- The name that the specification gives an operand after the renaming pass: the value
of the renaming table when the name is a key of the table, the name itself otherwise. -/
def RenameOperands.canonicalName (name : String) : String :=
  if name = "m80dec" then "m80bcd"
  else if name = "r8/m8" then "r/m8"
  else if name = "r16/m16" then "r/m16"
  else if name = "r32/m32" then "r/m32"
  else if name = "r64/m64" then "r/m64"
  else if name = "ST" then "ST(0)"
  else if name = "m14/28byte" then "m28byte"
  else if name = "m94/108byte" then "m108byte"
  else name

/-! ## More documents used as concrete instances -/

namespace Example

/-- A CMPS record with two operands of the size table. -/
def cmps : InstructionSetProto :=
  ⟨[⟨⟨"CMPS", [⟨"m32", .USAGE_READ_WRITE, .EXPLICIT_ENCODING⟩,
      ⟨"m32", .USAGE_READ_WRITE, .EXPLICIT_ENCODING⟩]⟩, "A7", ""⟩]⟩

/-- A MOVS record whose operands already are the index forms. -/
def movsIndexForms : InstructionSetProto :=
  ⟨[⟨⟨"MOVS", [⟨"BYTE PTR [RDI]", .USAGE_WRITE, .EXPLICIT_ENCODING⟩,
      ⟨"BYTE PTR [RSI]", .USAGE_READ, .EXPLICIT_ENCODING⟩]⟩, "A4", ""⟩]⟩

/-- A well-formed MOVS record, a MOVS record with three operands, a record with another
mnemonic and a well-formed CMPS record. -/
def movsMalformed : InstructionSetProto :=
  ⟨[⟨⟨"MOVS", [⟨"m8", .USAGE_READ_WRITE, .EXPLICIT_ENCODING⟩,
      ⟨"m8", .USAGE_READ_WRITE, .EXPLICIT_ENCODING⟩]⟩, "A4", ""⟩,
    ⟨⟨"MOVS", [⟨"m8", .USAGE_READ_WRITE, .EXPLICIT_ENCODING⟩,
      ⟨"m8", .USAGE_READ_WRITE, .EXPLICIT_ENCODING⟩,
      ⟨"m8", .USAGE_READ_WRITE, .EXPLICIT_ENCODING⟩]⟩, "A4", ""⟩,
    ⟨⟨"MOV", [⟨"m8", .USAGE_WRITE, .EXPLICIT_ENCODING⟩,
      ⟨"r8", .USAGE_READ, .EXPLICIT_ENCODING⟩]⟩, "88 /r", ""⟩,
    ⟨⟨"CMPS", [⟨"m16", .USAGE_READ_WRITE, .EXPLICIT_ENCODING⟩,
      ⟨"m16", .USAGE_READ_WRITE, .EXPLICIT_ENCODING⟩]⟩, "A7", ""⟩]⟩

/-- A MOVS record with three operands. -/
def movsThree : InstructionProto :=
  ⟨⟨"MOVS", [⟨"m8", .USAGE_READ_WRITE, .EXPLICIT_ENCODING⟩,
    ⟨"m8", .USAGE_READ_WRITE, .EXPLICIT_ENCODING⟩,
    ⟨"m8", .USAGE_READ_WRITE, .EXPLICIT_ENCODING⟩]⟩, "A4", ""⟩

/-- A MOVS record with the operands foo and bar. -/
def movsFooBar : InstructionProto :=
  ⟨⟨"MOVS", [⟨"foo", .USAGE_READ_WRITE, .EXPLICIT_ENCODING⟩,
    ⟨"bar", .USAGE_READ_WRITE, .EXPLICIT_ENCODING⟩]⟩, "A4", ""⟩

/-- A well-formed MOVS record. -/
def movsSized : InstructionProto :=
  ⟨⟨"MOVS", [⟨"m8", .USAGE_READ_WRITE, .EXPLICIT_ENCODING⟩,
    ⟨"m8", .USAGE_READ_WRITE, .EXPLICIT_ENCODING⟩]⟩, "A4", ""⟩

/-- A LODS record without operands. -/
def lodsNoOperands : InstructionSetProto :=
  ⟨[⟨⟨"LODS", []⟩, "AC", ""⟩]⟩

/-- A LODS record with an operand of the size table, a SCAS record with another operand
and a STOS record with an operand of the size table. -/
def lodsScasStos : InstructionSetProto :=
  ⟨[⟨⟨"LODS", [⟨"m8", .USAGE_READ, .EXPLICIT_ENCODING⟩]⟩, "AC", ""⟩,
    ⟨⟨"SCAS", [⟨"m128", .USAGE_READ, .EXPLICIT_ENCODING⟩]⟩, "AE", ""⟩,
    ⟨⟨"STOS", [⟨"m64", .USAGE_WRITE, .EXPLICIT_ENCODING⟩]⟩, "REX.W + AB", ""⟩]⟩

/-- The FADD record with the encoding "D8 C0+i", an operand named ST and an operand named
ST(i), and the FBLD record. -/
def fadd : InstructionSetProto :=
  ⟨[⟨⟨"FADD", [⟨"ST", .USAGE_READ_WRITE, .EXPLICIT_ENCODING⟩,
      ⟨"ST(i)", .USAGE_READ, .EXPLICIT_ENCODING⟩]⟩, "D8 C0+i", ""⟩,
    ⟨⟨"FBLD", [⟨"m80dec", .USAGE_READ, .EXPLICIT_ENCODING⟩]⟩, "DF /4", ""⟩]⟩

/-- The FADD record with the encoding "D8 C0+i" and the operands ST(0) and ST(i), and the
FBLD record. -/
def faddST0 : InstructionSetProto :=
  ⟨[⟨⟨"FADD", [⟨"ST(0)", .USAGE_READ_WRITE, .EXPLICIT_ENCODING⟩,
      ⟨"ST(i)", .USAGE_READ, .EXPLICIT_ENCODING⟩]⟩, "D8 C0+i", ""⟩,
    ⟨⟨"FBLD", [⟨"m80dec", .USAGE_READ, .EXPLICIT_ENCODING⟩]⟩, "DF /4", ""⟩]⟩

end Example

/-! ## Lemmas on the loop over the instructions -/

theorem forEachInstruction_fst (body : InstructionProto → Status → InstructionProto × Status)
    (f : InstructionProto → InstructionProto) (h : ∀ i s, (body i s).1 = f i)
    (l : List InstructionProto) (status : Status) :
    (forEachInstruction body l status).1 = l.map f := by
  induction l generalizing status with
  | nil => rfl
  | cons a l ih => simp [forEachInstruction, h, ih]

/-- A status that is an error stays an error when the body never assigns `OK`. -/
theorem forEachInstruction_error_of_error
    (body : InstructionProto → Status → InstructionProto × Status)
    (hbody : ∀ i s, s ≠ Status.OK → (body i s).2 ≠ Status.OK)
    (l : List InstructionProto) (status : Status) (h : status ≠ Status.OK) :
    (forEachInstruction body l status).2 ≠ Status.OK := by
  induction l generalizing status with
  | nil => exact h
  | cons a l ih => exact ih _ (hbody a status h)

/-- The loop ends with an error as soon as the body assigns an error at one record. -/
theorem forEachInstruction_error_of_mem
    (body : InstructionProto → Status → InstructionProto × Status)
    (hbody : ∀ i s, s ≠ Status.OK → (body i s).2 ≠ Status.OK)
    (l : List InstructionProto) (status : Status) (a : InstructionProto) (ha : a ∈ l)
    (herr : ∀ s, (body a s).2 ≠ Status.OK) :
    (forEachInstruction body l status).2 ≠ Status.OK := by
  induction l generalizing status with
  | nil => cases ha
  | cons b l ih =>
    rcases List.mem_cons.1 ha with rfl | hmem
    · exact forEachInstruction_error_of_error body hbody l _ (herr status)
    · exact ih _ hmem

/-! ## FixOperandsOfCmpsAndMovs -/

/-- The record that the loop body of `FixOperandsOfCmpsAndMovs` leaves in place does not
depend on the status variable. -/
theorem cmpsMovs_body_fst (i : InstructionProto) (s : Status) :
    (FixOperandsOfCmpsAndMovs.body i s).1 = (FixOperandsOfCmpsAndMovs.body i Status.OK).1 := by
  unfold FixOperandsOfCmpsAndMovs.body
  dsimp only
  split
  · rfl
  · split
    · split <;> rfl
    · rfl

theorem cmpsMovs_instructions (s : InstructionSetProto) :
    (FixOperandsOfCmpsAndMovs s).1.instructions =
      s.instructions.map (fun i => (FixOperandsOfCmpsAndMovs.body i Status.OK).1) := by
  unfold FixOperandsOfCmpsAndMovs
  exact forEachInstruction_fst _ _ (fun i s => cmpsMovs_body_fst i s) _ _

/-- C1: in every document, a record with exactly two operands whose operand 0 is named
m8, m16, m32 or m64 (size keyword S = BYTE, WORD, DWORD, QWORD) ends, whatever the name
of operand 1, as follows: a MOVS record with operand 0 named "S PTR [RDI]" (usage WRITE)
and operand 1 named "S PTR [RSI]" (usage READ); a CMPS record with operand 0 named
"S PTR [RSI]" (usage READ) and operand 1 named "S PTR [RDI]" (usage READ).  Nothing else
of the record changes. -/
theorem FixOperandsOfCmpsAndMovs_sized_memory_operand
    (instruction_set : InstructionSetProto) (i : Nat) (instruction : InstructionProto)
    (operand0 operand1 : InstructionOperand) (S : String)
    (hi : instruction_set.instructions[i]? = some instruction)
    (hops : instruction.vendor_syntax.operands = [operand0, operand1])
    (hS : operand0.name = "m8" ∧ S = "BYTE" ∨ operand0.name = "m16" ∧ S = "WORD" ∨
      operand0.name = "m32" ∧ S = "DWORD" ∨ operand0.name = "m64" ∧ S = "QWORD") :
    (instruction.vendor_syntax.mnemonic = "MOVS" →
      (FixOperandsOfCmpsAndMovs instruction_set).1.instructions[i]? =
        some { instruction with
          vendor_syntax := { instruction.vendor_syntax with
            operands :=
              [{ operand0 with name := S ++ " PTR [RDI]", usage := Usage.USAGE_WRITE },
               { operand1 with name := S ++ " PTR [RSI]", usage := Usage.USAGE_READ }] } }) ∧
    (instruction.vendor_syntax.mnemonic = "CMPS" →
      (FixOperandsOfCmpsAndMovs instruction_set).1.instructions[i]? =
        some { instruction with
          vendor_syntax := { instruction.vendor_syntax with
            operands :=
              [{ operand0 with name := S ++ " PTR [RSI]", usage := Usage.USAGE_READ },
               { operand1 with name := S ++ " PTR [RDI]", usage := Usage.USAGE_READ }] } }) := by
  rw [cmpsMovs_instructions, List.getElem?_map, hi]
  constructor
  · intro hm
    rcases hS with ⟨h, rfl⟩ | ⟨h, rfl⟩ | ⟨h, rfl⟩ | ⟨h, rfl⟩ <;>
      simp [FixOperandsOfCmpsAndMovs.body, hm, hops, h, ContainsKey,
        FixOperandsOfCmpsAndMovs.kMnemonics, FindCopy, FindOrNull, kOperandToPointerSize,
        FixOperandsOfCmpsAndMovs.kIndexings]
  · intro hm
    rcases hS with ⟨h, rfl⟩ | ⟨h, rfl⟩ | ⟨h, rfl⟩ | ⟨h, rfl⟩ <;>
      simp [FixOperandsOfCmpsAndMovs.body, hm, hops, h, ContainsKey,
        FixOperandsOfCmpsAndMovs.kMnemonics, FindCopy, FindOrNull, kOperandToPointerSize,
        FixOperandsOfCmpsAndMovs.kIndexings]

/-- Witness of C1: MOVS with operands m8, m8 and CMPS with operands m32, m32. -/
theorem FixOperandsOfCmpsAndMovs_sized_memory_operand_witness :
    (FixOperandsOfCmpsAndMovs
      ⟨[⟨⟨"MOVS", [⟨"m8", .USAGE_READ_WRITE, .EXPLICIT_ENCODING⟩,
          ⟨"m8", .USAGE_READ_WRITE, .EXPLICIT_ENCODING⟩]⟩, "A4", ""⟩]⟩).1.instructions[0]? =
      some ⟨⟨"MOVS", [⟨"BYTE PTR [RDI]", .USAGE_WRITE, .EXPLICIT_ENCODING⟩,
          ⟨"BYTE PTR [RSI]", .USAGE_READ, .EXPLICIT_ENCODING⟩]⟩, "A4", ""⟩ ∧
    (FixOperandsOfCmpsAndMovs
      ⟨[⟨⟨"CMPS", [⟨"m32", .USAGE_READ_WRITE, .EXPLICIT_ENCODING⟩,
          ⟨"m32", .USAGE_READ_WRITE, .EXPLICIT_ENCODING⟩]⟩, "A7", ""⟩]⟩).1.instructions[0]? =
      some ⟨⟨"CMPS", [⟨"DWORD PTR [RSI]", .USAGE_READ, .EXPLICIT_ENCODING⟩,
          ⟨"DWORD PTR [RDI]", .USAGE_READ, .EXPLICIT_ENCODING⟩]⟩, "A7", ""⟩ :=
  ⟨(FixOperandsOfCmpsAndMovs_sized_memory_operand
      ⟨[⟨⟨"MOVS", [⟨"m8", .USAGE_READ_WRITE, .EXPLICIT_ENCODING⟩,
          ⟨"m8", .USAGE_READ_WRITE, .EXPLICIT_ENCODING⟩]⟩, "A4", ""⟩]⟩ 0 _ _ _ "BYTE"
      rfl rfl (by decide)).1 rfl,
   (FixOperandsOfCmpsAndMovs_sized_memory_operand
      ⟨[⟨⟨"CMPS", [⟨"m32", .USAGE_READ_WRITE, .EXPLICIT_ENCODING⟩,
          ⟨"m32", .USAGE_READ_WRITE, .EXPLICIT_ENCODING⟩]⟩, "A7", ""⟩]⟩ 0 _ _ _ "DWORD"
      rfl rfl (by decide)).2 rfl⟩

/-! ## FixOperandsOfLodsScasAndStos -/

theorem lodsScasStos_body_fst (i : InstructionProto) (s : Status) :
    (FixOperandsOfLodsScasAndStos.body i s).1 =
      (FixOperandsOfLodsScasAndStos.body i Status.OK).1 := by
  unfold FixOperandsOfLodsScasAndStos.body
  dsimp only
  split
  · rfl
  · split
    · split <;> rfl
    · rfl

theorem lodsScasStos_instructions (s : InstructionSetProto) :
    (FixOperandsOfLodsScasAndStos s).1.instructions =
      s.instructions.map (fun i => (FixOperandsOfLodsScasAndStos.body i Status.OK).1) := by
  unfold FixOperandsOfLodsScasAndStos
  exact forEachInstruction_fst _ _ (fun i s => lodsScasStos_body_fst i s) _ _

/-- C2: in every document, a record with mnemonic LODS, SCAS or STOS and exactly one
operand, named m8, m16, m32 or m64 (register R = AL, AX, EAX, RAX and size keyword
S = BYTE, WORD, DWORD, QWORD), has its operand list replaced by exactly two operands,
both IMPLICIT and READ: for STOS "S PTR [RDI]" then R, for LODS R then "S PTR [RSI]",
for SCAS R then "S PTR [RDI]". -/
theorem FixOperandsOfLodsScasAndStos_rewrites_operands
    (instruction_set : InstructionSetProto) (i : Nat) (instruction : InstructionProto)
    (operand0 : InstructionOperand) (R S : String)
    (hi : instruction_set.instructions[i]? = some instruction)
    (hops : instruction.vendor_syntax.operands = [operand0])
    (hS : operand0.name = "m8" ∧ R = "AL" ∧ S = "BYTE" ∨
      operand0.name = "m16" ∧ R = "AX" ∧ S = "WORD" ∨
      operand0.name = "m32" ∧ R = "EAX" ∧ S = "DWORD" ∨
      operand0.name = "m64" ∧ R = "RAX" ∧ S = "QWORD") :
    (instruction.vendor_syntax.mnemonic = "STOS" →
      (FixOperandsOfLodsScasAndStos instruction_set).1.instructions[i]? =
        some { instruction with
          vendor_syntax := { instruction.vendor_syntax with
            operands :=
              [⟨S ++ " PTR [RDI]", Usage.USAGE_READ, Encoding.IMPLICIT_ENCODING⟩,
               ⟨R, Usage.USAGE_READ, Encoding.IMPLICIT_ENCODING⟩] } }) ∧
    (instruction.vendor_syntax.mnemonic = "LODS" →
      (FixOperandsOfLodsScasAndStos instruction_set).1.instructions[i]? =
        some { instruction with
          vendor_syntax := { instruction.vendor_syntax with
            operands :=
              [⟨R, Usage.USAGE_READ, Encoding.IMPLICIT_ENCODING⟩,
               ⟨S ++ " PTR [RSI]", Usage.USAGE_READ, Encoding.IMPLICIT_ENCODING⟩] } }) ∧
    (instruction.vendor_syntax.mnemonic = "SCAS" →
      (FixOperandsOfLodsScasAndStos instruction_set).1.instructions[i]? =
        some { instruction with
          vendor_syntax := { instruction.vendor_syntax with
            operands :=
              [⟨R, Usage.USAGE_READ, Encoding.IMPLICIT_ENCODING⟩,
               ⟨S ++ " PTR [RDI]", Usage.USAGE_READ, Encoding.IMPLICIT_ENCODING⟩] } }) := by
  rw [lodsScasStos_instructions, List.getElem?_map, hi]
  obtain ⟨⟨mnemonic, operands⟩, enc, desc⟩ := instruction
  obtain ⟨name, usage, encoding⟩ := operand0
  simp only at hops hS
  subst hops
  refine ⟨?_, ?_, ?_⟩ <;> intro hm <;> simp only at hm <;> subst hm <;>
    rcases hS with ⟨rfl, rfl, rfl⟩ | ⟨rfl, rfl, rfl⟩ | ⟨rfl, rfl, rfl⟩ | ⟨rfl, rfl, rfl⟩ <;>
      rfl

/-- Witness of C2: a STOS record with the operand m16. -/
theorem FixOperandsOfLodsScasAndStos_rewrites_operands_witness :
    (FixOperandsOfLodsScasAndStos
      ⟨[⟨⟨"STOS", [⟨"m16", .USAGE_WRITE, .EXPLICIT_ENCODING⟩]⟩, "AB", ""⟩]⟩).1.instructions[0]? =
      some ⟨⟨"STOS", [⟨"WORD PTR [RDI]", .USAGE_READ, .IMPLICIT_ENCODING⟩,
          ⟨"AX", .USAGE_READ, .IMPLICIT_ENCODING⟩]⟩, "AB", ""⟩ :=
  (FixOperandsOfLodsScasAndStos_rewrites_operands
    ⟨[⟨⟨"STOS", [⟨"m16", .USAGE_WRITE, .EXPLICIT_ENCODING⟩]⟩, "AB", ""⟩]⟩ 0 _ _ "AX" "WORD"
    rfl rfl (by decide)).1 rfl

/-! ## FixOperandsOfInsAndOuts -/

theorem insOuts_body_fst (i : InstructionProto) (s : Status) :
    (FixOperandsOfInsAndOuts.body i s).1 = (FixOperandsOfInsAndOuts.body i Status.OK).1 := by
  unfold FixOperandsOfInsAndOuts.body
  dsimp only
  split
  · rfl
  · split
    · split
      · rfl
      · split <;> rfl
    · rfl

theorem insOuts_instructions (s : InstructionSetProto) :
    (FixOperandsOfInsAndOuts s).1.instructions =
      s.instructions.map (fun i => (FixOperandsOfInsAndOuts.body i Status.OK).1) := by
  unfold FixOperandsOfInsAndOuts
  exact forEachInstruction_fst _ _ (fun i s => insOuts_body_fst i s) _ _

/-- The body of the loop of `FixOperandsOfInsAndOuts` never assigns `OK` to the status. -/
theorem insOuts_body_error (i : InstructionProto) (s : Status) (h : s ≠ Status.OK) :
    (FixOperandsOfInsAndOuts.body i s).2 ≠ Status.OK := by
  unfold FixOperandsOfInsAndOuts.body
  dsimp only
  split
  · exact h
  · split
    · split
      · simp
      · split <;> exact h
    · simp

theorem status_ne_OK_iff (s : Status) :
    s ≠ Status.OK ↔ ∃ message, s = Status.InvalidArgumentError message := by
  cases s with
  | OK => simp
  | InvalidArgumentError m => simp

/-- A name outside the size table is not found in `kOperandToPointerSize`. -/
theorem findCopy_pointerSize_none (name : String)
    (h : name ∉ ["m8", "m16", "m32", "m64"]) :
    FindCopy kOperandToPointerSize name = none := by
  simp only [List.mem_cons, List.mem_singleton, List.not_mem_nil, or_false, not_or] at h
  obtain ⟨h1, h2, h3, h4⟩ := h
  simp [FindCopy, FindOrNull, kOperandToPointerSize, List.find?,
    beq_false_of_ne (Ne.symm h1), beq_false_of_ne (Ne.symm h2),
    beq_false_of_ne (Ne.symm h3), beq_false_of_ne (Ne.symm h4)]

/-- C3: in every document, for a record with mnemonic INS or OUTS: when it has exactly
two operands of which at least one is named m8, m16, m32 or m64, the size keyword S is
that of operand 0 if operand 0 is in the size table and otherwise that of operand 1; an
INS record ends with operand 0 named "S PTR [RDI]" (usage WRITE) and operand 1 named
"DX" (usage READ), an OUTS record with operand 0 named "DX" (usage READ) and operand 1
named "S PTR [RSI]" (usage READ).  When the record has another number of operands, or no
operand in the size table, the record is left unchanged and the pass returns an error. -/
theorem FixOperandsOfInsAndOuts_contract
    (instruction_set : InstructionSetProto) (i : Nat) (instruction : InstructionProto)
    (hi : instruction_set.instructions[i]? = some instruction)
    (hm : instruction.vendor_syntax.mnemonic = "INS" ∨
      instruction.vendor_syntax.mnemonic = "OUTS") :
    (∀ (operand0 operand1 : InstructionOperand) (S : String),
      instruction.vendor_syntax.operands = [operand0, operand1] →
      ((operand0.name = "m8" ∧ S = "BYTE" ∨ operand0.name = "m16" ∧ S = "WORD" ∨
          operand0.name = "m32" ∧ S = "DWORD" ∨ operand0.name = "m64" ∧ S = "QWORD") ∨
        (operand0.name ∉ ["m8", "m16", "m32", "m64"] ∧
          (operand1.name = "m8" ∧ S = "BYTE" ∨ operand1.name = "m16" ∧ S = "WORD" ∨
            operand1.name = "m32" ∧ S = "DWORD" ∨ operand1.name = "m64" ∧ S = "QWORD"))) →
      (instruction.vendor_syntax.mnemonic = "INS" →
        (FixOperandsOfInsAndOuts instruction_set).1.instructions[i]? =
          some { instruction with
            vendor_syntax := { instruction.vendor_syntax with
              operands :=
                [{ operand0 with name := S ++ " PTR [RDI]", usage := Usage.USAGE_WRITE },
                 { operand1 with name := "DX", usage := Usage.USAGE_READ }] } }) ∧
      (instruction.vendor_syntax.mnemonic = "OUTS" →
        (FixOperandsOfInsAndOuts instruction_set).1.instructions[i]? =
          some { instruction with
            vendor_syntax := { instruction.vendor_syntax with
              operands :=
                [{ operand0 with name := "DX", usage := Usage.USAGE_READ },
                 { operand1 with name := S ++ " PTR [RSI]", usage := Usage.USAGE_READ }] } })) ∧
    ((instruction.vendor_syntax.operands.length ≠ 2 ∨
        ∀ operand ∈ instruction.vendor_syntax.operands,
          operand.name ∉ ["m8", "m16", "m32", "m64"]) →
      (FixOperandsOfInsAndOuts instruction_set).1.instructions[i]? = some instruction ∧
      ∃ message,
        (FixOperandsOfInsAndOuts instruction_set).2 = Status.InvalidArgumentError message) := by
  have hmn : (!(instruction.vendor_syntax.mnemonic == FixOperandsOfInsAndOuts.kIns) &&
      !(instruction.vendor_syntax.mnemonic == FixOperandsOfInsAndOuts.kOuts)) = false := by
    rcases hm with h | h <;> rw [h] <;> decide
  constructor
  · intro operand0 operand1 S hops hS
    rw [insOuts_instructions, List.getElem?_map, hi]
    have hfind : (FindCopy kOperandToPointerSize operand0.name).orElse
        (fun _ => FindCopy kOperandToPointerSize operand1.name) = some S := by
      rcases hS with h0 | ⟨h0, h1⟩
      · rcases h0 with ⟨h, rfl⟩ | ⟨h, rfl⟩ | ⟨h, rfl⟩ | ⟨h, rfl⟩ <;> rw [h] <;> rfl
      · rw [findCopy_pointerSize_none _ h0]
        rcases h1 with ⟨h, rfl⟩ | ⟨h, rfl⟩ | ⟨h, rfl⟩ | ⟨h, rfl⟩ <;> rw [h] <;> rfl
    constructor
    · intro hins
      have hk : (instruction.vendor_syntax.mnemonic == FixOperandsOfInsAndOuts.kIns) = true := by
        rw [hins]; decide
      simp only [FixOperandsOfInsAndOuts.body, hmn, hops, hfind, hk, Option.map_some']
      simp
    · intro houts
      have hk : (instruction.vendor_syntax.mnemonic == FixOperandsOfInsAndOuts.kIns) = false := by
        rw [houts]; decide
      simp only [FixOperandsOfInsAndOuts.body, hmn, hops, hfind, hk, Option.map_some']
      simp [houts, FixOperandsOfInsAndOuts.kOuts]
  · intro hbad
    have hbody : ∀ s, FixOperandsOfInsAndOuts.body instruction s =
        (instruction, (FixOperandsOfInsAndOuts.body instruction s).2) ∧
        (FixOperandsOfInsAndOuts.body instruction s).2 ≠ Status.OK := by
      intro s
      unfold FixOperandsOfInsAndOuts.body
      simp only [hmn]
      rcases hops : instruction.vendor_syntax.operands with _ | ⟨a, _ | ⟨b, _ | ⟨c, l⟩⟩⟩
      · simp
      · simp
      · have hnone : ∀ operand ∈ instruction.vendor_syntax.operands,
            operand.name ∉ ["m8", "m16", "m32", "m64"] := by
          rcases hbad with h | h
          · rw [hops] at h; simp at h
          · exact h
        rw [hops] at hnone
        have ha := findCopy_pointerSize_none _ (hnone a (by simp))
        have hb := findCopy_pointerSize_none _ (hnone b (by simp))
        simp [ha, hb]
      · simp
    constructor
    · rw [insOuts_instructions, List.getElem?_map, hi, Option.map_some', (hbody Status.OK).1]
    · apply (status_ne_OK_iff _).1
      unfold FixOperandsOfInsAndOuts
      exact forEachInstruction_error_of_mem _ insOuts_body_error _ _ instruction
        (List.getElem?_mem hi) (fun s => (hbody s).2)

/-- Witness of C3: an INS record that is rewritten, followed by an OUTS record without an
operand of the size table, which is left unchanged and makes the pass return an error. -/
theorem FixOperandsOfInsAndOuts_contract_witness :
    (FixOperandsOfInsAndOuts Example.insOuts).1.instructions[0]? =
      some ⟨⟨"INS", [⟨"BYTE PTR [RDI]", .USAGE_WRITE, .EXPLICIT_ENCODING⟩,
          ⟨"DX", .USAGE_READ, .EXPLICIT_ENCODING⟩]⟩, "6C", ""⟩ ∧
    ((FixOperandsOfInsAndOuts Example.insOuts).1.instructions[1]? =
      some ⟨⟨"OUTS", [⟨"DX", .USAGE_READ, .EXPLICIT_ENCODING⟩,
          ⟨"m128", .USAGE_READ, .EXPLICIT_ENCODING⟩]⟩, "6E", ""⟩ ∧
     ∃ message,
      (FixOperandsOfInsAndOuts Example.insOuts).2 = Status.InvalidArgumentError message) :=
  ⟨((FixOperandsOfInsAndOuts_contract Example.insOuts 0
      ⟨⟨"INS", [⟨"m8", .USAGE_READ, .EXPLICIT_ENCODING⟩,
        ⟨"DX", .USAGE_READ_WRITE, .EXPLICIT_ENCODING⟩]⟩, "6C", ""⟩ rfl (Or.inl rfl)).1
      ⟨"m8", .USAGE_READ, .EXPLICIT_ENCODING⟩ ⟨"DX", .USAGE_READ_WRITE, .EXPLICIT_ENCODING⟩
      "BYTE" rfl (Or.inl (by decide))).1 rfl,
   (FixOperandsOfInsAndOuts_contract Example.insOuts 1
      ⟨⟨"OUTS", [⟨"DX", .USAGE_READ, .EXPLICIT_ENCODING⟩,
        ⟨"m128", .USAGE_READ, .EXPLICIT_ENCODING⟩]⟩, "6E", ""⟩ rfl (Or.inr rfl)).2
      (Or.inr (by decide))⟩

/-! ## FixRegOperands: the loop over the operands -/

theorem combine_OK_left (s : Status) : FixRegOperands.combine Status.OK s = s := by
  cases s <;> rfl

theorem combine_assoc (a b c : Status) :
    FixRegOperands.combine a (FixRegOperands.combine b c) =
      FixRegOperands.combine (FixRegOperands.combine a b) c := by
  cases c <;> rfl

/-- The loop over the operands started with a vector and a status is the loop started
with the empty vector and `OK`, put after that vector and that status. -/
theorem operandLoop_split (i : InstructionProto) (v p : List InstructionOperand)
    (new : List InstructionProto) (st : Status) :
    FixRegOperands.operandLoop i v p new st =
      ((FixRegOperands.operandLoop i v p [] Status.OK).1,
        new ++ (FixRegOperands.operandLoop i v p [] Status.OK).2.1,
        FixRegOperands.combine st (FixRegOperands.operandLoop i v p [] Status.OK).2.2) := by
  induction p generalizing i v new st with
  | nil => simp [FixRegOperands.operandLoop, FixRegOperands.combine]
  | cons op p ih =>
    simp only [FixRegOperands.operandLoop]
    split_ifs
    · rw [ih _ _ (new ++ [_]) st, ih _ _ ([] ++ [_]) Status.OK]
      simp [combine_OK_left]
    · rw [ih _ _ new st]
    · rw [ih _ _ new st]
    · rw [ih _ _ new st]
    · rw [ih _ _ new (Status.InvalidArgumentError _), ih _ _ [] (Status.InvalidArgumentError _)]
      simp only [List.nil_append, combine_assoc]
      rfl
    · rw [ih _ _ new st]

theorem operandLoop_append_of_no_reg (i : InstructionProto)
    (v pre rest : List InstructionOperand) (new : List InstructionProto) (st : Status)
    (h : ∀ operand ∈ pre, operand.name ≠ "reg") :
    FixRegOperands.operandLoop i v (pre ++ rest) new st =
      FixRegOperands.operandLoop i (v ++ pre) rest new st := by
  induction pre generalizing v with
  | nil => simp
  | cons op pre ih =>
    have hop : (op.name == FixRegOperands.kRegOperand) = false :=
      beq_false_of_ne (h op (List.mem_cons_self _ _))
    simp only [List.cons_append, FixRegOperands.operandLoop, hop, List.append_eq]
    rw [if_neg (by simp), ih _ (fun o ho => h o (List.mem_cons_of_mem _ ho))]
    simp

theorem operandLoop_of_no_reg (i : InstructionProto)
    (v p : List InstructionOperand) (new : List InstructionProto) (st : Status)
    (h : ∀ operand ∈ p, operand.name ≠ "reg") :
    FixRegOperands.operandLoop i v p new st = (FixRegOperands.withOperands i (v ++ p), new, st) := by
  have := operandLoop_append_of_no_reg i v p [] new st h
  rw [List.append_nil] at this
  rw [this]
  rfl

/-! ## FixRegOperands: the loop over the instructions -/

theorem instructionLoop_eq (l new : List InstructionProto) (st : Status) :
    FixRegOperands.instructionLoop l new st =
      (l.map FixRegOperands.updatedInPlace, new ++ l.flatMap FixRegOperands.collected,
        l.foldl (fun s i => FixRegOperands.combine s (FixRegOperands.assigned i)) st) := by
  induction l generalizing new st with
  | nil => simp [FixRegOperands.instructionLoop]
  | cons a l ih =>
    simp only [FixRegOperands.instructionLoop]
    rw [operandLoop_split, ih]
    simp [FixRegOperands.updatedInPlace, FixRegOperands.collected, FixRegOperands.assigned]

theorem FixRegOperands_eq (s : InstructionSetProto) :
    FixRegOperands s =
      (⟨s.instructions.map FixRegOperands.updatedInPlace ++
          s.instructions.flatMap FixRegOperands.collected⟩,
        s.instructions.foldl
          (fun st i => FixRegOperands.combine st (FixRegOperands.assigned i)) Status.OK) := by
  unfold FixRegOperands
  rw [instructionLoop_eq]
  simp

/-- The loop over the operands of a LAR record of which exactly one operand is named
reg. -/
theorem operandLoop_LAR_single (i : InstructionProto)
    (pre post : List InstructionOperand) (operand : InstructionOperand)
    (hm : i.vendor_syntax.mnemonic = "LAR")
    (hreg : operand.name = "reg")
    (hpre : ∀ o ∈ pre, o.name ≠ "reg") (hpost : ∀ o ∈ post, o.name ≠ "reg") :
    FixRegOperands.operandLoop i [] (pre ++ operand :: post) [] Status.OK =
      (FixRegOperands.withOperands
          { i with binary_encoding := "REX.W + " ++ i.binary_encoding }
          (pre ++ { operand with name := "r64" } :: post),
        [FixRegOperands.withOperands i (pre ++ { operand with name := "r32" } :: post)],
        Status.OK) := by
  rw [operandLoop_append_of_no_reg _ _ _ _ _ _ hpre]
  have h1 : (operand.name == FixRegOperands.kRegOperand) = true := by rw [hreg]; decide
  have h2 : ContainsKey FixRegOperands.kExpandToAllSizes
      i.vendor_syntax.mnemonic = true := by rw [hm]; decide
  simp only [FixRegOperands.operandLoop, h1, h2, if_true]
  rw [operandLoop_of_no_reg _ _ _ _ _ hpost]
  simp [FixRegOperands.kR32Operand, FixRegOperands.kR64Operand]

/-- C4: for a document of one record with mnemonic LAR, binary encoding E and exactly
one operand named reg, the pass returns success and the document ends with exactly two
records: the record at the original position has that operand named r64 and the binary
encoding "REX.W + " followed by E; the appended record is the original record with only
that operand changed, to r32 (its binary encoding is still E). -/
theorem FixRegOperands_expands_LAR (instruction : InstructionProto)
    (pre post : List InstructionOperand) (operand : InstructionOperand)
    (hm : instruction.vendor_syntax.mnemonic = "LAR")
    (hops : instruction.vendor_syntax.operands = pre ++ operand :: post)
    (hreg : operand.name = "reg")
    (hpre : ∀ o ∈ pre, o.name ≠ "reg") (hpost : ∀ o ∈ post, o.name ≠ "reg") :
    FixRegOperands ⟨[instruction]⟩ =
      (⟨[{ instruction with
            vendor_syntax := { instruction.vendor_syntax with
              operands := pre ++ { operand with name := "r64" } :: post }
            binary_encoding := "REX.W + " ++ instruction.binary_encoding },
         { instruction with
            vendor_syntax := { instruction.vendor_syntax with
              operands := pre ++ { operand with name := "r32" } :: post } }]⟩,
        Status.OK) := by
  rw [FixRegOperands_eq]
  simp only [List.map_cons, List.map_nil, List.flatMap_cons, List.flatMap_nil, List.foldl_cons,
    List.foldl_nil, FixRegOperands.updatedInPlace, FixRegOperands.collected,
    FixRegOperands.assigned, hops, operandLoop_LAR_single instruction pre post operand hm hreg
      hpre hpost]
  rfl

/-- Witness of C4: the LAR record with the operands reg and r32/m16. -/
theorem FixRegOperands_expands_LAR_witness :
    FixRegOperands Example.lar =
      (⟨[⟨⟨"LAR", [⟨"r64", .USAGE_WRITE, .EXPLICIT_ENCODING⟩,
            ⟨"r32/m16", .USAGE_READ, .EXPLICIT_ENCODING⟩]⟩, "REX.W + 0F 02 /r",
            "Load Access Rights"⟩,
          ⟨⟨"LAR", [⟨"r32", .USAGE_WRITE, .EXPLICIT_ENCODING⟩,
            ⟨"r32/m16", .USAGE_READ, .EXPLICIT_ENCODING⟩]⟩, "0F 02 /r",
            "Load Access Rights"⟩]⟩, Status.OK) :=
  FixRegOperands_expands_LAR
    ⟨⟨"LAR", [⟨"reg", .USAGE_WRITE, .EXPLICIT_ENCODING⟩,
      ⟨"r32/m16", .USAGE_READ, .EXPLICIT_ENCODING⟩]⟩, "0F 02 /r", "Load Access Rights"⟩
    [] [⟨"r32/m16", .USAGE_READ, .EXPLICIT_ENCODING⟩] ⟨"reg", .USAGE_WRITE, .EXPLICIT_ENCODING⟩
    rfl rfl rfl (by decide) (by decide)

/-- Counterexample to C5 as stated: for the LAR record of `Example.lar` it is not the
case that the record at the original position has the operand named r32 while the
appended record has the operand named r64 and the prefixed binary encoding. -/
theorem FixRegOperands_original_r32_counterexample :
    ¬ ((FixRegOperands Example.lar).1.instructions.length = 2 ∧
      ((FixRegOperands Example.lar).1.instructions[0]?.map
        (fun r => r.vendor_syntax.operands.map (fun o => o.name))) =
          some ["r32", "r32/m16"] ∧
      ((FixRegOperands Example.lar).1.instructions[1]?.map
        (fun r => r.vendor_syntax.operands.map (fun o => o.name))) =
          some ["r64", "r32/m16"] ∧
      ((FixRegOperands Example.lar).1.instructions[1]?.map (fun r => r.binary_encoding)) =
          some "REX.W + 0F 02 /r") := by
  decide

/-- C5, amended: for a document of one record with mnemonic LAR, binary encoding E and
one operand named reg, the pass yields exactly two records: the record at the original
position has the operand named r64 and the binary encoding "REX.W + " followed by E, and
the newly appended record has the operand named r32 and the binary encoding E. -/
theorem FixRegOperands_expansion_order (instruction : InstructionProto)
    (pre post : List InstructionOperand) (operand : InstructionOperand)
    (hm : instruction.vendor_syntax.mnemonic = "LAR")
    (hops : instruction.vendor_syntax.operands = pre ++ operand :: post)
    (hreg : operand.name = "reg")
    (hpre : ∀ o ∈ pre, o.name ≠ "reg") (hpost : ∀ o ∈ post, o.name ≠ "reg") :
    ∃ original appended : InstructionProto,
      (FixRegOperands ⟨[instruction]⟩).1.instructions = [original, appended] ∧
      original.vendor_syntax.operands.map (fun o => o.name) =
        pre.map (fun o => o.name) ++ "r64" :: post.map (fun o => o.name) ∧
      original.binary_encoding = "REX.W + " ++ instruction.binary_encoding ∧
      appended.vendor_syntax.operands.map (fun o => o.name) =
        pre.map (fun o => o.name) ++ "r32" :: post.map (fun o => o.name) ∧
      appended.binary_encoding = instruction.binary_encoding := by
  rw [FixRegOperands_eq]
  simp only [List.map_cons, List.map_nil, List.flatMap_cons, List.flatMap_nil,
    FixRegOperands.updatedInPlace, FixRegOperands.collected, hops,
    operandLoop_LAR_single instruction pre post operand hm hreg hpre hpost]
  exact ⟨_, _, rfl, by simp [FixRegOperands.withOperands], rfl,
    by simp [FixRegOperands.withOperands], rfl⟩

/-- Witness of C5, amended: the LAR record with the operands reg and r32/m16. -/
theorem FixRegOperands_expansion_order_witness :
    ∃ original appended : InstructionProto,
      (FixRegOperands Example.lar).1.instructions = [original, appended] ∧
      original.vendor_syntax.operands.map (fun o => o.name) = ["r64", "r32/m16"] ∧
      original.binary_encoding = "REX.W + 0F 02 /r" ∧
      appended.vendor_syntax.operands.map (fun o => o.name) = ["r32", "r32/m16"] ∧
      appended.binary_encoding = "0F 02 /r" :=
  FixRegOperands_expansion_order
    ⟨⟨"LAR", [⟨"reg", .USAGE_WRITE, .EXPLICIT_ENCODING⟩,
      ⟨"r32/m16", .USAGE_READ, .EXPLICIT_ENCODING⟩]⟩, "0F 02 /r", "Load Access Rights"⟩
    [] [⟨"r32/m16", .USAGE_READ, .EXPLICIT_ENCODING⟩] ⟨"reg", .USAGE_WRITE, .EXPLICIT_ENCODING⟩
    rfl rfl rfl (by decide) (by decide)

/-! ## FixRegOperands: records that are not expanded -/

/-- The loop over the operands of a record whose mnemonic is on no list leaves
the operands and the vector of new records as they are. -/
theorem operandLoop_unlisted (i : InstructionProto) (v p : List InstructionOperand)
    (new : List InstructionProto) (st : Status)
    (hE : ContainsKey FixRegOperands.kExpandToAllSizes i.vendor_syntax.mnemonic = false)
    (h8 : ContainsKey FixRegOperands.kRenameToReg8 i.vendor_syntax.mnemonic = false)
    (h16 : ContainsKey FixRegOperands.kRenameToReg16 i.vendor_syntax.mnemonic = false)
    (h32 : ContainsKey FixRegOperands.kRenameToReg32 i.vendor_syntax.mnemonic = false) :
    (FixRegOperands.operandLoop i v p new st).1 = FixRegOperands.withOperands i (v ++ p) ∧
    (FixRegOperands.operandLoop i v p new st).2.1 = new ∧
    ((st ≠ Status.OK ∨ ∃ o ∈ p, o.name = "reg") →
      (FixRegOperands.operandLoop i v p new st).2.2 ≠ Status.OK) := by
  induction p generalizing v st with
  | nil => simp [FixRegOperands.operandLoop]
  | cons op p ih =>
    simp only [FixRegOperands.operandLoop, hE, h8, h16, h32]
    by_cases hreg : op.name = "reg"
    · have h1 : (op.name == FixRegOperands.kRegOperand) = true := by rw [hreg]; decide
      simp only [h1, if_true, Bool.false_eq_true, if_false]
      obtain ⟨e1, e2, e3⟩ := ih (v ++ [op])
        (Status.InvalidArgumentError ("Unexpected instruction mnemonic: " ++
          i.vendor_syntax.mnemonic))
      refine ⟨by rw [e1]; simp, e2, fun _ => e3 (Or.inl (by simp))⟩
    · have h1 : (op.name == FixRegOperands.kRegOperand) = false := beq_false_of_ne hreg
      simp only [h1, Bool.false_eq_true, if_false]
      obtain ⟨e1, e2, e3⟩ := ih (v ++ [op]) st
      refine ⟨by rw [e1]; simp, e2, fun h => e3 ?_⟩
      rcases h with h | ⟨o, ho, hn⟩
      · exact Or.inl h
      · rcases List.mem_cons.1 ho with rfl | ho
        · exact absurd hn hreg
        · exact Or.inr ⟨o, ho, hn⟩

/-- The loop over the operands of a record whose mnemonic is on one of the three renaming
lists gives every operand named reg the name of that list, and adds no record. -/
theorem operandLoop_rename (i : InstructionProto) (v p : List InstructionOperand)
    (new : List InstructionProto) (st : Status) (target : String)
    (hE : ContainsKey FixRegOperands.kExpandToAllSizes i.vendor_syntax.mnemonic = false)
    (hlist :
      (ContainsKey FixRegOperands.kRenameToReg8 i.vendor_syntax.mnemonic = true ∧
        target = "r8") ∨
      (ContainsKey FixRegOperands.kRenameToReg8 i.vendor_syntax.mnemonic = false ∧
        ContainsKey FixRegOperands.kRenameToReg16 i.vendor_syntax.mnemonic = true ∧
        target = "r16") ∨
      (ContainsKey FixRegOperands.kRenameToReg8 i.vendor_syntax.mnemonic = false ∧
        ContainsKey FixRegOperands.kRenameToReg16 i.vendor_syntax.mnemonic = false ∧
        ContainsKey FixRegOperands.kRenameToReg32 i.vendor_syntax.mnemonic = true ∧
        target = "r32")) :
    FixRegOperands.operandLoop i v p new st =
      (FixRegOperands.withOperands i
        (v ++ p.map (fun o => if o.name = "reg" then { o with name := target } else o)),
        new, st) := by
  induction p generalizing v with
  | nil => simp [FixRegOperands.operandLoop]
  | cons op p ih =>
    simp only [FixRegOperands.operandLoop, hE]
    by_cases hreg : op.name = "reg"
    · have h1 : (op.name == FixRegOperands.kRegOperand) = true := by rw [hreg]; decide
      simp only [h1, if_true, Bool.false_eq_true, if_false]
      rcases hlist with ⟨h8, rfl⟩ | ⟨h8, h16, rfl⟩ | ⟨h8, h16, h32, rfl⟩
      · simp only [h8, if_true]
        rw [ih]
        simp [hreg, FixRegOperands.kR8Operand]
      · simp only [h8, h16, if_true, Bool.false_eq_true, if_false]
        rw [ih]
        simp [hreg, FixRegOperands.kR16Operand]
      · simp only [h8, h16, h32, if_true, Bool.false_eq_true, if_false]
        rw [ih]
        simp [hreg, FixRegOperands.kR32Operand]
    · have h1 : (op.name == FixRegOperands.kRegOperand) = false := beq_false_of_ne hreg
      simp only [h1, Bool.false_eq_true, if_false]
      rw [ih]
      simp [hreg]

/-- The number of records that the loop over the operands adds: one for every operand
named reg of a record with the mnemonic LAR, none for another record. -/
theorem operandLoop_new_length (i : InstructionProto) (v p : List InstructionOperand)
    (new : List InstructionProto) (st : Status) :
    (FixRegOperands.operandLoop i v p new st).2.1.length =
      new.length +
        (if ContainsKey FixRegOperands.kExpandToAllSizes i.vendor_syntax.mnemonic
          then FixRegOperands.regCount p else 0) := by
  induction p generalizing i v new st with
  | nil => simp [FixRegOperands.operandLoop, FixRegOperands.regCount]
  | cons op p ih =>
    simp only [FixRegOperands.operandLoop, FixRegOperands.regCount, List.countP_cons]
    split_ifs <;> rw [ih] <;> simp_all [FixRegOperands.regCount]
    omega

theorem combine_ne_OK_left (s t : Status) (h : s ≠ Status.OK) :
    FixRegOperands.combine s t ≠ Status.OK := by
  cases t with
  | OK => exact h
  | InvalidArgumentError m => simp [FixRegOperands.combine]

theorem combine_ne_OK_right (s t : Status) (h : t ≠ Status.OK) :
    FixRegOperands.combine s t ≠ Status.OK := by
  cases t with
  | OK => exact absurd rfl h
  | InvalidArgumentError m => simp [FixRegOperands.combine]

theorem foldl_combine_error_of_error (l : List InstructionProto) (st : Status)
    (h : st ≠ Status.OK) :
    l.foldl (fun s i => FixRegOperands.combine s (FixRegOperands.assigned i)) st ≠
      Status.OK := by
  induction l generalizing st with
  | nil => exact h
  | cons a l ih => exact ih _ (combine_ne_OK_left _ _ h)

theorem foldl_combine_error_of_mem (l : List InstructionProto) (st : Status)
    (a : InstructionProto) (ha : a ∈ l) (h : FixRegOperands.assigned a ≠ Status.OK) :
    l.foldl (fun s i => FixRegOperands.combine s (FixRegOperands.assigned i)) st ≠
      Status.OK := by
  induction l generalizing st with
  | nil => cases ha
  | cons b l ih =>
    rcases List.mem_cons.1 ha with rfl | hmem
    · exact foldl_combine_error_of_error l _ (combine_ne_OK_right _ _ h)
    · exact ih _ hmem

/-- The number of records that the pass appends. -/
theorem collected_length (l : List InstructionProto) :
    (l.flatMap FixRegOperands.collected).length =
      ((l.filter (fun r => r.vendor_syntax.mnemonic == "LAR")).map
        (fun r => r.vendor_syntax.operands.countP (fun o => o.name == "reg"))).sum := by
  induction l with
  | nil => rfl
  | cons a l ih =>
    rw [List.flatMap_cons, List.length_append, ih]
    have hlen := operandLoop_new_length a [] a.vendor_syntax.operands [] Status.OK
    unfold FixRegOperands.collected
    rw [hlen]
    by_cases hm : a.vendor_syntax.mnemonic = "LAR"
    · have h1 : ContainsKey FixRegOperands.kExpandToAllSizes a.vendor_syntax.mnemonic = true := by
        rw [hm]; decide
      have h2 : (a.vendor_syntax.mnemonic == "LAR") = true := by rw [hm]; decide
      rw [if_pos h1, List.filter_cons, if_pos h2]
      simp [FixRegOperands.regCount, FixRegOperands.kRegOperand]
    · have h1 : ¬ ContainsKey FixRegOperands.kExpandToAllSizes a.vendor_syntax.mnemonic = true := by
        simp [ContainsKey, FixRegOperands.kExpandToAllSizes, hm]
      have h2 : ¬ (a.vendor_syntax.mnemonic == "LAR") = true := by simpa using hm
      rw [if_neg h1, List.filter_cons, if_neg h2]
      simp

theorem FixRegOperands_getElem?_of_lt (s : InstructionSetProto) (i : Nat)
    (instruction : InstructionProto) (hi : s.instructions[i]? = some instruction) :
    (FixRegOperands s).1.instructions[i]? =
      some (FixRegOperands.updatedInPlace instruction) := by
  rw [FixRegOperands_eq]
  have hlt : i < s.instructions.length := (List.getElem?_eq_some.1 hi).1
  simp only
  rw [List.getElem?_append_left (by simpa using hlt), List.getElem?_map, hi]
  rfl

/-- C6: in every document, for a record whose mnemonic is not LAR: every operand named
reg is renamed to r8 if the mnemonic is VPBROADCASTB, to r16 if it is VPBROADCASTW, to
r32 if it is one of the eleven mnemonics of the 32-bit list, and nothing else in the
record changes; if the mnemonic is on none of the lists the record is left unchanged
and, when it has an operand named reg, the pass returns an invalid-argument error.  This
holds at every position, so also after a record that caused an error.  The pass appends
one record for each operand named reg of a LAR record and none for any other record. -/
theorem FixRegOperands_non_expanding (instruction_set : InstructionSetProto) (i : Nat)
    (instruction : InstructionProto)
    (hi : instruction_set.instructions[i]? = some instruction)
    (hm : instruction.vendor_syntax.mnemonic ≠ "LAR") :
    (instruction.vendor_syntax.mnemonic = "VPBROADCASTB" →
      (FixRegOperands instruction_set).1.instructions[i]? =
        some { instruction with
          vendor_syntax := { instruction.vendor_syntax with
            operands := instruction.vendor_syntax.operands.map
              (fun o => if o.name = "reg" then { o with name := "r8" } else o) } }) ∧
    (instruction.vendor_syntax.mnemonic = "VPBROADCASTW" →
      (FixRegOperands instruction_set).1.instructions[i]? =
        some { instruction with
          vendor_syntax := { instruction.vendor_syntax with
            operands := instruction.vendor_syntax.operands.map
              (fun o => if o.name = "reg" then { o with name := "r16" } else o) } }) ∧
    (instruction.vendor_syntax.mnemonic ∈
        ["EXTRACTPS", "MOVMSKPD", "MOVMSKPS", "PEXTRB", "PEXTRW", "PMOVMSKB",
          "VMOVMSKPD", "VMOVMSKPS", "VPEXTRB", "VPEXTRW", "VPMOVMSKB"] →
      (FixRegOperands instruction_set).1.instructions[i]? =
        some { instruction with
          vendor_syntax := { instruction.vendor_syntax with
            operands := instruction.vendor_syntax.operands.map
              (fun o => if o.name = "reg" then { o with name := "r32" } else o) } }) ∧
    (instruction.vendor_syntax.mnemonic ∉
        ["VPBROADCASTB", "VPBROADCASTW",
          "EXTRACTPS", "MOVMSKPD", "MOVMSKPS", "PEXTRB", "PEXTRW", "PMOVMSKB",
          "VMOVMSKPD", "VMOVMSKPS", "VPEXTRB", "VPEXTRW", "VPMOVMSKB"] →
      (FixRegOperands instruction_set).1.instructions[i]? = some instruction ∧
      ((∃ o ∈ instruction.vendor_syntax.operands, o.name = "reg") →
        ∃ message,
          (FixRegOperands instruction_set).2 = Status.InvalidArgumentError message)) ∧
    (FixRegOperands instruction_set).1.instructions.length =
      instruction_set.instructions.length +
        ((instruction_set.instructions.filter
            (fun r => r.vendor_syntax.mnemonic == "LAR")).map
          (fun r => r.vendor_syntax.operands.countP (fun o => o.name == "reg"))).sum := by
  have hE : ContainsKey FixRegOperands.kExpandToAllSizes
      instruction.vendor_syntax.mnemonic = false := by
    simp [ContainsKey, FixRegOperands.kExpandToAllSizes, hm]
  rw [FixRegOperands_getElem?_of_lt _ _ _ hi]
  unfold FixRegOperands.updatedInPlace
  refine ⟨?_, ?_, ?_, ?_, ?_⟩
  · intro h
    rw [operandLoop_rename _ _ _ _ _ "r8" hE (Or.inl ⟨by rw [h]; decide, rfl⟩)]
    rfl
  · intro h
    rw [operandLoop_rename _ _ _ _ _ "r16" hE
      (Or.inr (Or.inl ⟨by rw [h]; decide, by rw [h]; decide, rfl⟩))]
    rfl
  · intro h
    have hall : ∀ x ∈ ["EXTRACTPS", "MOVMSKPD", "MOVMSKPS", "PEXTRB", "PEXTRW", "PMOVMSKB",
        "VMOVMSKPD", "VMOVMSKPS", "VPEXTRB", "VPEXTRW", "VPMOVMSKB"],
        ContainsKey FixRegOperands.kRenameToReg8 x = false ∧
        ContainsKey FixRegOperands.kRenameToReg16 x = false ∧
        ContainsKey FixRegOperands.kRenameToReg32 x = true := by decide
    obtain ⟨h8, h16, h32⟩ := hall _ h
    rw [operandLoop_rename _ _ _ _ _ "r32" hE (Or.inr (Or.inr ⟨h8, h16, h32, rfl⟩))]
    rfl
  · intro h
    simp only [List.mem_cons, List.mem_singleton, List.not_mem_nil, or_false, not_or] at h
    obtain ⟨n1, n2, n3, n4, n5, n6, n7, n8, n9, n10, n11, n12, n13⟩ := h
    have h8 : ContainsKey FixRegOperands.kRenameToReg8
        instruction.vendor_syntax.mnemonic = false := by
      simp [ContainsKey, FixRegOperands.kRenameToReg8, n1]
    have h16 : ContainsKey FixRegOperands.kRenameToReg16
        instruction.vendor_syntax.mnemonic = false := by
      simp [ContainsKey, FixRegOperands.kRenameToReg16, n2]
    have h32 : ContainsKey FixRegOperands.kRenameToReg32
        instruction.vendor_syntax.mnemonic = false := by
      simp [ContainsKey, FixRegOperands.kRenameToReg32, n3, n4, n5, n6, n7, n8, n9, n10, n11,
        n12, n13]
    obtain ⟨e1, _, e3⟩ := operandLoop_unlisted instruction [] instruction.vendor_syntax.operands
      [] Status.OK hE h8 h16 h32
    refine ⟨by rw [e1]; rfl, fun hex => ?_⟩
    apply (status_ne_OK_iff _).1
    rw [FixRegOperands_eq]
    exact foldl_combine_error_of_mem _ _ instruction (List.getElem?_mem hi) (e3 (Or.inr hex))
  · rw [FixRegOperands_eq]
    simp only [List.length_append, List.length_map, collected_length]

/-- Witness of C6: in `Example.regRecords` the VPBROADCASTB record is renamed to r8, the
MOVD record is left unchanged and makes the pass return an error, and the PEXTRW record
after it is renamed to r32; no record is appended. -/
theorem FixRegOperands_non_expanding_witness :
    (FixRegOperands Example.regRecords).1.instructions[0]? =
      some ⟨⟨"VPBROADCASTB", [⟨"xmm1", .USAGE_WRITE, .EXPLICIT_ENCODING⟩,
        ⟨"r8", .USAGE_READ, .EXPLICIT_ENCODING⟩]⟩, "EVEX.128.66.0F38.W0 7A /r", ""⟩ ∧
    ((FixRegOperands Example.regRecords).1.instructions[1]? =
      some ⟨⟨"MOVD", [⟨"reg", .USAGE_WRITE, .EXPLICIT_ENCODING⟩,
        ⟨"xmm1", .USAGE_READ, .EXPLICIT_ENCODING⟩]⟩, "66 0F 7E /r", ""⟩ ∧
      ∃ message, (FixRegOperands Example.regRecords).2 = Status.InvalidArgumentError message) ∧
    (FixRegOperands Example.regRecords).1.instructions[2]? =
      some ⟨⟨"PEXTRW", [⟨"r32", .USAGE_WRITE, .EXPLICIT_ENCODING⟩,
        ⟨"xmm1", .USAGE_READ, .EXPLICIT_ENCODING⟩,
        ⟨"imm8", .USAGE_READ, .EXPLICIT_ENCODING⟩]⟩, "66 0F C5 /r ib", ""⟩ ∧
    (FixRegOperands Example.regRecords).1.instructions.length = 3 :=
  ⟨(FixRegOperands_non_expanding Example.regRecords 0
      ⟨⟨"VPBROADCASTB", [⟨"xmm1", .USAGE_WRITE, .EXPLICIT_ENCODING⟩,
        ⟨"reg", .USAGE_READ, .EXPLICIT_ENCODING⟩]⟩, "EVEX.128.66.0F38.W0 7A /r", ""⟩
      rfl (by decide)).1 rfl,
   ⟨((FixRegOperands_non_expanding Example.regRecords 1
      ⟨⟨"MOVD", [⟨"reg", .USAGE_WRITE, .EXPLICIT_ENCODING⟩,
        ⟨"xmm1", .USAGE_READ, .EXPLICIT_ENCODING⟩]⟩, "66 0F 7E /r", ""⟩
      rfl (by decide)).2.2.2.1 (by decide)).1,
    ((FixRegOperands_non_expanding Example.regRecords 1
      ⟨⟨"MOVD", [⟨"reg", .USAGE_WRITE, .EXPLICIT_ENCODING⟩,
        ⟨"xmm1", .USAGE_READ, .EXPLICIT_ENCODING⟩]⟩, "66 0F 7E /r", ""⟩
      rfl (by decide)).2.2.2.1 (by decide)).2 ⟨_, List.mem_cons_self _ _, rfl⟩⟩,
   (FixRegOperands_non_expanding Example.regRecords 2
      ⟨⟨"PEXTRW", [⟨"reg", .USAGE_WRITE, .EXPLICIT_ENCODING⟩,
        ⟨"xmm1", .USAGE_READ, .EXPLICIT_ENCODING⟩,
        ⟨"imm8", .USAGE_READ, .EXPLICIT_ENCODING⟩]⟩, "66 0F C5 /r ib", ""⟩
      rfl (by decide)).2.2.1 (by decide),
   (FixRegOperands_non_expanding Example.regRecords 2
      ⟨⟨"PEXTRW", [⟨"reg", .USAGE_WRITE, .EXPLICIT_ENCODING⟩,
        ⟨"xmm1", .USAGE_READ, .EXPLICIT_ENCODING⟩,
        ⟨"imm8", .USAGE_READ, .EXPLICIT_ENCODING⟩]⟩, "66 0F C5 /r ib", ""⟩
      rfl (by decide)).2.2.2.2⟩

/-! ## FixOperandsOfVMovq -/

theorem vmovq_loop_cons_other (D : InstructionProto → String) (a : InstructionProto)
    (l : List InstructionProto) (h : a.binary_encoding ≠ "VEX.128.F3.0F.WIG 7E /r") :
    FixOperandsOfVMovq.loop D (a :: l) =
      (a :: (FixOperandsOfVMovq.loop D l).1, (FixOperandsOfVMovq.loop D l).2) := by
  have hb : (a.binary_encoding != FixOperandsOfVMovq.kVMovQEncoding) = true := by
    simpa [FixOperandsOfVMovq.kVMovQEncoding] using h
  simp only [FixOperandsOfVMovq.loop, hb, if_true]

theorem vmovq_loop_cons_match (D : InstructionProto → String) (a : InstructionProto)
    (l : List InstructionProto) (o0 o1 : InstructionOperand)
    (h : a.binary_encoding = "VEX.128.F3.0F.WIG 7E /r")
    (hops : a.vendor_syntax.operands = [o0, o1]) :
    FixOperandsOfVMovq.loop D (a :: l) =
      ({ a with vendor_syntax := { a.vendor_syntax with
            operands := [o0, { o1 with name := "xmm2/m64" }] } } ::
          (FixOperandsOfVMovq.loop D l).1, (FixOperandsOfVMovq.loop D l).2) := by
  have hb : (a.binary_encoding != FixOperandsOfVMovq.kVMovQEncoding) = false := by
    simp [FixOperandsOfVMovq.kVMovQEncoding, h]
  simp only [FixOperandsOfVMovq.loop, hb, hops, Bool.false_eq_true, if_false]
  rfl

theorem vmovq_loop_cons_bad (D : InstructionProto → String) (a : InstructionProto)
    (l : List InstructionProto)
    (h : a.binary_encoding = "VEX.128.F3.0F.WIG 7E /r")
    (hops : a.vendor_syntax.operands.length ≠ 2) :
    FixOperandsOfVMovq.loop D (a :: l) =
      (a :: l, Status.InvalidArgumentError
        ("Unexpected number of operands of a VMOVQ instruction: " ++ D a)) := by
  have hb : (a.binary_encoding != FixOperandsOfVMovq.kVMovQEncoding) = false := by
    simp [FixOperandsOfVMovq.kVMovQEncoding, h]
  simp only [FixOperandsOfVMovq.loop, hb, Bool.false_eq_true, if_false]
  rcases hl : a.vendor_syntax.operands with _ | ⟨x, _ | ⟨y, _ | ⟨z, t⟩⟩⟩
  · rfl
  · rfl
  · rw [hl] at hops; exact absurd rfl hops
  · rfl

/-- The loop of `FixOperandsOfVMovq` over records of which every one with the encoding
of VMOVQ has two operands. -/
theorem vmovq_loop_clean (D : InstructionProto → String) (l : List InstructionProto)
    (h : ∀ r ∈ l, r.binary_encoding = "VEX.128.F3.0F.WIG 7E /r" →
      r.vendor_syntax.operands.length = 2) :
    (FixOperandsOfVMovq.loop D l).2 = Status.OK ∧
    (FixOperandsOfVMovq.loop D l).1.length = l.length ∧
    ∀ (i : Nat) (r : InstructionProto), l[i]? = some r →
      (r.binary_encoding ≠ "VEX.128.F3.0F.WIG 7E /r" →
        (FixOperandsOfVMovq.loop D l).1[i]? = some r) ∧
      (r.binary_encoding = "VEX.128.F3.0F.WIG 7E /r" →
        ∃ o0 o1, r.vendor_syntax.operands = [o0, o1] ∧
          (FixOperandsOfVMovq.loop D l).1[i]? =
            some { r with vendor_syntax := { r.vendor_syntax with
              operands := [o0, { o1 with name := "xmm2/m64" }] } }) := by
  induction l with
  | nil => simp [FixOperandsOfVMovq.loop]
  | cons a l ih =>
    obtain ⟨ih1, ih2, ih3⟩ := ih (fun r hr => h r (List.mem_cons_of_mem _ hr))
    by_cases ha : a.binary_encoding = "VEX.128.F3.0F.WIG 7E /r"
    · obtain ⟨o0, o1, hops⟩ := List.length_eq_two.1 (h a (List.mem_cons_self _ _) ha)
      rw [vmovq_loop_cons_match D a l o0 o1 ha hops]
      refine ⟨ih1, by simp [ih2], ?_⟩
      intro i r hir
      cases i with
      | zero =>
        simp only [List.getElem?_cons_zero, Option.some.injEq] at hir
        subst hir
        exact ⟨fun hne => absurd ha hne, fun _ => ⟨o0, o1, hops, by simp⟩⟩
      | succ i =>
        simp only [List.getElem?_cons_succ] at hir ⊢
        exact ih3 i r hir
    · rw [vmovq_loop_cons_other D a l ha]
      refine ⟨ih1, by simp [ih2], ?_⟩
      intro i r hir
      cases i with
      | zero =>
        simp only [List.getElem?_cons_zero, Option.some.injEq] at hir
        subst hir
        exact ⟨fun _ => by simp, fun he => absurd he ha⟩
      | succ i =>
        simp only [List.getElem?_cons_succ] at hir ⊢
        exact ih3 i r hir

/-- The loop of `FixOperandsOfVMovq` stops at the first record with the encoding of VMOVQ
that does not have two operands. -/
theorem vmovq_loop_abort (D : InstructionProto → String)
    (pre : List InstructionProto) (bad : InstructionProto) (post : List InstructionProto)
    (hpre : ∀ r ∈ pre, r.binary_encoding = "VEX.128.F3.0F.WIG 7E /r" →
      r.vendor_syntax.operands.length = 2)
    (hbad : bad.binary_encoding = "VEX.128.F3.0F.WIG 7E /r")
    (hops : bad.vendor_syntax.operands.length ≠ 2) :
    FixOperandsOfVMovq.loop D (pre ++ bad :: post) =
      ((FixOperandsOfVMovq.loop D pre).1 ++ bad :: post,
        Status.InvalidArgumentError
          ("Unexpected number of operands of a VMOVQ instruction: " ++ D bad)) := by
  induction pre with
  | nil =>
    rw [List.nil_append, vmovq_loop_cons_bad D bad post hbad hops]
    rfl
  | cons a pre ih =>
    have ih' := ih (fun r hr => hpre r (List.mem_cons_of_mem _ hr))
    by_cases ha : a.binary_encoding = "VEX.128.F3.0F.WIG 7E /r"
    · obtain ⟨o0, o1, hops'⟩ := List.length_eq_two.1 (hpre a (List.mem_cons_self _ _) ha)
      rw [List.cons_append, vmovq_loop_cons_match D a _ o0 o1 ha hops',
        vmovq_loop_cons_match D a _ o0 o1 ha hops', ih']
      rfl
    · rw [List.cons_append, vmovq_loop_cons_other D a _ ha, vmovq_loop_cons_other D a _ ha, ih']
      rfl

theorem vmovq_loop_error_iff (D : InstructionProto → String) (l : List InstructionProto) :
    (FixOperandsOfVMovq.loop D l).2 ≠ Status.OK ↔
      ∃ r ∈ l, r.binary_encoding = "VEX.128.F3.0F.WIG 7E /r" ∧
        r.vendor_syntax.operands.length ≠ 2 := by
  induction l with
  | nil => simp [FixOperandsOfVMovq.loop]
  | cons a l ih =>
    by_cases ha : a.binary_encoding = "VEX.128.F3.0F.WIG 7E /r"
    · by_cases hops : a.vendor_syntax.operands.length = 2
      · obtain ⟨o0, o1, hops'⟩ := List.length_eq_two.1 hops
        rw [vmovq_loop_cons_match D a l o0 o1 ha hops']
        simp only [List.mem_cons, exists_eq_or_imp, ha, hops, true_and, ne_eq,
          not_true_eq_false, false_or]
        exact ih
      · rw [vmovq_loop_cons_bad D a l ha hops]
        simp only [ne_eq, reduceCtorEq, not_false_eq_true, true_iff]
        exact ⟨a, List.mem_cons_self _ _, ha, hops⟩
    · rw [vmovq_loop_cons_other D a l ha]
      simp only [List.mem_cons, exists_eq_or_imp, ha, false_and, false_or]
      exact ih

/-- C7: `FixOperandsOfVMovq` matches records by the binary encoding
"VEX.128.F3.0F.WIG 7E /r" only, and returns an error if and only if some matching record
does not have exactly two operands.  On success the document keeps its length, every
matching record has operand 1 named "xmm2/m64" and is otherwise unchanged, and every
other record is unchanged.  On error the pass stops at the first offending record: that
record and all records after it are unchanged, the records before it are rewritten as on
success, and the status is the error of that record. -/
theorem FixOperandsOfVMovq_contract (DebugString : InstructionProto → String)
    (instruction_set : InstructionSetProto) :
    ((∃ message, (FixOperandsOfVMovq DebugString instruction_set).2 =
        Status.InvalidArgumentError message) ↔
      ∃ r ∈ instruction_set.instructions,
        r.binary_encoding = "VEX.128.F3.0F.WIG 7E /r" ∧ r.vendor_syntax.operands.length ≠ 2) ∧
    ((FixOperandsOfVMovq DebugString instruction_set).2 = Status.OK →
      (FixOperandsOfVMovq DebugString instruction_set).1.instructions.length =
        instruction_set.instructions.length ∧
      ∀ (i : Nat) (r : InstructionProto), instruction_set.instructions[i]? = some r →
        (r.binary_encoding ≠ "VEX.128.F3.0F.WIG 7E /r" →
          (FixOperandsOfVMovq DebugString instruction_set).1.instructions[i]? = some r) ∧
        (r.binary_encoding = "VEX.128.F3.0F.WIG 7E /r" →
          ∃ o0 o1, r.vendor_syntax.operands = [o0, o1] ∧
            (FixOperandsOfVMovq DebugString instruction_set).1.instructions[i]? =
              some { r with vendor_syntax := { r.vendor_syntax with
                operands := [o0, { o1 with name := "xmm2/m64" }] } })) ∧
    (∀ (pre : List InstructionProto) (bad : InstructionProto) (post : List InstructionProto),
      instruction_set.instructions = pre ++ bad :: post →
      (∀ r ∈ pre, r.binary_encoding = "VEX.128.F3.0F.WIG 7E /r" →
        r.vendor_syntax.operands.length = 2) →
      bad.binary_encoding = "VEX.128.F3.0F.WIG 7E /r" →
      bad.vendor_syntax.operands.length ≠ 2 →
      (FixOperandsOfVMovq DebugString instruction_set).2 =
        Status.InvalidArgumentError
          ("Unexpected number of operands of a VMOVQ instruction: " ++ DebugString bad) ∧
      ∃ pre' : List InstructionProto,
        (FixOperandsOfVMovq DebugString instruction_set).1.instructions =
          pre' ++ bad :: post ∧
        pre'.length = pre.length ∧
        ∀ (i : Nat) (r : InstructionProto), pre[i]? = some r →
          (r.binary_encoding ≠ "VEX.128.F3.0F.WIG 7E /r" → pre'[i]? = some r) ∧
          (r.binary_encoding = "VEX.128.F3.0F.WIG 7E /r" →
            ∃ o0 o1, r.vendor_syntax.operands = [o0, o1] ∧
              pre'[i]? = some { r with vendor_syntax := { r.vendor_syntax with
                operands := [o0, { o1 with name := "xmm2/m64" }] } })) := by
  unfold FixOperandsOfVMovq
  refine ⟨?_, ?_, ?_⟩
  · rw [← status_ne_OK_iff]
    exact vmovq_loop_error_iff DebugString instruction_set.instructions
  · intro hok
    have hclean : ∀ r ∈ instruction_set.instructions,
        r.binary_encoding = "VEX.128.F3.0F.WIG 7E /r" →
          r.vendor_syntax.operands.length = 2 := by
      intro r hr henc
      by_contra hlen
      exact (vmovq_loop_error_iff DebugString instruction_set.instructions).2
        ⟨r, hr, henc, hlen⟩ hok
    exact (vmovq_loop_clean DebugString _ hclean).2
  · intro pre bad post hdoc hpre hbad hops
    simp only [hdoc, vmovq_loop_abort DebugString pre bad post hpre hbad hops]
    obtain ⟨_, h2, h3⟩ := vmovq_loop_clean DebugString pre hpre
    exact ⟨trivial, _, rfl, h2, h3⟩

/-- Witness of C7: in `Example.vmovq` the third record has the encoding of VMOVQ and one
operand: the pass returns the error of that record, the first record has been rewritten,
and the third and the fourth (well-formed) record are unchanged. -/
theorem FixOperandsOfVMovq_contract_witness :
    (FixOperandsOfVMovq (fun r => r.vendor_syntax.mnemonic) Example.vmovq).2 =
      Status.InvalidArgumentError
        "Unexpected number of operands of a VMOVQ instruction: VMOVQ" ∧
    ∃ pre' : List InstructionProto,
      (FixOperandsOfVMovq (fun r => r.vendor_syntax.mnemonic) Example.vmovq).1.instructions =
        pre' ++
          [⟨⟨"VMOVQ", [⟨"xmm1", .USAGE_WRITE, .EXPLICIT_ENCODING⟩]⟩,
              "VEX.128.F3.0F.WIG 7E /r", ""⟩,
            ⟨⟨"VMOVQ", [⟨"xmm1", .USAGE_WRITE, .EXPLICIT_ENCODING⟩,
              ⟨"xmm2", .USAGE_READ, .EXPLICIT_ENCODING⟩]⟩, "VEX.128.F3.0F.WIG 7E /r", ""⟩] ∧
      pre'.length = 2 :=
  have h := (FixOperandsOfVMovq_contract (fun r => r.vendor_syntax.mnemonic) Example.vmovq).2.2
    [⟨⟨"VMOVQ", [⟨"xmm1", .USAGE_WRITE, .EXPLICIT_ENCODING⟩,
        ⟨"m64", .USAGE_READ, .EXPLICIT_ENCODING⟩]⟩, "VEX.128.F3.0F.WIG 7E /r", ""⟩,
      ⟨⟨"VMOVQ", [⟨"xmm1", .USAGE_WRITE, .EXPLICIT_ENCODING⟩,
        ⟨"r/m64", .USAGE_READ, .EXPLICIT_ENCODING⟩]⟩, "VEX.128.66.0F.W1 6E /r", ""⟩]
    ⟨⟨"VMOVQ", [⟨"xmm1", .USAGE_WRITE, .EXPLICIT_ENCODING⟩]⟩, "VEX.128.F3.0F.WIG 7E /r", ""⟩
    [⟨⟨"VMOVQ", [⟨"xmm1", .USAGE_WRITE, .EXPLICIT_ENCODING⟩,
        ⟨"xmm2", .USAGE_READ, .EXPLICIT_ENCODING⟩]⟩, "VEX.128.F3.0F.WIG 7E /r", ""⟩]
    rfl (by decide) rfl (by decide)
  ⟨h.1, h.2.elim (fun pre' hp => ⟨pre', hp.1, hp.2.1⟩)⟩

/-! ## Removal of operands -/

theorem take_succ_set (l : List InstructionOperand) (n : Nat) (a : InstructionOperand)
    (h : n < l.length) : (l.set n a).take (n + 1) = l.take n ++ [a] := by
  rw [List.take_succ, List.getElem?_set_self h]
  congr 1
  apply List.ext_getElem?
  intro k
  rw [List.getElem?_take, List.getElem?_take]
  split
  · rw [List.getElem?_set_ne (by omega)]
  · rfl

/-- The invariant of the loop of `std::remove_if`: before the write position stand the
elements read so far that do not satisfy the predicate, in their order; from the read
position on the sequence is unchanged. -/
theorem remove_if_loop_spec (pred : InstructionOperand → Bool)
    (orig : List InstructionOperand) (remaining first result : Nat)
    (a : List InstructionOperand)
    (hlen : first + remaining = orig.length) (halen : a.length = orig.length)
    (hle : result ≤ first)
    (htake : a.take result = (orig.take first).filter (fun o => !pred o))
    (hdrop : a.drop first = orig.drop first) :
    (remove_if_loop pred remaining first result a).1.take
        (remove_if_loop pred remaining first result a).2 =
      orig.filter (fun o => !pred o) := by
  induction remaining generalizing first result a with
  | zero =>
    have : first = orig.length := by omega
    subst this
    simpa [remove_if_loop] using htake
  | succ remaining ih =>
    have hlt : first < orig.length := by omega
    have hget : a[first]? = some orig[first] := by
      have h1 : (a.drop first)[0]? = (orig.drop first)[0]? := by rw [hdrop]
      rw [List.getElem?_drop, List.getElem?_drop] at h1
      simpa [List.getElem?_eq_getElem hlt] using h1
    have hdrop' : a.drop (first + 1) = orig.drop (first + 1) := by
      rw [← List.drop_drop, ← List.drop_drop, hdrop]
    have htake' : orig.take (first + 1) = orig.take first ++ [orig[first]] := by
      rw [List.take_succ, List.getElem?_eq_getElem hlt]
      rfl
    simp only [remove_if_loop, hget]
    by_cases hp : pred orig[first] = true
    · simp only [hp, if_true]
      refine ih (first + 1) result a (by omega) halen (by omega) ?_ hdrop'
      rw [htake', List.filter_append, ← htake]
      simp [hp]
    · simp only [hp, Bool.false_eq_true, if_false]
      refine ih (first + 1) (result + 1) (a.set result orig[first]) (by omega)
        (by simpa using halen) (by omega) ?_ ?_
      · rw [take_succ_set _ _ _ (by omega), htake', List.filter_append, ← htake]
        simp [hp]
      · rw [List.drop_set_of_lt _ _ (by omega), hdrop']

/-- The statement `operands->erase(std::remove_if(..), operands->end())` keeps exactly the
operands that do not satisfy the predicate, in their order. -/
theorem erase_remove_if_eq_filter (pred : InstructionOperand → Bool)
    (operands : List InstructionOperand) :
    erase_remove_if pred operands = operands.filter (fun o => !pred o) := by
  unfold erase_remove_if erase_to_end remove_if
  exact remove_if_loop_spec pred operands operands.length 0 0 operands (by simp) rfl
    (Nat.le_refl 0) (by simp) rfl

theorem containsKey_iff (collection : List String) (key : String) :
    ContainsKey collection key = true ↔ key ∈ collection := by
  unfold ContainsKey
  simp

theorem RemoveImplicitXmm0Operand_eq (instruction_set : InstructionSetProto) :
    RemoveImplicitXmm0Operand instruction_set =
      (⟨instruction_set.instructions.map (fun r =>
          { r with vendor_syntax := { r.vendor_syntax with
              operands := r.vendor_syntax.operands.filter (fun o => o.name != "<XMM0>") } })⟩,
        Status.OK) := by
  have hx : ∀ r, RemoveImplicitXmm0Operand.body r =
      { r with vendor_syntax := { r.vendor_syntax with
          operands := r.vendor_syntax.operands.filter (fun o => o.name != "<XMM0>") } } := by
    intro r
    unfold RemoveImplicitXmm0Operand.body
    rw [erase_remove_if_eq_filter]
    rfl
  unfold RemoveImplicitXmm0Operand
  rw [show RemoveImplicitXmm0Operand.body = _ from funext hx]

theorem RemoveImplicitST0Operand_eq (instruction_set : InstructionSetProto) :
    RemoveImplicitST0Operand instruction_set =
      (⟨instruction_set.instructions.map (fun r =>
          if r.binary_encoding ∈
              ["D8 C0+i", "D8 C8+i", "D8 E0+i", "D8 E8+i", "D8 F0+i", "D8 F8+i",
                "DB E8+i", "DB F0+i", "DE C0+i", "DE C8+i", "DE E0+i", "DE E8+i",
                "DE F0+i", "DE F8+i", "DF E8+i", "DF F0+i"] then
            { r with vendor_syntax := { r.vendor_syntax with
                operands := r.vendor_syntax.operands.filter (fun o => o.name != "ST(0)") } }
          else r)⟩,
        Status.OK) := by
  have hs : ∀ r, RemoveImplicitST0Operand.body r =
      if r.binary_encoding ∈
          ["D8 C0+i", "D8 C8+i", "D8 E0+i", "D8 E8+i", "D8 F0+i", "D8 F8+i",
            "DB E8+i", "DB F0+i", "DE C0+i", "DE C8+i", "DE E0+i", "DE E8+i",
            "DE F0+i", "DE F8+i", "DF E8+i", "DF F0+i"] then
        { r with vendor_syntax := { r.vendor_syntax with
            operands := r.vendor_syntax.operands.filter (fun o => o.name != "ST(0)") } }
      else r := by
    intro r
    unfold RemoveImplicitST0Operand.body
    rw [erase_remove_if_eq_filter]
    by_cases h : r.binary_encoding ∈
        ["D8 C0+i", "D8 C8+i", "D8 E0+i", "D8 E8+i", "D8 F0+i", "D8 F8+i",
          "DB E8+i", "DB F0+i", "DE C0+i", "DE C8+i", "DE E0+i", "DE E8+i",
          "DE F0+i", "DE F8+i", "DF E8+i", "DF F0+i"]
    · have hc : ContainsKey RemoveImplicitST0Operand.kUpdatedInstructionEncodings
          r.binary_encoding = true := (containsKey_iff _ _).2 h
      rw [if_pos h]
      simp only [hc, Bool.not_true, Bool.false_eq_true, if_false]
      rfl
    · have hc : ContainsKey RemoveImplicitST0Operand.kUpdatedInstructionEncodings
          r.binary_encoding = false :=
        Bool.eq_false_iff.2 (fun hc => h ((containsKey_iff _ _).1 hc))
      rw [if_neg h]
      simp only [hc, Bool.not_false, if_true]
  unfold RemoveImplicitST0Operand
  rw [show RemoveImplicitST0Operand.body = _ from funext hs]

/-- C8: `RemoveImplicitXmm0Operand` always returns success and replaces the operand list
of every record by the same list without the operands named "<XMM0>";
`RemoveImplicitST0Operand` always returns success, does the same with the operands named
"ST(0)" in every record whose binary encoding is one of the sixteen listed encodings, and
leaves every other record unchanged.  Hence no operand named "<XMM0>" remains, and no
operand named "ST(0)" remains in a record with one of the listed encodings. -/
theorem RemoveImplicitOperands_eq_filter (instruction_set : InstructionSetProto) :
    RemoveImplicitXmm0Operand instruction_set =
      (⟨instruction_set.instructions.map (fun r =>
          { r with vendor_syntax := { r.vendor_syntax with
              operands := r.vendor_syntax.operands.filter (fun o => o.name != "<XMM0>") } })⟩,
        Status.OK) ∧
    RemoveImplicitST0Operand instruction_set =
      (⟨instruction_set.instructions.map (fun r =>
          if r.binary_encoding ∈
              ["D8 C0+i", "D8 C8+i", "D8 E0+i", "D8 E8+i", "D8 F0+i", "D8 F8+i",
                "DB E8+i", "DB F0+i", "DE C0+i", "DE C8+i", "DE E0+i", "DE E8+i",
                "DE F0+i", "DE F8+i", "DF E8+i", "DF F0+i"] then
            { r with vendor_syntax := { r.vendor_syntax with
                operands := r.vendor_syntax.operands.filter (fun o => o.name != "ST(0)") } }
          else r)⟩,
        Status.OK) ∧
    (∀ r ∈ (RemoveImplicitXmm0Operand instruction_set).1.instructions,
      ∀ o ∈ r.vendor_syntax.operands, o.name ≠ "<XMM0>") ∧
    (∀ r ∈ (RemoveImplicitST0Operand instruction_set).1.instructions,
      r.binary_encoding ∈
          ["D8 C0+i", "D8 C8+i", "D8 E0+i", "D8 E8+i", "D8 F0+i", "D8 F8+i",
            "DB E8+i", "DB F0+i", "DE C0+i", "DE C8+i", "DE E0+i", "DE E8+i",
            "DE F0+i", "DE F8+i", "DF E8+i", "DF F0+i"] →
        ∀ o ∈ r.vendor_syntax.operands, o.name ≠ "ST(0)") := by
  refine ⟨RemoveImplicitXmm0Operand_eq _, RemoveImplicitST0Operand_eq _, ?_, ?_⟩
  · rw [RemoveImplicitXmm0Operand_eq]
    intro r hr o ho
    simp only [List.mem_map] at hr
    obtain ⟨r0, _, rfl⟩ := hr
    simp only [List.mem_filter] at ho
    simpa using ho.2
  · rw [RemoveImplicitST0Operand_eq]
    intro r hr henc o ho
    simp only [List.mem_map] at hr
    obtain ⟨r0, _, rfl⟩ := hr
    by_cases h : r0.binary_encoding ∈
        ["D8 C0+i", "D8 C8+i", "D8 E0+i", "D8 E8+i", "D8 F0+i", "D8 F8+i",
          "DB E8+i", "DB F0+i", "DE C0+i", "DE C8+i", "DE E0+i", "DE E8+i",
          "DE F0+i", "DE F8+i", "DF E8+i", "DF F0+i"]
    · rw [if_pos h] at ho
      simp only [List.mem_filter] at ho
      simpa using ho.2
    · rw [if_neg h] at henc
      exact absurd henc h

/-! ## RenameOperands -/

/-- An operand renamed by the loop body of `RenameOperands` does not bear a key of the
renaming table. -/
theorem renameOperand_not_key (operand : InstructionOperand) :
    (RenameOperands.renameOperand operand).name ∉
      ["m80dec", "r8/m8", "r16/m16", "r32/m32", "r64/m64", "ST", "m14/28byte",
        "m94/108byte"] := by
  unfold RenameOperands.renameOperand
  cases hfind : FindOrNull RenameOperands.kOperandRenaming operand.name with
  | none =>
    simp only
    intro hmem
    have hall : ∀ x ∈ ["m80dec", "r8/m8", "r16/m16", "r32/m32", "r64/m64", "ST",
        "m14/28byte", "m94/108byte"],
        FindOrNull RenameOperands.kOperandRenaming x ≠ none := by decide
    exact hall _ hmem hfind
  | some renamed =>
    simp only
    have hvalues : ∀ entry ∈ RenameOperands.kOperandRenaming,
        entry.2 ∉ ["m80dec", "r8/m8", "r16/m16", "r32/m32", "r64/m64", "ST",
          "m14/28byte", "m94/108byte"] := by decide
    unfold FindOrNull at hfind
    rw [Option.map_eq_some'] at hfind
    obtain ⟨entry, hentry, rfl⟩ := hfind
    exact hvalues entry (List.mem_of_find?_eq_some hentry)

/-- C9: after `RenameOperands`, no operand of any record of the document has a name that
is a key of the renaming table. -/
theorem RenameOperands_synonym_closure (instruction_set : InstructionSetProto) :
    ∀ r ∈ (RenameOperands instruction_set).1.instructions,
      ∀ o ∈ r.vendor_syntax.operands,
        o.name ∉ ["m80dec", "r8/m8", "r16/m16", "r32/m32", "r64/m64", "ST", "m14/28byte",
          "m94/108byte"] := by
  intro r hr o ho
  unfold RenameOperands at hr
  simp only [List.mem_map] at hr
  obtain ⟨r0, _, rfl⟩ := hr
  unfold RenameOperands.body at ho
  simp only [List.mem_map] at ho
  obtain ⟨o0, _, rfl⟩ := ho
  exact renameOperand_not_key o0

/-- Witness of C9: the operand m80dec of the FBLD record is renamed to m80bcd, which is
not a key of the renaming table. -/
theorem RenameOperands_synonym_closure_witness :
    (⟨⟨"FBLD", [⟨"m80bcd", .USAGE_READ, .EXPLICIT_ENCODING⟩]⟩, "DF /4", ""⟩ : InstructionProto) ∈
      (RenameOperands Example.fbld).1.instructions ∧
    (⟨"m80bcd", .USAGE_READ, .EXPLICIT_ENCODING⟩ : InstructionOperand).name ∉
      ["m80dec", "r8/m8", "r16/m16", "r32/m32", "r64/m64", "ST", "m14/28byte",
        "m94/108byte"] :=
  ⟨by decide,
   RenameOperands_synonym_closure Example.fbld
    ⟨⟨"FBLD", [⟨"m80bcd", .USAGE_READ, .EXPLICIT_ENCODING⟩]⟩, "DF /4", ""⟩ (by decide)
    ⟨"m80bcd", .USAGE_READ, .EXPLICIT_ENCODING⟩ (by decide)⟩

/-! ## FixRegOperands: running the pass on its own output -/

/-- On a settled record the loop over the operands changes nothing and adds nothing. -/
theorem settled_fixed (x : InstructionProto) (h : FixRegOperands.Settled x) :
    FixRegOperands.updatedInPlace x = x ∧ FixRegOperands.collected x = [] := by
  unfold FixRegOperands.updatedInPlace FixRegOperands.collected
  by_cases hlist :
      ContainsKey FixRegOperands.kExpandToAllSizes x.vendor_syntax.mnemonic = true ∨
      ContainsKey FixRegOperands.kRenameToReg8 x.vendor_syntax.mnemonic = true ∨
      ContainsKey FixRegOperands.kRenameToReg16 x.vendor_syntax.mnemonic = true ∨
      ContainsKey FixRegOperands.kRenameToReg32 x.vendor_syntax.mnemonic = true
  · rw [operandLoop_of_no_reg _ _ _ _ _ (h hlist)]
    exact ⟨rfl, rfl⟩
  · simp only [not_or, Bool.not_eq_true] at hlist
    obtain ⟨hE, h8, h16, h32⟩ := hlist
    obtain ⟨e1, e2, _⟩ := operandLoop_unlisted x [] x.vendor_syntax.operands [] Status.OK
      hE h8 h16 h32
    exact ⟨by rw [e1]; rfl, e2⟩

/-- The loop over the operands keeps the mnemonic. -/
theorem operandLoop_mnemonic (i : InstructionProto) (v p : List InstructionOperand)
    (new : List InstructionProto) (st : Status) :
    (InstructionProto.vendor_syntax (FixRegOperands.operandLoop i v p new st).1).mnemonic =
        i.vendor_syntax.mnemonic := by
  induction p generalizing i v new st with
  | nil => rfl
  | cons op p ih =>
    simp only [FixRegOperands.operandLoop]
    split_ifs <;> exact ih _ _ _ _

/-- The loop over the operands leaves no operand named reg when the mnemonic is on one
of the four lists and no visited operand is named reg. -/
theorem operandLoop_settled (i : InstructionProto) (v p : List InstructionOperand)
    (new : List InstructionProto) (st : Status)
    (hv : ∀ o ∈ v, o.name ≠ "reg")
    (hl : ContainsKey FixRegOperands.kExpandToAllSizes i.vendor_syntax.mnemonic = true ∨
      ContainsKey FixRegOperands.kRenameToReg8 i.vendor_syntax.mnemonic = true ∨
      ContainsKey FixRegOperands.kRenameToReg16 i.vendor_syntax.mnemonic = true ∨
      ContainsKey FixRegOperands.kRenameToReg32 i.vendor_syntax.mnemonic = true) :
    ∀ o ∈ (InstructionProto.vendor_syntax (FixRegOperands.operandLoop i v p new st).1).operands,
      o.name ≠ "reg" := by
  induction p generalizing i v new st with
  | nil => exact hv
  | cons op p ih =>
    have hv' : ∀ (name : String), name ≠ "reg" →
        ∀ o ∈ v ++ [{ op with name := name }], o.name ≠ "reg" := by
      intro name hname o ho
      rcases List.mem_append.1 ho with h | h
      · exact hv o h
      · rw [List.mem_singleton.1 h]; exact hname
    simp only [FixRegOperands.operandLoop]
    split_ifs with h1 h2 h3 h4 h5
    · exact ih _ _ _ _ (hv' _ (by decide)) hl
    · exact ih _ _ _ _ (hv' _ (by decide)) hl
    · exact ih _ _ _ _ (hv' _ (by decide)) hl
    · exact ih _ _ _ _ (hv' _ (by decide)) hl
    · rcases hl with h | h | h | h
      · exact absurd h h2
      · exact absurd h h3
      · exact absurd h h4
      · exact absurd h h5
    · refine ih _ _ _ _ (fun o ho => ?_) hl
      rcases List.mem_append.1 ho with h | h
      · exact hv o h
      · rw [List.mem_singleton.1 h]
        intro hn
        exact h1 (by rw [hn]; decide)

/-- Every record that the loop over the operands adds has the mnemonic of the scanned
record and fewer operands named reg than the scanned record still has. -/
theorem operandLoop_collected (i : InstructionProto) (v p : List InstructionOperand)
    (new : List InstructionProto) (st : Status) :
    ∀ c ∈ (FixRegOperands.operandLoop i v p new st).2.1,
      c ∈ new ∨
      (c.vendor_syntax.mnemonic = i.vendor_syntax.mnemonic ∧
        FixRegOperands.regCount c.vendor_syntax.operands + 1 ≤
          FixRegOperands.regCount v + FixRegOperands.regCount p) := by
  induction p generalizing i v new st with
  | nil =>
    intro c hc
    exact Or.inl hc
  | cons op p ih =>
    have hcount : ∀ (name : String), name ≠ "reg" →
        FixRegOperands.regCount (v ++ [{ op with name := name }]) =
          FixRegOperands.regCount v := by
      intro name hname
      simp [FixRegOperands.regCount, FixRegOperands.kRegOperand, hname]
    simp only [FixRegOperands.operandLoop]
    split_ifs with h1 h2 h3 h4 h5
    · have hop : FixRegOperands.regCount (op :: p) = FixRegOperands.regCount p + 1 := by
        simp [FixRegOperands.regCount, h1]
      intro c hc
      rcases ih _ _ _ _ c hc with h | ⟨hm, hle⟩
      · rcases List.mem_append.1 h with h | h
        · exact Or.inl h
        · rw [List.mem_singleton.1 h]
          refine Or.inr ⟨rfl, ?_⟩
          have : FixRegOperands.regCount
              (v ++ { op with name := FixRegOperands.kR32Operand } :: p) =
              FixRegOperands.regCount v + FixRegOperands.regCount p := by
            simp [FixRegOperands.regCount, FixRegOperands.kRegOperand,
              FixRegOperands.kR32Operand]
          simp only [FixRegOperands.withOperands, this, hop]
          omega
      · rw [hcount _ (by decide)] at hle
        exact Or.inr ⟨hm, by omega⟩
    · intro c hc
      rcases ih _ _ _ _ c hc with h | ⟨hm, hle⟩
      · exact Or.inl h
      · rw [hcount _ (by decide)] at hle
        have hop : FixRegOperands.regCount p ≤ FixRegOperands.regCount (op :: p) := by
          simp [FixRegOperands.regCount, List.countP_cons]
        exact Or.inr ⟨hm, by omega⟩
    · intro c hc
      rcases ih _ _ _ _ c hc with h | ⟨hm, hle⟩
      · exact Or.inl h
      · rw [hcount _ (by decide)] at hle
        have hop : FixRegOperands.regCount p ≤ FixRegOperands.regCount (op :: p) := by
          simp [FixRegOperands.regCount, List.countP_cons]
        exact Or.inr ⟨hm, by omega⟩
    · intro c hc
      rcases ih _ _ _ _ c hc with h | ⟨hm, hle⟩
      · exact Or.inl h
      · rw [hcount _ (by decide)] at hle
        have hop : FixRegOperands.regCount p ≤ FixRegOperands.regCount (op :: p) := by
          simp [FixRegOperands.regCount, List.countP_cons]
        exact Or.inr ⟨hm, by omega⟩
    · intro c hc
      rcases ih _ _ _ _ c hc with h | ⟨hm, hle⟩
      · exact Or.inl h
      · have hop : FixRegOperands.regCount (v ++ [op]) + FixRegOperands.regCount p =
            FixRegOperands.regCount v + FixRegOperands.regCount (op :: p) := by
          simp [FixRegOperands.regCount, List.countP_cons]
          omega
        exact Or.inr ⟨hm, by omega⟩
    · intro c hc
      rcases ih _ _ _ _ c hc with h | ⟨hm, hle⟩
      · exact Or.inl h
      · have hop : FixRegOperands.regCount (v ++ [op]) + FixRegOperands.regCount p =
            FixRegOperands.regCount v + FixRegOperands.regCount (op :: p) := by
          simp [FixRegOperands.regCount, List.countP_cons]
          omega
        exact Or.inr ⟨hm, by omega⟩

theorem updatedInPlace_settled (r : InstructionProto) :
    FixRegOperands.Settled (FixRegOperands.updatedInPlace r) := by
  unfold FixRegOperands.Settled FixRegOperands.updatedInPlace
  rw [operandLoop_mnemonic]
  intro hl
  exact operandLoop_settled r [] r.vendor_syntax.operands [] Status.OK
    (fun o ho => absurd ho (List.not_mem_nil o)) hl

theorem collected_settled (r : InstructionProto)
    (h : r.vendor_syntax.mnemonic = "LAR" →
      r.vendor_syntax.operands.countP (fun o => o.name == "reg") ≤ 1) :
    ∀ c ∈ FixRegOperands.collected r, FixRegOperands.Settled c := by
  intro c hc
  unfold FixRegOperands.collected at hc
  by_cases hm : r.vendor_syntax.mnemonic = "LAR"
  · rcases operandLoop_collected r [] r.vendor_syntax.operands [] Status.OK c hc with hnil | ⟨_, hle⟩
    · exact absurd hnil (List.not_mem_nil c)
    · have hr : FixRegOperands.regCount r.vendor_syntax.operands ≤ 1 := h hm
      have h0 : FixRegOperands.regCount [] = 0 := rfl
      have hzero : FixRegOperands.regCount c.vendor_syntax.operands = 0 := by omega
      intro _ o ho hname
      unfold FixRegOperands.regCount at hzero
      rw [List.countP_eq_zero] at hzero
      exact hzero o ho (by rw [hname]; decide)
  · have hlen := operandLoop_new_length r [] r.vendor_syntax.operands [] Status.OK
    have hE : ¬ ContainsKey FixRegOperands.kExpandToAllSizes r.vendor_syntax.mnemonic = true := by
      simp [ContainsKey, FixRegOperands.kExpandToAllSizes, hm]
    rw [if_neg hE] at hlen
    rw [List.eq_nil_of_length_eq_zero hlen] at hc
    exact absurd hc (List.not_mem_nil c)

/-- Counterexample to C10 as stated: on a LAR record with two operands named reg the
second run of `FixRegOperands` changes the document again. -/
theorem FixRegOperands_idempotent_counterexample :
    (FixRegOperands (FixRegOperands Example.larTwoRegs).1).1 ≠
      (FixRegOperands Example.larTwoRegs).1 := by
  decide

/-- C10, amended: for every document in which every LAR record has at most one operand
named reg, the document produced by running `FixRegOperands` twice is equal to the
document produced by running it once: the second run appends no record and adds no
"REX.W + " prefix. -/
theorem FixRegOperands_idempotent_of_single_reg (instruction_set : InstructionSetProto)
    (h : ∀ r ∈ instruction_set.instructions, r.vendor_syntax.mnemonic = "LAR" →
      r.vendor_syntax.operands.countP (fun o => o.name == "reg") ≤ 1) :
    (FixRegOperands (FixRegOperands instruction_set).1).1 =
      (FixRegOperands instruction_set).1 := by
  have hsettled : ∀ x ∈ (FixRegOperands instruction_set).1.instructions,
      FixRegOperands.Settled x := by
    rw [FixRegOperands_eq]
    intro x hx
    rcases List.mem_append.1 hx with hx | hx
    · obtain ⟨r, _, rfl⟩ := List.mem_map.1 hx
      exact updatedInPlace_settled r
    · obtain ⟨r, hr, hc⟩ := List.mem_flatMap.1 hx
      exact collected_settled r (h r hr) x hc
  rw [FixRegOperands_eq (FixRegOperands instruction_set).1]
  have hmap : (FixRegOperands instruction_set).1.instructions.map
      FixRegOperands.updatedInPlace = (FixRegOperands instruction_set).1.instructions := by
    conv_rhs => rw [← List.map_id (FixRegOperands instruction_set).1.instructions]
    exact List.map_congr_left (fun x hx => (settled_fixed x (hsettled x hx)).1)
  have hflat : (FixRegOperands instruction_set).1.instructions.flatMap
      FixRegOperands.collected = [] :=
    List.flatMap_eq_nil_iff.2 (fun x hx => (settled_fixed x (hsettled x hx)).2)
  simp only [hmap, hflat, List.append_nil]

/-- Witness of C10, amended: the LAR record with one operand named reg. -/
theorem FixRegOperands_idempotent_of_single_reg_witness :
    (FixRegOperands (FixRegOperands Example.lar).1).1 = (FixRegOperands Example.lar).1 :=
  FixRegOperands_idempotent_of_single_reg Example.lar (by decide)

/-! ## FixOperandsOfCmpsAndMovs: the loop body case by case -/

theorem cmpsMovs_body_other (r : InstructionProto) (s : Status)
    (h : r.vendor_syntax.mnemonic ∉ ["CMPS", "MOVS"]) :
    FixOperandsOfCmpsAndMovs.body r s = (r, s) := by
  have hk : ContainsKey FixOperandsOfCmpsAndMovs.kMnemonics r.vendor_syntax.mnemonic = false :=
    Bool.eq_false_iff.2 (fun hc => h ((containsKey_iff _ _).1 hc))
  simp only [FixOperandsOfCmpsAndMovs.body, hk, Bool.not_false, if_true]

theorem cmpsMovs_body_count (r : InstructionProto) (s : Status)
    (hm : r.vendor_syntax.mnemonic ∈ ["CMPS", "MOVS"])
    (hc : r.vendor_syntax.operands.length ≠ 2) :
    FixOperandsOfCmpsAndMovs.body r s =
      (r, Status.InvalidArgumentError
        "Unexpected number of operands of a CMPS/MOVS instruction.") := by
  have hk : ContainsKey FixOperandsOfCmpsAndMovs.kMnemonics r.vendor_syntax.mnemonic = true :=
    (containsKey_iff _ _).2 hm
  simp only [FixOperandsOfCmpsAndMovs.body, hk, Bool.not_true, Bool.false_eq_true, if_false]
  rcases hl : r.vendor_syntax.operands with _ | ⟨x, _ | ⟨y, _ | ⟨z, t⟩⟩⟩
  · rfl
  · rfl
  · rw [hl] at hc; exact absurd rfl hc
  · rfl

theorem cmpsMovs_body_unsized (r : InstructionProto) (s : Status)
    (o0 o1 : InstructionOperand)
    (hm : r.vendor_syntax.mnemonic ∈ ["CMPS", "MOVS"])
    (hops : r.vendor_syntax.operands = [o0, o1])
    (hn : o0.name ∉ ["m8", "m16", "m32", "m64"]) :
    FixOperandsOfCmpsAndMovs.body r s =
      (r, Status.InvalidArgumentError
        ("Unexpected operand of a CMPS/MOVS instruction: " ++ o0.name)) := by
  have hk : ContainsKey FixOperandsOfCmpsAndMovs.kMnemonics r.vendor_syntax.mnemonic = true :=
    (containsKey_iff _ _).2 hm
  have hs : ContainsKey FixOperandsOfCmpsAndMovs.kSourceOperands o0.name = false := rfl
  have hd : ContainsKey FixOperandsOfCmpsAndMovs.kDestinationOperands o0.name = false := rfl
  simp only [FixOperandsOfCmpsAndMovs.body, hk, hops, findCopy_pointerSize_none _ hn, hs, hd,
    Bool.not_true, Bool.false_eq_true, if_false, Option.isNone_none, Bool.not_false,
    Bool.and_self, if_true]

theorem cmpsMovs_body_movs (r : InstructionProto) (s : Status)
    (o0 o1 : InstructionOperand) (S : String)
    (hm : r.vendor_syntax.mnemonic = "MOVS")
    (hops : r.vendor_syntax.operands = [o0, o1])
    (hS : o0.name = "m8" ∧ S = "BYTE" ∨ o0.name = "m16" ∧ S = "WORD" ∨
      o0.name = "m32" ∧ S = "DWORD" ∨ o0.name = "m64" ∧ S = "QWORD") :
    FixOperandsOfCmpsAndMovs.body r s =
      ({ r with vendor_syntax := { r.vendor_syntax with
          operands :=
            [{ o0 with name := S ++ " PTR [RDI]", usage := Usage.USAGE_WRITE },
             { o1 with name := S ++ " PTR [RSI]", usage := Usage.USAGE_READ }] } }, s) := by
  obtain ⟨⟨mnemonic, operands⟩, enc, desc⟩ := r
  obtain ⟨name, usage, encoding⟩ := o0
  simp only at hm hops hS
  subst hm hops
  rcases hS with ⟨rfl, rfl⟩ | ⟨rfl, rfl⟩ | ⟨rfl, rfl⟩ | ⟨rfl, rfl⟩ <;> rfl

theorem cmpsMovs_body_cmps (r : InstructionProto) (s : Status)
    (o0 o1 : InstructionOperand) (S : String)
    (hm : r.vendor_syntax.mnemonic = "CMPS")
    (hops : r.vendor_syntax.operands = [o0, o1])
    (hS : o0.name = "m8" ∧ S = "BYTE" ∨ o0.name = "m16" ∧ S = "WORD" ∨
      o0.name = "m32" ∧ S = "DWORD" ∨ o0.name = "m64" ∧ S = "QWORD") :
    FixOperandsOfCmpsAndMovs.body r s =
      ({ r with vendor_syntax := { r.vendor_syntax with
          operands :=
            [{ o0 with name := S ++ " PTR [RSI]", usage := Usage.USAGE_READ },
             { o1 with name := S ++ " PTR [RDI]", usage := Usage.USAGE_READ }] } }, s) := by
  obtain ⟨⟨mnemonic, operands⟩, enc, desc⟩ := r
  obtain ⟨name, usage, encoding⟩ := o0
  simp only at hm hops hS
  subst hm hops
  rcases hS with ⟨rfl, rfl⟩ | ⟨rfl, rfl⟩ | ⟨rfl, rfl⟩ | ⟨rfl, rfl⟩ <;> rfl

/-- A name is in the size table or it is not: the table's keys. -/
theorem sized_or_not (name : String) :
    (∃ S, name = "m8" ∧ S = "BYTE" ∨ name = "m16" ∧ S = "WORD" ∨
      name = "m32" ∧ S = "DWORD" ∨ name = "m64" ∧ S = "QWORD") ∨
    name ∉ ["m8", "m16", "m32", "m64"] := by
  by_cases h1 : name = "m8"
  · exact Or.inl ⟨"BYTE", Or.inl ⟨h1, rfl⟩⟩
  by_cases h2 : name = "m16"
  · exact Or.inl ⟨"WORD", Or.inr (Or.inl ⟨h2, rfl⟩)⟩
  by_cases h3 : name = "m32"
  · exact Or.inl ⟨"DWORD", Or.inr (Or.inr (Or.inl ⟨h3, rfl⟩))⟩
  by_cases h4 : name = "m64"
  · exact Or.inl ⟨"QWORD", Or.inr (Or.inr (Or.inr ⟨h4, rfl⟩))⟩
  · exact Or.inr (by simp [h1, h2, h3, h4])

/-- The body of the loop of `FixOperandsOfCmpsAndMovs` never assigns `OK` to the status. -/
theorem cmpsMovs_body_error (i : InstructionProto) (s : Status) (h : s ≠ Status.OK) :
    (FixOperandsOfCmpsAndMovs.body i s).2 ≠ Status.OK := by
  unfold FixOperandsOfCmpsAndMovs.body
  dsimp only
  split
  · exact h
  · split
    · split
      · simp
      · exact h
    · simp

/-! ## The status at the end of the loop over the instructions -/

theorem forEachInstruction_snd_append
    (body : InstructionProto → Status → InstructionProto × Status)
    (pre l : List InstructionProto) (status : Status) :
    (forEachInstruction body (pre ++ l) status).2 =
      (forEachInstruction body l (forEachInstruction body pre status).2).2 := by
  induction pre generalizing status with
  | nil => rfl
  | cons a pre ih => exact ih _

theorem forEachInstruction_snd_keep
    (body : InstructionProto → Status → InstructionProto × Status)
    (l : List InstructionProto) (status : Status)
    (h : ∀ r ∈ l, ∀ s, (body r s).2 = s) :
    (forEachInstruction body l status).2 = status := by
  induction l generalizing status with
  | nil => rfl
  | cons a l ih =>
    show (forEachInstruction body l (body a status).2).2 = status
    rw [ih _ (fun r hr => h r (List.mem_cons_of_mem _ hr)), h a (List.mem_cons_self _ _)]

theorem forEachInstruction_ok_iff
    (body : InstructionProto → Status → InstructionProto × Status)
    (good : InstructionProto → Prop)
    (hg : ∀ i s, good i → (body i s).2 = s)
    (hb : ∀ i s, ¬ good i → (body i s).2 ≠ Status.OK)
    (l : List InstructionProto) (status : Status) :
    (forEachInstruction body l status).2 = Status.OK ↔
      status = Status.OK ∧ ∀ i ∈ l, good i := by
  induction l generalizing status with
  | nil => simp [forEachInstruction]
  | cons a l ih =>
    show (forEachInstruction body l (body a status).2).2 = Status.OK ↔ _
    rw [ih]
    by_cases ha : good a
    · rw [hg a status ha]
      simp [ha]
    · have := hb a status ha
      simp [ha, this]

/-! ## FixOperandsOfCmpsAndMovs: usage, errors, malformed records -/

theorem cmpsMovs_mnemonic_cases (r : InstructionProto)
    (hm : r.vendor_syntax.mnemonic ∈ ["CMPS", "MOVS"]) :
    r.vendor_syntax.mnemonic = "CMPS" ∨ r.vendor_syntax.mnemonic = "MOVS" := by
  simpa using hm

/-- A record that is not a CMPS or MOVS record, or is one with two operands of which
operand 0 is in the size table, leaves the status variable as it is. -/
theorem cmpsMovs_body_snd_wellformed (r : InstructionProto)
    (h : r.vendor_syntax.mnemonic ∈ ["CMPS", "MOVS"] →
      ∃ o0 o1, r.vendor_syntax.operands = [o0, o1] ∧ o0.name ∈ ["m8", "m16", "m32", "m64"])
    (s : Status) : (FixOperandsOfCmpsAndMovs.body r s).2 = s := by
  by_cases hm : r.vendor_syntax.mnemonic ∈ ["CMPS", "MOVS"]
  · obtain ⟨o0, o1, hops, hn⟩ := h hm
    rcases sized_or_not o0.name with ⟨S, hS⟩ | hno
    · rcases cmpsMovs_mnemonic_cases r hm with hc | hc
      · rw [cmpsMovs_body_cmps r s o0 o1 S hc hops hS]
      · rw [cmpsMovs_body_movs r s o0 o1 S hc hops hS]
    · exact absurd hn hno
  · rw [cmpsMovs_body_other r s hm]

/-- Counterexample to C13 as stated: the pass rewrites the CMPS record of
`Example.cmps`, and its operand 1 (the destination of the claim) does not get the usage
WRITE. -/
theorem FixOperandsOfCmpsAndMovs_usage_counterexample :
    (FixOperandsOfCmpsAndMovs Example.cmps).1.instructions[0]? ≠
        Example.cmps.instructions[0]? ∧
    ((FixOperandsOfCmpsAndMovs Example.cmps).1.instructions[0]?.map
      (fun r => r.vendor_syntax.operands.map (fun o => o.usage))) ≠
        some [Usage.USAGE_READ, Usage.USAGE_WRITE] := by
  decide

/-- C13, amended: after `FixOperandsOfCmpsAndMovs`, every record that the pass rewrote is
a CMPS or MOVS record and has exactly two operands; in a MOVS record operand 0 (the
destination) has the usage WRITE and operand 1 the usage READ; in a CMPS record both
operands have the usage READ. -/
theorem FixOperandsOfCmpsAndMovs_usage_of_rewritten
    (instruction_set : InstructionSetProto) (i : Nat) (r r' : InstructionProto)
    (hi : instruction_set.instructions[i]? = some r)
    (ho : (FixOperandsOfCmpsAndMovs instruction_set).1.instructions[i]? = some r')
    (hne : r' ≠ r) :
    r'.vendor_syntax.mnemonic = r.vendor_syntax.mnemonic ∧
    r.vendor_syntax.mnemonic ∈ ["CMPS", "MOVS"] ∧
    ∃ o0 o1, r'.vendor_syntax.operands = [o0, o1] ∧
      (r.vendor_syntax.mnemonic = "MOVS" →
        o0.usage = Usage.USAGE_WRITE ∧ o1.usage = Usage.USAGE_READ) ∧
      (r.vendor_syntax.mnemonic = "CMPS" →
        o0.usage = Usage.USAGE_READ ∧ o1.usage = Usage.USAGE_READ) := by
  rw [cmpsMovs_instructions, List.getElem?_map, hi, Option.map_some', Option.some.injEq] at ho
  subst ho
  by_cases hm : r.vendor_syntax.mnemonic ∈ ["CMPS", "MOVS"]
  · by_cases hc : r.vendor_syntax.operands.length = 2
    · obtain ⟨o0, o1, hops⟩ := List.length_eq_two.1 hc
      rcases sized_or_not o0.name with ⟨S, hS⟩ | hno
      · rcases cmpsMovs_mnemonic_cases r hm with hcm | hcm
        · rw [cmpsMovs_body_cmps r Status.OK o0 o1 S hcm hops hS]
          refine ⟨rfl, hm, _, _, rfl, fun h => ?_, fun _ => ⟨rfl, rfl⟩⟩
          rw [hcm] at h
          exact absurd h (by decide)
        · rw [cmpsMovs_body_movs r Status.OK o0 o1 S hcm hops hS]
          refine ⟨rfl, hm, _, _, rfl, fun _ => ⟨rfl, rfl⟩, fun h => ?_⟩
          rw [hcm] at h
          exact absurd h (by decide)
      · rw [cmpsMovs_body_unsized r Status.OK o0 o1 hm hops hno] at hne
        exact absurd rfl hne
    · rw [cmpsMovs_body_count r Status.OK hm hc] at hne
      exact absurd rfl hne
  · rw [cmpsMovs_body_other r Status.OK hm] at hne
    exact absurd rfl hne

/-- Witness of C13, amended: the CMPS record of `Example.cmps` is rewritten; both of its
operands have the usage READ. -/
theorem FixOperandsOfCmpsAndMovs_usage_of_rewritten_witness :
    ∃ o0 o1,
      (InstructionProto.vendor_syntax
        ⟨⟨"CMPS", [⟨"DWORD PTR [RSI]", .USAGE_READ, .EXPLICIT_ENCODING⟩,
          ⟨"DWORD PTR [RDI]", .USAGE_READ, .EXPLICIT_ENCODING⟩]⟩, "A7", ""⟩).operands =
        [o0, o1] ∧
      o0.usage = Usage.USAGE_READ ∧ o1.usage = Usage.USAGE_READ :=
  have h := FixOperandsOfCmpsAndMovs_usage_of_rewritten Example.cmps 0
    ⟨⟨"CMPS", [⟨"m32", .USAGE_READ_WRITE, .EXPLICIT_ENCODING⟩,
      ⟨"m32", .USAGE_READ_WRITE, .EXPLICIT_ENCODING⟩]⟩, "A7", ""⟩
    ⟨⟨"CMPS", [⟨"DWORD PTR [RSI]", .USAGE_READ, .EXPLICIT_ENCODING⟩,
      ⟨"DWORD PTR [RDI]", .USAGE_READ, .EXPLICIT_ENCODING⟩]⟩, "A7", ""⟩
    rfl (by decide) (by decide)
  h.2.2.elim (fun o0 h0 => h0.elim (fun o1 h1 => ⟨o0, o1, h1.1, h1.2.2 rfl⟩))

/-- C14: the code at the failing input.  For the document whose only record is MOVS with
the operands "BYTE PTR [RDI]" and "BYTE PTR [RSI]" the pass leaves the document as it is
and returns the error for operand 0: the sets of index forms are built from an empty
range, so an index form is not recognised. -/
theorem FixOperandsOfCmpsAndMovs_index_form_is_error :
    FixOperandsOfCmpsAndMovs.kSourceOperands = [] ∧
    FixOperandsOfCmpsAndMovs.kDestinationOperands = [] ∧
    FixOperandsOfCmpsAndMovs Example.movsIndexForms =
      (Example.movsIndexForms,
        Status.InvalidArgumentError
          "Unexpected operand of a CMPS/MOVS instruction: BYTE PTR [RDI]") := by
  decide

/-- C15: for every document that contains a CMPS or MOVS record whose number of operands
is not two, the pass returns an invalid-argument error and leaves that record unchanged;
every well-formed CMPS or MOVS record of the document (two operands, operand 0 in the
size table) is still rewritten, at whatever position it stands, and the records with
another mnemonic are unchanged. -/
theorem FixOperandsOfCmpsAndMovs_malformed_policy
    (instruction_set : InstructionSetProto) (j : Nat) (bad : InstructionProto)
    (hj : instruction_set.instructions[j]? = some bad)
    (hm : bad.vendor_syntax.mnemonic ∈ ["CMPS", "MOVS"])
    (hc : bad.vendor_syntax.operands.length ≠ 2) :
    (∃ message,
      (FixOperandsOfCmpsAndMovs instruction_set).2 = Status.InvalidArgumentError message) ∧
    (FixOperandsOfCmpsAndMovs instruction_set).1.instructions[j]? = some bad ∧
    (∀ (i : Nat) (r : InstructionProto) (o0 o1 : InstructionOperand) (S : String),
      instruction_set.instructions[i]? = some r →
      r.vendor_syntax.operands = [o0, o1] →
      (o0.name = "m8" ∧ S = "BYTE" ∨ o0.name = "m16" ∧ S = "WORD" ∨
        o0.name = "m32" ∧ S = "DWORD" ∨ o0.name = "m64" ∧ S = "QWORD") →
      (r.vendor_syntax.mnemonic = "MOVS" →
        (FixOperandsOfCmpsAndMovs instruction_set).1.instructions[i]? =
          some { r with vendor_syntax := { r.vendor_syntax with
            operands :=
              [{ o0 with name := S ++ " PTR [RDI]", usage := Usage.USAGE_WRITE },
               { o1 with name := S ++ " PTR [RSI]", usage := Usage.USAGE_READ }] } }) ∧
      (r.vendor_syntax.mnemonic = "CMPS" →
        (FixOperandsOfCmpsAndMovs instruction_set).1.instructions[i]? =
          some { r with vendor_syntax := { r.vendor_syntax with
            operands :=
              [{ o0 with name := S ++ " PTR [RSI]", usage := Usage.USAGE_READ },
               { o1 with name := S ++ " PTR [RDI]", usage := Usage.USAGE_READ }] } })) ∧
    (∀ (i : Nat) (r : InstructionProto),
      instruction_set.instructions[i]? = some r →
      r.vendor_syntax.mnemonic ∉ ["CMPS", "MOVS"] →
      (FixOperandsOfCmpsAndMovs instruction_set).1.instructions[i]? = some r) := by
  refine ⟨?_, ?_, ?_, ?_⟩
  · apply (status_ne_OK_iff _).1
    unfold FixOperandsOfCmpsAndMovs
    refine forEachInstruction_error_of_mem _ cmpsMovs_body_error _ _ bad
      (List.getElem?_mem hj) (fun s => ?_)
    rw [cmpsMovs_body_count bad s hm hc]
    simp
  · rw [cmpsMovs_instructions, List.getElem?_map, hj, Option.map_some',
      cmpsMovs_body_count bad Status.OK hm hc]
  · intro i r o0 o1 S hi hops hS
    rw [cmpsMovs_instructions, List.getElem?_map, hi, Option.map_some']
    constructor
    · intro hmovs
      rw [cmpsMovs_body_movs r Status.OK o0 o1 S hmovs hops hS]
    · intro hcmps
      rw [cmpsMovs_body_cmps r Status.OK o0 o1 S hcmps hops hS]
  · intro i r hi hother
    rw [cmpsMovs_instructions, List.getElem?_map, hi, Option.map_some',
      cmpsMovs_body_other r Status.OK hother]

/-- Witness of C15: in `Example.movsMalformed` the MOVS record with three operands stands
between a well-formed MOVS record and a well-formed CMPS record: the pass returns an
error, that record and the MOV record are unchanged, the other two are rewritten. -/
theorem FixOperandsOfCmpsAndMovs_malformed_policy_witness :
    (∃ message,
      (FixOperandsOfCmpsAndMovs Example.movsMalformed).2 =
        Status.InvalidArgumentError message) ∧
    (FixOperandsOfCmpsAndMovs Example.movsMalformed).1.instructions[1]? =
      some Example.movsThree ∧
    (FixOperandsOfCmpsAndMovs Example.movsMalformed).1.instructions[0]? =
      some ⟨⟨"MOVS", [⟨"BYTE PTR [RDI]", .USAGE_WRITE, .EXPLICIT_ENCODING⟩,
        ⟨"BYTE PTR [RSI]", .USAGE_READ, .EXPLICIT_ENCODING⟩]⟩, "A4", ""⟩ ∧
    (FixOperandsOfCmpsAndMovs Example.movsMalformed).1.instructions[3]? =
      some ⟨⟨"CMPS", [⟨"WORD PTR [RSI]", .USAGE_READ, .EXPLICIT_ENCODING⟩,
        ⟨"WORD PTR [RDI]", .USAGE_READ, .EXPLICIT_ENCODING⟩]⟩, "A7", ""⟩ ∧
    (FixOperandsOfCmpsAndMovs Example.movsMalformed).1.instructions[2]? =
      some ⟨⟨"MOV", [⟨"m8", .USAGE_WRITE, .EXPLICIT_ENCODING⟩,
        ⟨"r8", .USAGE_READ, .EXPLICIT_ENCODING⟩]⟩, "88 /r", ""⟩ :=
  have h := FixOperandsOfCmpsAndMovs_malformed_policy Example.movsMalformed 1
    Example.movsThree rfl (by decide) (by decide)
  ⟨h.1, h.2.1,
    (h.2.2.1 0 Example.movsSized ⟨"m8", .USAGE_READ_WRITE, .EXPLICIT_ENCODING⟩
      ⟨"m8", .USAGE_READ_WRITE, .EXPLICIT_ENCODING⟩ "BYTE" rfl rfl (by decide)).1 rfl,
    (h.2.2.1 3
      ⟨⟨"CMPS", [⟨"m16", .USAGE_READ_WRITE, .EXPLICIT_ENCODING⟩,
        ⟨"m16", .USAGE_READ_WRITE, .EXPLICIT_ENCODING⟩]⟩, "A7", ""⟩
      ⟨"m16", .USAGE_READ_WRITE, .EXPLICIT_ENCODING⟩
      ⟨"m16", .USAGE_READ_WRITE, .EXPLICIT_ENCODING⟩ "WORD" rfl rfl (by decide)).2 rfl,
    h.2.2.2 2
      ⟨⟨"MOV", [⟨"m8", .USAGE_WRITE, .EXPLICIT_ENCODING⟩,
        ⟨"r8", .USAGE_READ, .EXPLICIT_ENCODING⟩]⟩, "88 /r", ""⟩ rfl (by decide)⟩

/-- C20: the status that `FixOperandsOfCmpsAndMovs` returns is the error of the last
malformed CMPS or MOVS record of the document: when the records after `last` are
well-formed or have another mnemonic, the status is the operand-count error if `last`
does not have two operands, and the unexpected-operand error with the name of its operand
0 if that operand is not in the size table, whatever errors the records before it caused;
a well-formed record after it does not reset the status. -/
theorem FixOperandsOfCmpsAndMovs_last_error_wins
    (instruction_set : InstructionSetProto)
    (pre : List InstructionProto) (last : InstructionProto) (post : List InstructionProto)
    (hdoc : instruction_set.instructions = pre ++ last :: post)
    (hm : last.vendor_syntax.mnemonic ∈ ["CMPS", "MOVS"])
    (hpost : ∀ r ∈ post, r.vendor_syntax.mnemonic ∈ ["CMPS", "MOVS"] →
      ∃ o0 o1, r.vendor_syntax.operands = [o0, o1] ∧
        o0.name ∈ ["m8", "m16", "m32", "m64"]) :
    (last.vendor_syntax.operands.length ≠ 2 →
      (FixOperandsOfCmpsAndMovs instruction_set).2 =
        Status.InvalidArgumentError
          "Unexpected number of operands of a CMPS/MOVS instruction.") ∧
    (∀ o0 o1 : InstructionOperand, last.vendor_syntax.operands = [o0, o1] →
      o0.name ∉ ["m8", "m16", "m32", "m64"] →
      (FixOperandsOfCmpsAndMovs instruction_set).2 =
        Status.InvalidArgumentError
          ("Unexpected operand of a CMPS/MOVS instruction: " ++ o0.name)) := by
  have hstatus : (FixOperandsOfCmpsAndMovs instruction_set).2 =
      (FixOperandsOfCmpsAndMovs.body last
        (forEachInstruction FixOperandsOfCmpsAndMovs.body pre Status.OK).2).2 := by
    unfold FixOperandsOfCmpsAndMovs
    simp only [hdoc]
    rw [forEachInstruction_snd_append]
    show (forEachInstruction FixOperandsOfCmpsAndMovs.body post _).2 = _
    exact forEachInstruction_snd_keep _ post _
      (fun r hr s => cmpsMovs_body_snd_wellformed r (hpost r hr) s)
  constructor
  · intro hc
    rw [hstatus, cmpsMovs_body_count last _ hm hc]
  · intro o0 o1 hops hn
    rw [hstatus, cmpsMovs_body_unsized last _ o0 o1 hm hops hn]

/-- Witness of C20: for the MOVS record with three operands followed by the MOVS record
with the operands foo and bar the message names foo; with the two records swapped it is
the operand-count message; and a well-formed record after the record with three operands
leaves the operand-count error in place. -/
theorem FixOperandsOfCmpsAndMovs_last_error_wins_witness :
    (FixOperandsOfCmpsAndMovs ⟨[Example.movsThree, Example.movsFooBar]⟩).2 =
      Status.InvalidArgumentError "Unexpected operand of a CMPS/MOVS instruction: foo" ∧
    (FixOperandsOfCmpsAndMovs ⟨[Example.movsFooBar, Example.movsThree]⟩).2 =
      Status.InvalidArgumentError
        "Unexpected number of operands of a CMPS/MOVS instruction." ∧
    (FixOperandsOfCmpsAndMovs ⟨[Example.movsThree, Example.movsSized]⟩).2 =
      Status.InvalidArgumentError
        "Unexpected number of operands of a CMPS/MOVS instruction." :=
  ⟨(FixOperandsOfCmpsAndMovs_last_error_wins ⟨[Example.movsThree, Example.movsFooBar]⟩
      [Example.movsThree] Example.movsFooBar [] rfl (by decide)
      (fun r hr => absurd hr (List.not_mem_nil r))).2
      ⟨"foo", .USAGE_READ_WRITE, .EXPLICIT_ENCODING⟩
      ⟨"bar", .USAGE_READ_WRITE, .EXPLICIT_ENCODING⟩ rfl (by decide),
   (FixOperandsOfCmpsAndMovs_last_error_wins ⟨[Example.movsFooBar, Example.movsThree]⟩
      [Example.movsFooBar] Example.movsThree [] rfl (by decide)
      (fun r hr => absurd hr (List.not_mem_nil r))).1 (by decide),
   (FixOperandsOfCmpsAndMovs_last_error_wins ⟨[Example.movsThree, Example.movsSized]⟩
      [] Example.movsThree [Example.movsSized] rfl (by decide)
      (fun r hr _ => by
        rw [List.mem_singleton.1 hr]
        exact ⟨⟨"m8", .USAGE_READ_WRITE, .EXPLICIT_ENCODING⟩,
          ⟨"m8", .USAGE_READ_WRITE, .EXPLICIT_ENCODING⟩, rfl, by decide⟩)).1 (by decide)⟩

/-! ## FixOperandsOfLodsScasAndStos: the loop body case by case -/

theorem lodsScasStos_mnemonic_flags (r : InstructionProto)
    (h : r.vendor_syntax.mnemonic ∉ ["LODS", "SCAS", "STOS"]) :
    (r.vendor_syntax.mnemonic == FixOperandsOfLodsScasAndStos.kLods) = false ∧
    (r.vendor_syntax.mnemonic == FixOperandsOfLodsScasAndStos.kStos) = false ∧
    (r.vendor_syntax.mnemonic == FixOperandsOfLodsScasAndStos.kScas) = false := by
  simp only [List.mem_cons, List.mem_singleton, List.not_mem_nil, or_false, not_or] at h
  exact ⟨beq_false_of_ne h.1, beq_false_of_ne h.2.2, beq_false_of_ne h.2.1⟩

theorem lodsScasStos_body_other (r : InstructionProto) (s : Status)
    (h : r.vendor_syntax.mnemonic ∉ ["LODS", "SCAS", "STOS"]) :
    FixOperandsOfLodsScasAndStos.body r s = (r, s) := by
  obtain ⟨h1, h2, h3⟩ := lodsScasStos_mnemonic_flags r h
  simp only [FixOperandsOfLodsScasAndStos.body, h1, h2, h3, Bool.not_false, Bool.and_self,
    if_true]

theorem lodsScasStos_matched (r : InstructionProto)
    (hm : r.vendor_syntax.mnemonic ∈ ["LODS", "SCAS", "STOS"]) :
    (!(r.vendor_syntax.mnemonic == FixOperandsOfLodsScasAndStos.kLods) &&
      !(r.vendor_syntax.mnemonic == FixOperandsOfLodsScasAndStos.kStos) &&
      !(r.vendor_syntax.mnemonic == FixOperandsOfLodsScasAndStos.kScas)) = false := by
  simp only [List.mem_cons, List.mem_singleton, List.not_mem_nil, or_false] at hm
  rcases hm with h | h | h <;> rw [h] <;> decide

theorem lodsScasStos_body_count (r : InstructionProto) (s : Status)
    (hm : r.vendor_syntax.mnemonic ∈ ["LODS", "SCAS", "STOS"])
    (hc : r.vendor_syntax.operands.length ≠ 1) :
    FixOperandsOfLodsScasAndStos.body r s =
      (r, Status.InvalidArgumentError
        "Unexpected number of operands of a LODS/STOS instruction.") := by
  simp only [FixOperandsOfLodsScasAndStos.body, lodsScasStos_matched r hm,
    Bool.false_eq_true, if_false]
  rcases hl : r.vendor_syntax.operands with _ | ⟨x, _ | ⟨y, t⟩⟩
  · rfl
  · rw [hl] at hc; exact absurd rfl hc
  · rfl

theorem findCopy_register_none (name : String)
    (h : name ∉ ["m8", "m16", "m32", "m64"]) :
    FindCopy FixOperandsOfLodsScasAndStos.kOperandToRegister name = none := by
  simp only [List.mem_cons, List.mem_singleton, List.not_mem_nil, or_false, not_or] at h
  obtain ⟨h1, h2, h3, h4⟩ := h
  simp [FindCopy, FindOrNull, FixOperandsOfLodsScasAndStos.kOperandToRegister, List.find?,
    beq_false_of_ne (Ne.symm h1), beq_false_of_ne (Ne.symm h2),
    beq_false_of_ne (Ne.symm h3), beq_false_of_ne (Ne.symm h4)]

theorem lodsScasStos_body_unsized (r : InstructionProto) (s : Status)
    (o : InstructionOperand)
    (hm : r.vendor_syntax.mnemonic ∈ ["LODS", "SCAS", "STOS"])
    (hops : r.vendor_syntax.operands = [o])
    (hn : o.name ∉ ["m8", "m16", "m32", "m64"]) :
    FixOperandsOfLodsScasAndStos.body r s =
      (r, Status.InvalidArgumentError
        ("Unexpected operand of a LODS/STOS instruction: " ++ o.name)) := by
  simp only [FixOperandsOfLodsScasAndStos.body, lodsScasStos_matched r hm,
    Bool.false_eq_true, if_false, hops, findCopy_register_none _ hn]

/-- The loop body on a matched record whose one operand is in the size table. -/
theorem lodsScasStos_body_sized (r : InstructionProto) (s : Status)
    (o : InstructionOperand) (R S : String)
    (hops : r.vendor_syntax.operands = [o])
    (hS : o.name = "m8" ∧ R = "AL" ∧ S = "BYTE" ∨ o.name = "m16" ∧ R = "AX" ∧ S = "WORD" ∨
      o.name = "m32" ∧ R = "EAX" ∧ S = "DWORD" ∨ o.name = "m64" ∧ R = "RAX" ∧ S = "QWORD") :
    (r.vendor_syntax.mnemonic = "STOS" →
      FixOperandsOfLodsScasAndStos.body r s =
        ({ r with vendor_syntax := { r.vendor_syntax with
            operands :=
              [⟨S ++ " PTR [RDI]", Usage.USAGE_READ, Encoding.IMPLICIT_ENCODING⟩,
               ⟨R, Usage.USAGE_READ, Encoding.IMPLICIT_ENCODING⟩] } }, s)) ∧
    (r.vendor_syntax.mnemonic = "LODS" →
      FixOperandsOfLodsScasAndStos.body r s =
        ({ r with vendor_syntax := { r.vendor_syntax with
            operands :=
              [⟨R, Usage.USAGE_READ, Encoding.IMPLICIT_ENCODING⟩,
               ⟨S ++ " PTR [RSI]", Usage.USAGE_READ, Encoding.IMPLICIT_ENCODING⟩] } }, s)) ∧
    (r.vendor_syntax.mnemonic = "SCAS" →
      FixOperandsOfLodsScasAndStos.body r s =
        ({ r with vendor_syntax := { r.vendor_syntax with
            operands :=
              [⟨R, Usage.USAGE_READ, Encoding.IMPLICIT_ENCODING⟩,
               ⟨S ++ " PTR [RDI]", Usage.USAGE_READ, Encoding.IMPLICIT_ENCODING⟩] } }, s)) := by
  obtain ⟨⟨mnemonic, operands⟩, enc, desc⟩ := r
  obtain ⟨name, usage, encoding⟩ := o
  simp only at hops hS
  subst hops
  refine ⟨?_, ?_, ?_⟩ <;> intro hm <;> simp only at hm <;> subst hm <;>
    rcases hS with ⟨rfl, rfl, rfl⟩ | ⟨rfl, rfl, rfl⟩ | ⟨rfl, rfl, rfl⟩ | ⟨rfl, rfl, rfl⟩ <;>
      rfl

theorem sized_register_or_not (name : String) :
    (∃ R S, name = "m8" ∧ R = "AL" ∧ S = "BYTE" ∨ name = "m16" ∧ R = "AX" ∧ S = "WORD" ∨
      name = "m32" ∧ R = "EAX" ∧ S = "DWORD" ∨ name = "m64" ∧ R = "RAX" ∧ S = "QWORD") ∨
    name ∉ ["m8", "m16", "m32", "m64"] := by
  by_cases h1 : name = "m8"
  · exact Or.inl ⟨"AL", "BYTE", Or.inl ⟨h1, rfl, rfl⟩⟩
  by_cases h2 : name = "m16"
  · exact Or.inl ⟨"AX", "WORD", Or.inr (Or.inl ⟨h2, rfl, rfl⟩)⟩
  by_cases h3 : name = "m32"
  · exact Or.inl ⟨"EAX", "DWORD", Or.inr (Or.inr (Or.inl ⟨h3, rfl, rfl⟩))⟩
  by_cases h4 : name = "m64"
  · exact Or.inl ⟨"RAX", "QWORD", Or.inr (Or.inr (Or.inr ⟨h4, rfl, rfl⟩))⟩
  · exact Or.inr (by simp [h1, h2, h3, h4])

/-- The body of the loop of `FixOperandsOfLodsScasAndStos` never assigns `OK` to the
status. -/
theorem lodsScasStos_body_error (i : InstructionProto) (s : Status) (h : s ≠ Status.OK) :
    (FixOperandsOfLodsScasAndStos.body i s).2 ≠ Status.OK := by
  unfold FixOperandsOfLodsScasAndStos.body
  dsimp only
  split
  · exact h
  · split
    · split
      · exact h
      · simp
    · simp

/-- A record that the pass does not match, or a matched record with one operand of the
size table, leaves the status variable as it is. -/
theorem lodsScasStos_body_snd_good (r : InstructionProto)
    (h : r.vendor_syntax.mnemonic ∈ ["LODS", "SCAS", "STOS"] →
      ∃ o, r.vendor_syntax.operands = [o] ∧ o.name ∈ ["m8", "m16", "m32", "m64"])
    (s : Status) : (FixOperandsOfLodsScasAndStos.body r s).2 = s := by
  by_cases hm : r.vendor_syntax.mnemonic ∈ ["LODS", "SCAS", "STOS"]
  · obtain ⟨o, hops, hn⟩ := h hm
    rcases sized_register_or_not o.name with ⟨R, S, hS⟩ | hno
    · obtain ⟨h1, h2, h3⟩ := lodsScasStos_body_sized r s o R S hops hS
      simp only [List.mem_cons, List.mem_singleton, List.not_mem_nil, or_false] at hm
      rcases hm with hc | hc | hc
      · rw [h2 hc]
      · rw [h3 hc]
      · rw [h1 hc]
    · exact absurd hn hno
  · rw [lodsScasStos_body_other r s hm]

/-- A matched record that does not have one operand of the size table assigns an error. -/
theorem lodsScasStos_body_snd_bad (r : InstructionProto)
    (h : ¬ (r.vendor_syntax.mnemonic ∈ ["LODS", "SCAS", "STOS"] →
      ∃ o, r.vendor_syntax.operands = [o] ∧ o.name ∈ ["m8", "m16", "m32", "m64"]))
    (s : Status) : (FixOperandsOfLodsScasAndStos.body r s).2 ≠ Status.OK := by
  rw [Classical.not_imp] at h
  obtain ⟨hm, hno⟩ := h
  by_cases hc : r.vendor_syntax.operands.length = 1
  · obtain ⟨o, hops⟩ := List.length_eq_one.1 hc
    have hn : o.name ∉ ["m8", "m16", "m32", "m64"] := fun hn => hno ⟨o, hops, hn⟩
    rw [lodsScasStos_body_unsized r s o hm hops hn]
    simp
  · rw [lodsScasStos_body_count r s hm hc]
    simp

/-- C12: for every document in which every record with the mnemonic LODS, SCAS or STOS has
exactly one operand, the pass returns success if and only if each of those operands is
named m8, m16, m32 or m64; a one-operand LODS, SCAS or STOS record whose operand has
another name is left unmodified, and the records of the same document whose operand is
in the size table are still rewritten. -/
theorem FixOperandsOfLodsScasAndStos_size_table_complete
    (instruction_set : InstructionSetProto)
    (h : ∀ r ∈ instruction_set.instructions,
      r.vendor_syntax.mnemonic ∈ ["LODS", "SCAS", "STOS"] →
        r.vendor_syntax.operands.length = 1) :
    ((FixOperandsOfLodsScasAndStos instruction_set).2 = Status.OK ↔
      ∀ r ∈ instruction_set.instructions,
        r.vendor_syntax.mnemonic ∈ ["LODS", "SCAS", "STOS"] →
          ∀ o ∈ r.vendor_syntax.operands, o.name ∈ ["m8", "m16", "m32", "m64"]) ∧
    (∀ (i : Nat) (r : InstructionProto) (o : InstructionOperand),
      instruction_set.instructions[i]? = some r →
      r.vendor_syntax.mnemonic ∈ ["LODS", "SCAS", "STOS"] →
      r.vendor_syntax.operands = [o] →
      o.name ∉ ["m8", "m16", "m32", "m64"] →
      (FixOperandsOfLodsScasAndStos instruction_set).1.instructions[i]? = some r) ∧
    (∀ (i : Nat) (r : InstructionProto) (o : InstructionOperand) (R S : String),
      instruction_set.instructions[i]? = some r →
      r.vendor_syntax.operands = [o] →
      (o.name = "m8" ∧ R = "AL" ∧ S = "BYTE" ∨ o.name = "m16" ∧ R = "AX" ∧ S = "WORD" ∨
        o.name = "m32" ∧ R = "EAX" ∧ S = "DWORD" ∨
        o.name = "m64" ∧ R = "RAX" ∧ S = "QWORD") →
      (r.vendor_syntax.mnemonic = "STOS" →
        (FixOperandsOfLodsScasAndStos instruction_set).1.instructions[i]? =
          some { r with vendor_syntax := { r.vendor_syntax with
            operands :=
              [⟨S ++ " PTR [RDI]", Usage.USAGE_READ, Encoding.IMPLICIT_ENCODING⟩,
               ⟨R, Usage.USAGE_READ, Encoding.IMPLICIT_ENCODING⟩] } }) ∧
      (r.vendor_syntax.mnemonic = "LODS" →
        (FixOperandsOfLodsScasAndStos instruction_set).1.instructions[i]? =
          some { r with vendor_syntax := { r.vendor_syntax with
            operands :=
              [⟨R, Usage.USAGE_READ, Encoding.IMPLICIT_ENCODING⟩,
               ⟨S ++ " PTR [RSI]", Usage.USAGE_READ, Encoding.IMPLICIT_ENCODING⟩] } }) ∧
      (r.vendor_syntax.mnemonic = "SCAS" →
        (FixOperandsOfLodsScasAndStos instruction_set).1.instructions[i]? =
          some { r with vendor_syntax := { r.vendor_syntax with
            operands :=
              [⟨R, Usage.USAGE_READ, Encoding.IMPLICIT_ENCODING⟩,
               ⟨S ++ " PTR [RDI]", Usage.USAGE_READ, Encoding.IMPLICIT_ENCODING⟩] } })) := by
  refine ⟨?_, ?_, ?_⟩
  · unfold FixOperandsOfLodsScasAndStos
    rw [forEachInstruction_ok_iff FixOperandsOfLodsScasAndStos.body
      (fun r => r.vendor_syntax.mnemonic ∈ ["LODS", "SCAS", "STOS"] →
        ∃ o, r.vendor_syntax.operands = [o] ∧ o.name ∈ ["m8", "m16", "m32", "m64"])
      (fun i s hg => lodsScasStos_body_snd_good i hg s)
      (fun i s hb => lodsScasStos_body_snd_bad i hb s)]
    constructor
    · rintro ⟨_, hall⟩ r hr hm o ho
      obtain ⟨o', hops, hn⟩ := hall r hr hm
      rw [hops, List.mem_singleton] at ho
      rw [ho]
      exact hn
    · intro hall
      refine ⟨rfl, fun r hr hm => ?_⟩
      obtain ⟨o, hops⟩ := List.length_eq_one.1 (h r hr hm)
      exact ⟨o, hops, hall r hr hm o (by rw [hops]; exact List.mem_singleton_self o)⟩
  · intro i r o hi hm hops hn
    rw [lodsScasStos_instructions, List.getElem?_map, hi, Option.map_some',
      lodsScasStos_body_unsized r Status.OK o hm hops hn]
  · intro i r o R S hi hops hS
    rw [lodsScasStos_instructions, List.getElem?_map, hi, Option.map_some']
    obtain ⟨h1, h2, h3⟩ := lodsScasStos_body_sized r Status.OK o R S hops hS
    exact ⟨fun hm => by rw [h1 hm], fun hm => by rw [h2 hm], fun hm => by rw [h3 hm]⟩

/-- Witness of C12: in `Example.lodsScasStos` every matched record has one operand; the
operand of the SCAS record is m128, so the pass does not return success and leaves that
record unmodified, while the LODS record before it and the STOS record after it are
rewritten. -/
theorem FixOperandsOfLodsScasAndStos_size_table_complete_witness :
    (FixOperandsOfLodsScasAndStos Example.lodsScasStos).2 ≠ Status.OK ∧
    (FixOperandsOfLodsScasAndStos Example.lodsScasStos).1.instructions[1]? =
      some ⟨⟨"SCAS", [⟨"m128", .USAGE_READ, .EXPLICIT_ENCODING⟩]⟩, "AE", ""⟩ ∧
    (FixOperandsOfLodsScasAndStos Example.lodsScasStos).1.instructions[0]? =
      some ⟨⟨"LODS", [⟨"AL", .USAGE_READ, .IMPLICIT_ENCODING⟩,
        ⟨"BYTE PTR [RSI]", .USAGE_READ, .IMPLICIT_ENCODING⟩]⟩, "AC", ""⟩ ∧
    (FixOperandsOfLodsScasAndStos Example.lodsScasStos).1.instructions[2]? =
      some ⟨⟨"STOS", [⟨"QWORD PTR [RDI]", .USAGE_READ, .IMPLICIT_ENCODING⟩,
        ⟨"RAX", .USAGE_READ, .IMPLICIT_ENCODING⟩]⟩, "REX.W + AB", ""⟩ :=
  have h := FixOperandsOfLodsScasAndStos_size_table_complete Example.lodsScasStos
    (by decide)
  ⟨fun hok => absurd (h.1.1 hok) (by decide),
    h.2.1 1 ⟨⟨"SCAS", [⟨"m128", .USAGE_READ, .EXPLICIT_ENCODING⟩]⟩, "AE", ""⟩
      ⟨"m128", .USAGE_READ, .EXPLICIT_ENCODING⟩ rfl (by decide) rfl (by decide),
    (h.2.2 0 ⟨⟨"LODS", [⟨"m8", .USAGE_READ, .EXPLICIT_ENCODING⟩]⟩, "AC", ""⟩
      ⟨"m8", .USAGE_READ, .EXPLICIT_ENCODING⟩ "AL" "BYTE" rfl rfl (by decide)).2.1 rfl,
    (h.2.2 2 ⟨⟨"STOS", [⟨"m64", .USAGE_WRITE, .EXPLICIT_ENCODING⟩]⟩, "REX.W + AB", ""⟩
      ⟨"m64", .USAGE_WRITE, .EXPLICIT_ENCODING⟩ "RAX" "QWORD" rfl rfl (by decide)).1 rfl⟩

/-- Counterexample to C16 as stated: the document made of one LODS record without
operands is left unchanged, but the pass does not return success. -/
theorem FixOperandsOfLodsScasAndStos_operand_count_counterexample :
    (FixOperandsOfLodsScasAndStos Example.lodsNoOperands).1 = Example.lodsNoOperands ∧
    (FixOperandsOfLodsScasAndStos Example.lodsNoOperands).2 ≠ Status.OK := by
  decide

/-- C16, amended: `FixOperandsOfLodsScasAndStos` leaves every record with another
mnemonic than LODS, SCAS and STOS unchanged; a record with one of those mnemonics and
zero operands or two or more operands is left unchanged too, and it makes the pass return
an invalid-argument error. -/
theorem FixOperandsOfLodsScasAndStos_operand_count
    (instruction_set : InstructionSetProto) (i : Nat) (r : InstructionProto)
    (hi : instruction_set.instructions[i]? = some r) :
    (r.vendor_syntax.mnemonic ∉ ["LODS", "SCAS", "STOS"] →
      (FixOperandsOfLodsScasAndStos instruction_set).1.instructions[i]? = some r) ∧
    (r.vendor_syntax.mnemonic ∈ ["LODS", "SCAS", "STOS"] →
      r.vendor_syntax.operands.length ≠ 1 →
      (FixOperandsOfLodsScasAndStos instruction_set).1.instructions[i]? = some r ∧
      ∃ message, (FixOperandsOfLodsScasAndStos instruction_set).2 =
        Status.InvalidArgumentError message) := by
  constructor
  · intro hm
    rw [lodsScasStos_instructions, List.getElem?_map, hi, Option.map_some',
      lodsScasStos_body_other r Status.OK hm]
  · intro hm hc
    constructor
    · rw [lodsScasStos_instructions, List.getElem?_map, hi, Option.map_some',
        lodsScasStos_body_count r Status.OK hm hc]
    · apply (status_ne_OK_iff _).1
      unfold FixOperandsOfLodsScasAndStos
      refine forEachInstruction_error_of_mem _ lodsScasStos_body_error _ _ r
        (List.getElem?_mem hi) (fun s => ?_)
      rw [lodsScasStos_body_count r s hm hc]
      simp

/-- Witness of C16, amended: the LODS record without operands. -/
theorem FixOperandsOfLodsScasAndStos_operand_count_witness :
    (FixOperandsOfLodsScasAndStos Example.lodsNoOperands).1.instructions[0]? =
      some ⟨⟨"LODS", []⟩, "AC", ""⟩ ∧
    ∃ message, (FixOperandsOfLodsScasAndStos Example.lodsNoOperands).2 =
      Status.InvalidArgumentError message :=
  (FixOperandsOfLodsScasAndStos_operand_count Example.lodsNoOperands 0
    ⟨⟨"LODS", []⟩, "AC", ""⟩ rfl).2 (by decide) (by decide)

/-! ## RenameOperands as a pointwise renaming -/

/-- The loop body of `RenameOperands` gives an operand the name that the specification
states, and changes nothing else. -/
theorem renameOperand_eq_canonical (o : InstructionOperand) :
    RenameOperands.renameOperand o =
      { o with name := RenameOperands.canonicalName o.name } := by
  obtain ⟨name, usage, encoding⟩ := o
  unfold RenameOperands.canonicalName
  by_cases h1 : name = "m80dec"
  · subst h1; rfl
  by_cases h2 : name = "r8/m8"
  · subst h2; rfl
  by_cases h3 : name = "r16/m16"
  · subst h3; rfl
  by_cases h4 : name = "r32/m32"
  · subst h4; rfl
  by_cases h5 : name = "r64/m64"
  · subst h5; rfl
  by_cases h6 : name = "ST"
  · subst h6; rfl
  by_cases h7 : name = "m14/28byte"
  · subst h7; rfl
  by_cases h8 : name = "m94/108byte"
  · subst h8; rfl
  have hnone : FindOrNull RenameOperands.kOperandRenaming name = none := by
    simp [FindOrNull, RenameOperands.kOperandRenaming, List.find?,
      beq_false_of_ne (Ne.symm h1), beq_false_of_ne (Ne.symm h2),
      beq_false_of_ne (Ne.symm h3), beq_false_of_ne (Ne.symm h4),
      beq_false_of_ne (Ne.symm h5), beq_false_of_ne (Ne.symm h6),
      beq_false_of_ne (Ne.symm h7), beq_false_of_ne (Ne.symm h8)]
  simp only [RenameOperands.renameOperand, hnone, h1, h2, h3, h4, h5, h6, h7, h8, if_false]

/-- C19: `RenameOperands` returns success for every document, and its output has the same
records with the same operands in the same positions, where the name of each operand is
the value of the renaming table if the input name is a key of the table and the input
name otherwise; usage, encoding, mnemonic, binary encoding and the other fields are
unchanged. -/
theorem RenameOperands_pointwise (instruction_set : InstructionSetProto) :
    RenameOperands instruction_set =
      (⟨instruction_set.instructions.map (fun r =>
          { r with vendor_syntax := { r.vendor_syntax with
              operands := r.vendor_syntax.operands.map (fun o =>
                { o with name := RenameOperands.canonicalName o.name }) } })⟩,
        Status.OK) ∧
    (∀ entry ∈ RenameOperands.kOperandRenaming,
      RenameOperands.canonicalName entry.1 = entry.2) ∧
    (∀ name : String, name ∉ RenameOperands.kOperandRenaming.map (fun entry => entry.1) →
      RenameOperands.canonicalName name = name) := by
  refine ⟨?_, by decide, ?_⟩
  · unfold RenameOperands RenameOperands.body
    rw [show RenameOperands.renameOperand = _ from funext renameOperand_eq_canonical]
  · intro name hname
    simp only [RenameOperands.kOperandRenaming, List.map_cons, List.map_nil, List.mem_cons,
      List.mem_singleton, List.not_mem_nil, or_false, not_or] at hname
    obtain ⟨h1, h2, h3, h4, h5, h6, h7, h8⟩ := hname
    simp only [RenameOperands.canonicalName, h1, h2, h3, h4, h5, h6, h7, h8, if_false]


/-! ## RenameOperands and RemoveImplicitST0Operand in both orders -/

/-- The renaming makes an operand an operand named "ST(0)" only when it is named "ST" or
already "ST(0)". -/
theorem renameOperand_name_ST0 (o : InstructionOperand) (h : o.name ≠ "ST") :
    ((RenameOperands.renameOperand o).name != "ST(0)") = (o.name != "ST(0)") := by
  rw [renameOperand_eq_canonical]
  simp only [RenameOperands.canonicalName, h, if_false]
  split_ifs with h1 h2 h3 h4 h5 h7 h8
  · rw [h1]; decide
  · rw [h2]; decide
  · rw [h3]; decide
  · rw [h4]; decide
  · rw [h5]; decide
  · rw [h7]; decide
  · rw [h8]; decide
  · rfl

theorem filter_ST0_rename (operands : List InstructionOperand)
    (h : ∀ o ∈ operands, o.name ≠ "ST") :
    (operands.map RenameOperands.renameOperand).filter (fun o => o.name != "ST(0)") =
      (operands.filter (fun o => o.name != "ST(0)")).map RenameOperands.renameOperand := by
  induction operands with
  | nil => rfl
  | cons a l ih =>
    have ha := renameOperand_name_ST0 a (h a (List.mem_cons_self _ _))
    have ih' := ih (fun o ho => h o (List.mem_cons_of_mem _ ho))
    simp only [List.map_cons, List.filter_cons, ha]
    split_ifs
    · rw [List.map_cons, ih']
    · exact ih'

/-- Counterexample to C18 as stated: for the FADD record with the encoding "D8 C0+i" and
an operand named ST, running `RenameOperands` and then `RemoveImplicitST0Operand` removes
the operand, while the other order keeps it under the name ST(0). -/
theorem Rename_RemoveST0_order_counterexample :
    (RemoveImplicitST0Operand (RenameOperands Example.fadd).1).1 ≠
      (RenameOperands (RemoveImplicitST0Operand Example.fadd).1).1 := by
  decide

/-- C18, amended: `RenameOperands` and `RemoveImplicitST0Operand` are both registered with
the priority 2000; for every document in which no record with one of the sixteen listed
encodings has an operand named "ST", running `RenameOperands` and then
`RemoveImplicitST0Operand` yields the same document as running them in the other
order. -/
theorem Rename_RemoveST0_commute_of_no_ST (instruction_set : InstructionSetProto)
    (h : ∀ r ∈ instruction_set.instructions,
      r.binary_encoding ∈
          ["D8 C0+i", "D8 C8+i", "D8 E0+i", "D8 E8+i", "D8 F0+i", "D8 F8+i",
            "DB E8+i", "DB F0+i", "DE C0+i", "DE C8+i", "DE E0+i", "DE E8+i",
            "DE F0+i", "DE F8+i", "DF E8+i", "DF F0+i"] →
        ∀ o ∈ r.vendor_syntax.operands, o.name ≠ "ST") :
    registeredPriority "RenameOperands" = some 2000 ∧
    registeredPriority "RemoveImplicitST0Operand" = some 2000 ∧
    (RemoveImplicitST0Operand (RenameOperands instruction_set).1).1 =
      (RenameOperands (RemoveImplicitST0Operand instruction_set).1).1 := by
  refine ⟨by decide, by decide, ?_⟩
  rw [RemoveImplicitST0Operand_eq, RemoveImplicitST0Operand_eq]
  unfold RenameOperands
  simp only [List.map_map]
  congr 1
  apply List.map_congr_left
  intro r hr
  simp only [Function.comp, RenameOperands.body]
  by_cases henc : r.binary_encoding ∈
      ["D8 C0+i", "D8 C8+i", "D8 E0+i", "D8 E8+i", "D8 F0+i", "D8 F8+i",
        "DB E8+i", "DB F0+i", "DE C0+i", "DE C8+i", "DE E0+i", "DE E8+i",
        "DE F0+i", "DE F8+i", "DF E8+i", "DF F0+i"]
  · rw [if_pos henc, if_pos henc]
    simp only [filter_ST0_rename _ (h r hr henc)]
  · rw [if_neg henc, if_neg henc]

/-- Witness of C18, amended: the document with the FADD record whose operands are ST(0)
and ST(i). -/
theorem Rename_RemoveST0_commute_of_no_ST_witness :
    registeredPriority "RenameOperands" = some 2000 ∧
    registeredPriority "RemoveImplicitST0Operand" = some 2000 ∧
    (RemoveImplicitST0Operand (RenameOperands Example.faddST0).1).1 =
      (RenameOperands (RemoveImplicitST0Operand Example.faddST0).1).1 :=
  Rename_RemoveST0_commute_of_no_ST Example.faddST0 (by decide)

/-! ## Running a pass on its own output -/

theorem sized_value (name S : String)
    (hS : name = "m8" ∧ S = "BYTE" ∨ name = "m16" ∧ S = "WORD" ∨
      name = "m32" ∧ S = "DWORD" ∨ name = "m64" ∧ S = "QWORD") :
    S ∈ ["BYTE", "WORD", "DWORD", "QWORD"] := by
  rcases hS with ⟨_, rfl⟩ | ⟨_, rfl⟩ | ⟨_, rfl⟩ | ⟨_, rfl⟩ <;> decide

/-- The names that the string-instruction passes write are not in the size table. -/
theorem index_form_not_sized :
    ∀ S ∈ ["BYTE", "WORD", "DWORD", "QWORD"],
      (S ++ " PTR [RDI]") ∉ ["m8", "m16", "m32", "m64"] ∧
      (S ++ " PTR [RSI]") ∉ ["m8", "m16", "m32", "m64"] := by
  decide

theorem cmpsMovs_body_fst_unsized (x : InstructionProto) (s : Status)
    (hm : x.vendor_syntax.mnemonic ∈ ["CMPS", "MOVS"])
    (h : ∃ o0 o1, x.vendor_syntax.operands = [o0, o1] ∧
      o0.name ∉ ["m8", "m16", "m32", "m64"]) :
    (FixOperandsOfCmpsAndMovs.body x s).1 = x := by
  obtain ⟨o0, o1, hops, hn⟩ := h
  rw [cmpsMovs_body_unsized x s o0 o1 hm hops hn]

/-- The loop body of `FixOperandsOfCmpsAndMovs` leaves its own output as it is. -/
theorem cmpsMovs_body_idem (r : InstructionProto) (s s' : Status) :
    (FixOperandsOfCmpsAndMovs.body (FixOperandsOfCmpsAndMovs.body r s).1 s').1 =
      (FixOperandsOfCmpsAndMovs.body r s).1 := by
  by_cases hm : r.vendor_syntax.mnemonic ∈ ["CMPS", "MOVS"]
  · by_cases hc : r.vendor_syntax.operands.length = 2
    · obtain ⟨o0, o1, hops⟩ := List.length_eq_two.1 hc
      rcases sized_or_not o0.name with ⟨S, hS⟩ | hno
      · obtain ⟨hrdi, hrsi⟩ := index_form_not_sized S (sized_value _ _ hS)
        rcases cmpsMovs_mnemonic_cases r hm with hcm | hcm
        · rw [cmpsMovs_body_cmps r s o0 o1 S hcm hops hS]
          refine cmpsMovs_body_fst_unsized _ s' ?_ ?_
          · exact hm
          · exact ⟨_, _, rfl, hrsi⟩
        · rw [cmpsMovs_body_movs r s o0 o1 S hcm hops hS]
          refine cmpsMovs_body_fst_unsized _ s' ?_ ?_
          · exact hm
          · exact ⟨_, _, rfl, hrdi⟩
      · rw [cmpsMovs_body_unsized r s o0 o1 hm hops hno,
          cmpsMovs_body_unsized r s' o0 o1 hm hops hno]
    · rw [cmpsMovs_body_count r s hm hc, cmpsMovs_body_count r s' hm hc]
  · rw [cmpsMovs_body_other r s hm, cmpsMovs_body_other r s' hm]

theorem lodsScasStos_body_fst_count (x : InstructionProto) (s : Status)
    (hm : x.vendor_syntax.mnemonic ∈ ["LODS", "SCAS", "STOS"])
    (hc : x.vendor_syntax.operands.length ≠ 1) :
    (FixOperandsOfLodsScasAndStos.body x s).1 = x := by
  rw [lodsScasStos_body_count x s hm hc]

/-- The loop body of `FixOperandsOfLodsScasAndStos` leaves its own output as it is. -/
theorem lodsScasStos_body_idem (r : InstructionProto) (s s' : Status) :
    (FixOperandsOfLodsScasAndStos.body (FixOperandsOfLodsScasAndStos.body r s).1 s').1 =
      (FixOperandsOfLodsScasAndStos.body r s).1 := by
  by_cases hm : r.vendor_syntax.mnemonic ∈ ["LODS", "SCAS", "STOS"]
  · by_cases hc : r.vendor_syntax.operands.length = 1
    · obtain ⟨o, hops⟩ := List.length_eq_one.1 hc
      rcases sized_register_or_not o.name with ⟨R, S, hS⟩ | hno
      · obtain ⟨h1, h2, h3⟩ := lodsScasStos_body_sized r s o R S hops hS
        have hm' := hm
        simp only [List.mem_cons, List.mem_singleton, List.not_mem_nil, or_false] at hm'
        rcases hm' with hcm | hcm | hcm
        · rw [h2 hcm]
          refine lodsScasStos_body_fst_count _ s' ?_ ?_
          · exact hm
          · simp
        · rw [h3 hcm]
          refine lodsScasStos_body_fst_count _ s' ?_ ?_
          · exact hm
          · simp
        · rw [h1 hcm]
          refine lodsScasStos_body_fst_count _ s' ?_ ?_
          · exact hm
          · simp
      · rw [lodsScasStos_body_unsized r s o hm hops hno,
          lodsScasStos_body_unsized r s' o hm hops hno]
    · rw [lodsScasStos_body_count r s hm hc, lodsScasStos_body_count r s' hm hc]
  · rw [lodsScasStos_body_other r s hm, lodsScasStos_body_other r s' hm]

/-! ### FixOperandsOfInsAndOuts case by case -/

theorem insOuts_matched (r : InstructionProto)
    (hm : r.vendor_syntax.mnemonic = "INS" ∨ r.vendor_syntax.mnemonic = "OUTS") :
    (!(r.vendor_syntax.mnemonic == FixOperandsOfInsAndOuts.kIns) &&
      !(r.vendor_syntax.mnemonic == FixOperandsOfInsAndOuts.kOuts)) = false := by
  rcases hm with h | h <;> rw [h] <;> decide

theorem insOuts_body_other (r : InstructionProto) (s : Status)
    (h1 : r.vendor_syntax.mnemonic ≠ "INS") (h2 : r.vendor_syntax.mnemonic ≠ "OUTS") :
    FixOperandsOfInsAndOuts.body r s = (r, s) := by
  have e1 : (r.vendor_syntax.mnemonic == FixOperandsOfInsAndOuts.kIns) = false :=
    beq_false_of_ne h1
  have e2 : (r.vendor_syntax.mnemonic == FixOperandsOfInsAndOuts.kOuts) = false :=
    beq_false_of_ne h2
  simp only [FixOperandsOfInsAndOuts.body, e1, e2, Bool.not_false, Bool.and_self, if_true]

theorem insOuts_body_count (r : InstructionProto) (s : Status)
    (hm : r.vendor_syntax.mnemonic = "INS" ∨ r.vendor_syntax.mnemonic = "OUTS")
    (hc : r.vendor_syntax.operands.length ≠ 2) :
    FixOperandsOfInsAndOuts.body r s =
      (r, Status.InvalidArgumentError
        "Unexpected number of operands of an INS/OUTS instruction.") := by
  simp only [FixOperandsOfInsAndOuts.body, insOuts_matched r hm, Bool.false_eq_true, if_false]
  rcases hl : r.vendor_syntax.operands with _ | ⟨x, _ | ⟨y, _ | ⟨z, t⟩⟩⟩
  · rfl
  · rfl
  · rw [hl] at hc; exact absurd rfl hc
  · rfl

theorem insOuts_body_unsized (r : InstructionProto) (s : Status)
    (o0 o1 : InstructionOperand)
    (hm : r.vendor_syntax.mnemonic = "INS" ∨ r.vendor_syntax.mnemonic = "OUTS")
    (hops : r.vendor_syntax.operands = [o0, o1])
    (h0 : o0.name ∉ ["m8", "m16", "m32", "m64"])
    (h1 : o1.name ∉ ["m8", "m16", "m32", "m64"]) :
    FixOperandsOfInsAndOuts.body r s =
      (r, Status.InvalidArgumentError
        ("Unexpected operands of an INS/OUTS instruction: " ++ o0.name ++ ", " ++
          o1.name)) := by
  simp only [FixOperandsOfInsAndOuts.body, insOuts_matched r hm, Bool.false_eq_true, if_false,
    hops, findCopy_pointerSize_none _ h0, findCopy_pointerSize_none _ h1, Option.orElse]

/-- The loop body of `FixOperandsOfInsAndOuts` on a record with two operands of which one
is in the size table. -/
theorem insOuts_body_sized (r : InstructionProto) (s : Status)
    (o0 o1 : InstructionOperand) (S : String)
    (hops : r.vendor_syntax.operands = [o0, o1])
    (hS : (o0.name = "m8" ∧ S = "BYTE" ∨ o0.name = "m16" ∧ S = "WORD" ∨
        o0.name = "m32" ∧ S = "DWORD" ∨ o0.name = "m64" ∧ S = "QWORD") ∨
      (o0.name ∉ ["m8", "m16", "m32", "m64"] ∧
        (o1.name = "m8" ∧ S = "BYTE" ∨ o1.name = "m16" ∧ S = "WORD" ∨
          o1.name = "m32" ∧ S = "DWORD" ∨ o1.name = "m64" ∧ S = "QWORD"))) :
    (r.vendor_syntax.mnemonic = "INS" →
      FixOperandsOfInsAndOuts.body r s =
        ({ r with vendor_syntax := { r.vendor_syntax with
            operands :=
              [{ o0 with name := S ++ " PTR [RDI]", usage := Usage.USAGE_WRITE },
               { o1 with name := "DX", usage := Usage.USAGE_READ }] } }, s)) ∧
    (r.vendor_syntax.mnemonic = "OUTS" →
      FixOperandsOfInsAndOuts.body r s =
        ({ r with vendor_syntax := { r.vendor_syntax with
            operands :=
              [{ o0 with name := "DX", usage := Usage.USAGE_READ },
               { o1 with name := S ++ " PTR [RSI]", usage := Usage.USAGE_READ }] } }, s)) := by
  have hfind : (FindCopy kOperandToPointerSize o0.name).orElse
      (fun _ => FindCopy kOperandToPointerSize o1.name) = some S := by
    rcases hS with h0 | ⟨h0, h1⟩
    · rcases h0 with ⟨h, rfl⟩ | ⟨h, rfl⟩ | ⟨h, rfl⟩ | ⟨h, rfl⟩ <;> rw [h] <;> rfl
    · rw [findCopy_pointerSize_none _ h0]
      rcases h1 with ⟨h, rfl⟩ | ⟨h, rfl⟩ | ⟨h, rfl⟩ | ⟨h, rfl⟩ <;> rw [h] <;> rfl
  constructor
  · intro hins
    have hk : (r.vendor_syntax.mnemonic == FixOperandsOfInsAndOuts.kIns) = true := by
      rw [hins]; decide
    simp only [FixOperandsOfInsAndOuts.body, hops, hfind, hk, Bool.not_true, Bool.false_and,
      Bool.false_eq_true, if_false, if_true]
  · intro houts
    have hk : (r.vendor_syntax.mnemonic == FixOperandsOfInsAndOuts.kIns) = false := by
      rw [houts]; decide
    have hk2 : (r.vendor_syntax.mnemonic == FixOperandsOfInsAndOuts.kOuts) = true := by
      rw [houts]; decide
    simp only [FixOperandsOfInsAndOuts.body, hops, hfind, hk, hk2, Bool.not_true,
      Bool.not_false, Bool.and_false, Bool.false_eq_true, if_false]

theorem insOuts_body_fst_unsized (x : InstructionProto) (s : Status)
    (hm : x.vendor_syntax.mnemonic = "INS" ∨ x.vendor_syntax.mnemonic = "OUTS")
    (h : ∃ o0 o1, x.vendor_syntax.operands = [o0, o1] ∧
      o0.name ∉ ["m8", "m16", "m32", "m64"] ∧ o1.name ∉ ["m8", "m16", "m32", "m64"]) :
    (FixOperandsOfInsAndOuts.body x s).1 = x := by
  obtain ⟨o0, o1, hops, h0, h1⟩ := h
  rw [insOuts_body_unsized x s o0 o1 hm hops h0 h1]

/-- The loop body of `FixOperandsOfInsAndOuts` leaves its own output as it is. -/
theorem insOuts_body_idem (r : InstructionProto) (s s' : Status) :
    (FixOperandsOfInsAndOuts.body (FixOperandsOfInsAndOuts.body r s).1 s').1 =
      (FixOperandsOfInsAndOuts.body r s).1 := by
  have hDX : "DX" ∉ ["m8", "m16", "m32", "m64"] := by decide
  by_cases hm : r.vendor_syntax.mnemonic = "INS" ∨ r.vendor_syntax.mnemonic = "OUTS"
  · by_cases hc : r.vendor_syntax.operands.length = 2
    · obtain ⟨o0, o1, hops⟩ := List.length_eq_two.1 hc
      have hsized : ∀ S, ((o0.name = "m8" ∧ S = "BYTE" ∨ o0.name = "m16" ∧ S = "WORD" ∨
            o0.name = "m32" ∧ S = "DWORD" ∨ o0.name = "m64" ∧ S = "QWORD") ∨
          (o0.name ∉ ["m8", "m16", "m32", "m64"] ∧
            (o1.name = "m8" ∧ S = "BYTE" ∨ o1.name = "m16" ∧ S = "WORD" ∨
              o1.name = "m32" ∧ S = "DWORD" ∨ o1.name = "m64" ∧ S = "QWORD"))) →
          S ∈ ["BYTE", "WORD", "DWORD", "QWORD"] →
          (FixOperandsOfInsAndOuts.body (FixOperandsOfInsAndOuts.body r s).1 s').1 =
            (FixOperandsOfInsAndOuts.body r s).1 := by
        intro S hS hval
        obtain ⟨hrdi, hrsi⟩ := index_form_not_sized S hval
        obtain ⟨hins, houts⟩ := insOuts_body_sized r s o0 o1 S hops hS
        rcases hm with hcm | hcm
        · rw [hins hcm]
          refine insOuts_body_fst_unsized _ s' ?_ ?_
          · exact Or.inl hcm
          · exact ⟨_, _, rfl, hrdi, hDX⟩
        · rw [houts hcm]
          refine insOuts_body_fst_unsized _ s' ?_ ?_
          · exact Or.inr hcm
          · exact ⟨_, _, rfl, hDX, hrsi⟩
      rcases sized_or_not o0.name with ⟨S, hS⟩ | hno0
      · exact hsized S (Or.inl hS) (sized_value _ _ hS)
      · rcases sized_or_not o1.name with ⟨S, hS⟩ | hno1
        · exact hsized S (Or.inr ⟨hno0, hS⟩) (sized_value _ _ hS)
        · rw [insOuts_body_unsized r s o0 o1 hm hops hno0 hno1,
            insOuts_body_unsized r s' o0 o1 hm hops hno0 hno1]
    · rw [insOuts_body_count r s hm hc, insOuts_body_count r s' hm hc]
  · rw [not_or] at hm
    rw [insOuts_body_other r s hm.1 hm.2, insOuts_body_other r s' hm.1 hm.2]

/-- The loop of `FixOperandsOfVMovq` run on its own output gives that output again, with
the same status. -/
theorem vmovq_loop_idem (D : InstructionProto → String) (l : List InstructionProto) :
    FixOperandsOfVMovq.loop D (FixOperandsOfVMovq.loop D l).1 = FixOperandsOfVMovq.loop D l := by
  induction l with
  | nil => rfl
  | cons a l ih =>
    by_cases ha : a.binary_encoding = "VEX.128.F3.0F.WIG 7E /r"
    · by_cases hc : a.vendor_syntax.operands.length = 2
      · obtain ⟨o0, o1, hops⟩ := List.length_eq_two.1 hc
        rw [vmovq_loop_cons_match D a l o0 o1 ha hops]
        simp only
        rw [vmovq_loop_cons_match D
          { a with vendor_syntax := { a.vendor_syntax with
              operands := [o0, { o1 with name := "xmm2/m64" }] } }
          _ o0 { o1 with name := "xmm2/m64" } ha rfl, ih]
      · rw [vmovq_loop_cons_bad D a l ha hc]
        simp only
        rw [vmovq_loop_cons_bad D a l ha hc]
    · rw [vmovq_loop_cons_other D a l ha]
      simp only
      rw [vmovq_loop_cons_other D a _ ha, ih]

theorem renameOperand_idem (o : InstructionOperand) :
    RenameOperands.renameOperand (RenameOperands.renameOperand o) =
      RenameOperands.renameOperand o := by
  have hkey := renameOperand_not_key o
  simp only [List.mem_cons, List.mem_singleton, List.not_mem_nil, or_false, not_or] at hkey
  obtain ⟨h1, h2, h3, h4, h5, h6, h7, h8⟩ := hkey
  rw [renameOperand_eq_canonical (RenameOperands.renameOperand o)]
  simp only [RenameOperands.canonicalName, h1, h2, h3, h4, h5, h6, h7, h8, if_false]

theorem instructionSet_eq_of_instructions (A B : InstructionSetProto)
    (h : A.instructions = B.instructions) : A = B := by
  cases A
  cases B
  simp only at h
  rw [h]

theorem map_idem_of_idem (f : InstructionProto → InstructionProto)
    (h : ∀ r, f (f r) = f r) (l : List InstructionProto) : (l.map f).map f = l.map f := by
  rw [List.map_map]
  exact List.map_congr_left (fun r _ => h r)

/-- C11: each of `FixOperandsOfCmpsAndMovs`, `FixOperandsOfInsAndOuts`,
`FixOperandsOfLodsScasAndStos`, `FixOperandsOfVMovq`, `RenameOperands`,
`RemoveImplicitST0Operand` and `RemoveImplicitXmm0Operand`, run on the document that it
produced from any document (well-formed or not), gives that document again. -/
theorem seven_passes_idempotent (DebugString : InstructionProto → String)
    (instruction_set : InstructionSetProto) :
    (FixOperandsOfCmpsAndMovs (FixOperandsOfCmpsAndMovs instruction_set).1).1 =
      (FixOperandsOfCmpsAndMovs instruction_set).1 ∧
    (FixOperandsOfInsAndOuts (FixOperandsOfInsAndOuts instruction_set).1).1 =
      (FixOperandsOfInsAndOuts instruction_set).1 ∧
    (FixOperandsOfLodsScasAndStos (FixOperandsOfLodsScasAndStos instruction_set).1).1 =
      (FixOperandsOfLodsScasAndStos instruction_set).1 ∧
    (FixOperandsOfVMovq DebugString (FixOperandsOfVMovq DebugString instruction_set).1).1 =
      (FixOperandsOfVMovq DebugString instruction_set).1 ∧
    (RenameOperands (RenameOperands instruction_set).1).1 =
      (RenameOperands instruction_set).1 ∧
    (RemoveImplicitST0Operand (RemoveImplicitST0Operand instruction_set).1).1 =
      (RemoveImplicitST0Operand instruction_set).1 ∧
    (RemoveImplicitXmm0Operand (RemoveImplicitXmm0Operand instruction_set).1).1 =
      (RemoveImplicitXmm0Operand instruction_set).1 := by
  refine ⟨?_, ?_, ?_, ?_, ?_, ?_, ?_⟩
  · apply instructionSet_eq_of_instructions
    rw [cmpsMovs_instructions, cmpsMovs_instructions]
    exact map_idem_of_idem _ (fun r => cmpsMovs_body_idem r Status.OK Status.OK) _
  · apply instructionSet_eq_of_instructions
    rw [insOuts_instructions, insOuts_instructions]
    exact map_idem_of_idem _ (fun r => insOuts_body_idem r Status.OK Status.OK) _
  · apply instructionSet_eq_of_instructions
    rw [lodsScasStos_instructions, lodsScasStos_instructions]
    exact map_idem_of_idem _ (fun r => lodsScasStos_body_idem r Status.OK Status.OK) _
  · apply instructionSet_eq_of_instructions
    unfold FixOperandsOfVMovq
    simp only
    rw [vmovq_loop_idem]
  · apply instructionSet_eq_of_instructions
    unfold RenameOperands
    simp only
    refine map_idem_of_idem _ (fun r => ?_) _
    simp only [RenameOperands.body, List.map_map]
    congr 2
    exact List.map_congr_left (fun o _ => renameOperand_idem o)
  · apply instructionSet_eq_of_instructions
    rw [RemoveImplicitST0Operand_eq, RemoveImplicitST0Operand_eq]
    simp only
    refine map_idem_of_idem _ (fun r => ?_) _
    by_cases henc : r.binary_encoding ∈
        ["D8 C0+i", "D8 C8+i", "D8 E0+i", "D8 E8+i", "D8 F0+i", "D8 F8+i",
          "DB E8+i", "DB F0+i", "DE C0+i", "DE C8+i", "DE E0+i", "DE E8+i",
          "DE F0+i", "DE F8+i", "DF E8+i", "DF F0+i"]
    · simp only [if_pos henc, List.filter_filter, Bool.and_self]
    · simp only [if_neg henc]
  · apply instructionSet_eq_of_instructions
    rw [RemoveImplicitXmm0Operand_eq, RemoveImplicitXmm0Operand_eq]
    simp only
    refine map_idem_of_idem _ (fun r => ?_) _
    simp only [List.filter_filter, Bool.and_self]

/-! ## Records are neither deleted nor reordered -/

theorem cmpsMovs_body_mnemonic (r : InstructionProto) (s : Status) :
    (InstructionProto.vendor_syntax (FixOperandsOfCmpsAndMovs.body r s).1).mnemonic =
      r.vendor_syntax.mnemonic := by
  unfold FixOperandsOfCmpsAndMovs.body
  dsimp only
  split
  · rfl
  · split
    · split <;> rfl
    · rfl

theorem insOuts_body_mnemonic (r : InstructionProto) (s : Status) :
    (InstructionProto.vendor_syntax (FixOperandsOfInsAndOuts.body r s).1).mnemonic =
      r.vendor_syntax.mnemonic := by
  unfold FixOperandsOfInsAndOuts.body
  dsimp only
  split
  · rfl
  · split
    · split
      · rfl
      · split <;> rfl
    · rfl

theorem lodsScasStos_body_mnemonic (r : InstructionProto) (s : Status) :
    (InstructionProto.vendor_syntax (FixOperandsOfLodsScasAndStos.body r s).1).mnemonic =
      r.vendor_syntax.mnemonic := by
  unfold FixOperandsOfLodsScasAndStos.body
  dsimp only
  split
  · rfl
  · split
    · split <;> rfl
    · rfl

theorem vmovq_loop_mnemonics (D : InstructionProto → String) (l : List InstructionProto) :
    (FixOperandsOfVMovq.loop D l).1.map (fun r => r.vendor_syntax.mnemonic) =
      l.map (fun r => r.vendor_syntax.mnemonic) := by
  induction l with
  | nil => rfl
  | cons a l ih =>
    by_cases ha : a.binary_encoding = "VEX.128.F3.0F.WIG 7E /r"
    · by_cases hc : a.vendor_syntax.operands.length = 2
      · obtain ⟨o0, o1, hops⟩ := List.length_eq_two.1 hc
        rw [vmovq_loop_cons_match D a l o0 o1 ha hops]
        simp only [List.map_cons, ih]
      · rw [vmovq_loop_cons_bad D a l ha hc]
    · rw [vmovq_loop_cons_other D a l ha]
      simp only [List.map_cons, ih]

theorem mnemonics_map (f : InstructionProto → InstructionProto)
    (h : ∀ r, (InstructionProto.vendor_syntax (f r)).mnemonic = r.vendor_syntax.mnemonic)
    (l : List InstructionProto) :
    (l.map f).map (fun r => r.vendor_syntax.mnemonic) =
      l.map (fun r => r.vendor_syntax.mnemonic) := by
  rw [List.map_map]
  exact List.map_congr_left (fun r _ => h r)

/-- C17: for every document with n records, each of the seven passes other than
`FixRegOperands` outputs exactly n records that carry, position by position, the
mnemonics of the input records; `FixRegOperands` outputs exactly n records plus one for
each operand named reg of a record with the mnemonic LAR, and its first n records carry,
position by position, the mnemonics of the input records, so the new records stand after
the original ones. -/
theorem records_kept_in_order (DebugString : InstructionProto → String)
    (instruction_set : InstructionSetProto) :
    (mnemonics (FixOperandsOfCmpsAndMovs instruction_set).1 = mnemonics instruction_set ∧
      (FixOperandsOfCmpsAndMovs instruction_set).1.instructions.length =
        instruction_set.instructions.length) ∧
    (mnemonics (FixOperandsOfInsAndOuts instruction_set).1 = mnemonics instruction_set ∧
      (FixOperandsOfInsAndOuts instruction_set).1.instructions.length =
        instruction_set.instructions.length) ∧
    (mnemonics (FixOperandsOfLodsScasAndStos instruction_set).1 = mnemonics instruction_set ∧
      (FixOperandsOfLodsScasAndStos instruction_set).1.instructions.length =
        instruction_set.instructions.length) ∧
    (mnemonics (FixOperandsOfVMovq DebugString instruction_set).1 =
        mnemonics instruction_set ∧
      (FixOperandsOfVMovq DebugString instruction_set).1.instructions.length =
        instruction_set.instructions.length) ∧
    (mnemonics (RenameOperands instruction_set).1 = mnemonics instruction_set ∧
      (RenameOperands instruction_set).1.instructions.length =
        instruction_set.instructions.length) ∧
    (mnemonics (RemoveImplicitST0Operand instruction_set).1 = mnemonics instruction_set ∧
      (RemoveImplicitST0Operand instruction_set).1.instructions.length =
        instruction_set.instructions.length) ∧
    (mnemonics (RemoveImplicitXmm0Operand instruction_set).1 = mnemonics instruction_set ∧
      (RemoveImplicitXmm0Operand instruction_set).1.instructions.length =
        instruction_set.instructions.length) ∧
    ((mnemonics (FixRegOperands instruction_set).1).take instruction_set.instructions.length =
        mnemonics instruction_set ∧
      (FixRegOperands instruction_set).1.instructions.length =
        instruction_set.instructions.length +
          ((instruction_set.instructions.filter
              (fun r => r.vendor_syntax.mnemonic == "LAR")).map
            (fun r => r.vendor_syntax.operands.countP (fun o => o.name == "reg"))).sum) := by
  have hlen : ∀ A : InstructionSetProto, mnemonics A = mnemonics instruction_set →
      A.instructions.length = instruction_set.instructions.length := by
    intro A hA
    have := congrArg List.length hA
    simpa [mnemonics] using this
  have h1 : mnemonics (FixOperandsOfCmpsAndMovs instruction_set).1 =
      mnemonics instruction_set := by
    unfold mnemonics
    rw [cmpsMovs_instructions]
    exact mnemonics_map _ (fun r => cmpsMovs_body_mnemonic r Status.OK) _
  have h2 : mnemonics (FixOperandsOfInsAndOuts instruction_set).1 =
      mnemonics instruction_set := by
    unfold mnemonics
    rw [insOuts_instructions]
    exact mnemonics_map _ (fun r => insOuts_body_mnemonic r Status.OK) _
  have h3 : mnemonics (FixOperandsOfLodsScasAndStos instruction_set).1 =
      mnemonics instruction_set := by
    unfold mnemonics
    rw [lodsScasStos_instructions]
    exact mnemonics_map _ (fun r => lodsScasStos_body_mnemonic r Status.OK) _
  have h4 : mnemonics (FixOperandsOfVMovq DebugString instruction_set).1 =
      mnemonics instruction_set := by
    unfold mnemonics FixOperandsOfVMovq
    exact vmovq_loop_mnemonics DebugString _
  have h5 : mnemonics (RenameOperands instruction_set).1 = mnemonics instruction_set := by
    unfold mnemonics RenameOperands
    exact mnemonics_map RenameOperands.body (fun _ => rfl) _
  have h6 : mnemonics (RemoveImplicitST0Operand instruction_set).1 =
      mnemonics instruction_set := by
    unfold mnemonics RemoveImplicitST0Operand
    refine mnemonics_map _ (fun r => ?_) _
    unfold RemoveImplicitST0Operand.body
    split <;> rfl
  have h7 : mnemonics (RemoveImplicitXmm0Operand instruction_set).1 =
      mnemonics instruction_set := by
    unfold mnemonics RemoveImplicitXmm0Operand
    exact mnemonics_map RemoveImplicitXmm0Operand.body (fun _ => rfl) _
  refine ⟨⟨h1, hlen _ h1⟩, ⟨h2, hlen _ h2⟩, ⟨h3, hlen _ h3⟩, ⟨h4, hlen _ h4⟩, ⟨h5, hlen _ h5⟩,
    ⟨h6, hlen _ h6⟩, ⟨h7, hlen _ h7⟩, ?_, ?_⟩
  · unfold mnemonics
    rw [FixRegOperands_eq]
    simp only [List.map_append]
    rw [List.take_left' (by simp)]
    refine mnemonics_map _ (fun r => ?_) _
    exact operandLoop_mnemonic r [] r.vendor_syntax.operands [] Status.OK
  · rw [FixRegOperands_eq]
    simp only [List.length_append, List.length_map, collected_length]

/-! ## FixRegOperands: no placeholder is left on success -/

theorem foldl_combine_OK (l : List InstructionProto)
    (h : l.foldl (fun s i => FixRegOperands.combine s (FixRegOperands.assigned i)) Status.OK =
      Status.OK) :
    ∀ r ∈ l, FixRegOperands.assigned r = Status.OK := by
  intro r hr
  by_contra hne
  exact foldl_combine_error_of_mem l Status.OK r hr hne h

/-- The record that the loop over the operands leaves in place has no operand named reg
when the loop did not assign an error. -/
theorem updatedInPlace_no_reg_of_OK (r : InstructionProto)
    (h : FixRegOperands.assigned r = Status.OK) :
    ∀ o ∈ (InstructionProto.vendor_syntax (FixRegOperands.updatedInPlace r)).operands,
      o.name ≠ "reg" := by
  unfold FixRegOperands.assigned at h
  unfold FixRegOperands.updatedInPlace
  by_cases hlist :
      ContainsKey FixRegOperands.kExpandToAllSizes r.vendor_syntax.mnemonic = true ∨
      ContainsKey FixRegOperands.kRenameToReg8 r.vendor_syntax.mnemonic = true ∨
      ContainsKey FixRegOperands.kRenameToReg16 r.vendor_syntax.mnemonic = true ∨
      ContainsKey FixRegOperands.kRenameToReg32 r.vendor_syntax.mnemonic = true
  · exact operandLoop_settled r [] r.vendor_syntax.operands [] Status.OK
      (fun o ho => absurd ho (List.not_mem_nil o)) hlist
  · simp only [not_or, Bool.not_eq_true] at hlist
    obtain ⟨hE, h8, h16, h32⟩ := hlist
    obtain ⟨e1, _, e3⟩ := operandLoop_unlisted r [] r.vendor_syntax.operands [] Status.OK
      hE h8 h16 h32
    rw [e1]
    intro o ho hname
    exact e3 (Or.inr ⟨o, ho, hname⟩) h

/-- The records that the loop over the operands adds for a record with at most one
operand named reg have no operand named reg. -/
theorem collected_no_reg (r : InstructionProto)
    (h : r.vendor_syntax.mnemonic = "LAR" →
      r.vendor_syntax.operands.countP (fun o => o.name == "reg") ≤ 1) :
    ∀ c ∈ FixRegOperands.collected r, ∀ o ∈ c.vendor_syntax.operands, o.name ≠ "reg" := by
  intro c hc
  unfold FixRegOperands.collected at hc
  by_cases hm : r.vendor_syntax.mnemonic = "LAR"
  · rcases operandLoop_collected r [] r.vendor_syntax.operands [] Status.OK c hc with hnil | ⟨_, hle⟩
    · exact absurd hnil (List.not_mem_nil c)
    · have hr : FixRegOperands.regCount r.vendor_syntax.operands ≤ 1 := h hm
      have h0 : FixRegOperands.regCount [] = 0 := rfl
      have hzero : FixRegOperands.regCount c.vendor_syntax.operands = 0 := by omega
      intro o ho hname
      unfold FixRegOperands.regCount at hzero
      rw [List.countP_eq_zero] at hzero
      exact hzero o ho (by rw [hname]; decide)
  · have hlen := operandLoop_new_length r [] r.vendor_syntax.operands [] Status.OK
    have hE : ¬ ContainsKey FixRegOperands.kExpandToAllSizes r.vendor_syntax.mnemonic = true := by
      simp [ContainsKey, FixRegOperands.kExpandToAllSizes, hm]
    rw [if_neg hE] at hlen
    rw [List.eq_nil_of_length_eq_zero hlen] at hc
    exact absurd hc (List.not_mem_nil c)

/-- Counterexample to C21 as stated: for the LAR record with two operands named reg the
pass returns success, and the first appended record still has an operand named reg. -/
theorem FixRegOperands_placeholder_counterexample :
    (FixRegOperands Example.larTwoRegs).2 = Status.OK ∧
    ∃ r ∈ (FixRegOperands Example.larTwoRegs).1.instructions,
      ∃ o ∈ r.vendor_syntax.operands, o.name = "reg" := by
  decide

/-- C21, amended: for every document in which every LAR record has at most one operand
named reg, whenever `FixRegOperands` returns success, no operand named reg remains in any
record of the resulting document, the appended records included. -/
theorem FixRegOperands_no_placeholder_of_single_reg
    (instruction_set : InstructionSetProto)
    (h : ∀ r ∈ instruction_set.instructions, r.vendor_syntax.mnemonic = "LAR" →
      r.vendor_syntax.operands.countP (fun o => o.name == "reg") ≤ 1)
    (hok : (FixRegOperands instruction_set).2 = Status.OK) :
    ∀ r ∈ (FixRegOperands instruction_set).1.instructions,
      ∀ o ∈ r.vendor_syntax.operands, o.name ≠ "reg" := by
  rw [FixRegOperands_eq] at hok ⊢
  have hassigned := foldl_combine_OK instruction_set.instructions hok
  intro x hx
  rcases List.mem_append.1 hx with hx | hx
  · obtain ⟨r, hr, rfl⟩ := List.mem_map.1 hx
    exact updatedInPlace_no_reg_of_OK r (hassigned r hr)
  · obtain ⟨r, hr, hc⟩ := List.mem_flatMap.1 hx
    exact collected_no_reg r (h r hr) x hc

/-- Witness of C21, amended: for the LAR record with one operand named reg the pass
returns success, and the appended record, with the operand r32, has no operand named
reg. -/
theorem FixRegOperands_no_placeholder_of_single_reg_witness :
    (FixRegOperands Example.lar).2 = Status.OK ∧
    (⟨⟨"LAR", [⟨"r32", .USAGE_WRITE, .EXPLICIT_ENCODING⟩,
        ⟨"r32/m16", .USAGE_READ, .EXPLICIT_ENCODING⟩]⟩, "0F 02 /r", "Load Access Rights"⟩ :
      InstructionProto) ∈ (FixRegOperands Example.lar).1.instructions ∧
    (⟨"r32", .USAGE_WRITE, .EXPLICIT_ENCODING⟩ : InstructionOperand).name ≠ "reg" :=
  ⟨by decide, by decide,
   FixRegOperands_no_placeholder_of_single_reg Example.lar (by decide) (by decide)
    ⟨⟨"LAR", [⟨"r32", .USAGE_WRITE, .EXPLICIT_ENCODING⟩,
      ⟨"r32/m16", .USAGE_READ, .EXPLICIT_ENCODING⟩]⟩, "0F 02 /r", "Load Access Rights"⟩
    (by decide) ⟨"r32", .USAGE_WRITE, .EXPLICIT_ENCODING⟩ (by decide)⟩

end cpu_instructions
